import Mathlib

/-!
# Shopicano backend: handlers, pagination, image responses and order statistics

A shallow embedding of the request handlers of `api/product.go`, `api/stats.go` and
`core/response.go`.  Handlers are functions from their inputs (request context,
validator result, database state, clock readings, generated identifiers) to the
response they send and the database state they leave behind.  The repository
layer (`data.ProductRepository`, `data.OrderRepository`) is an interface in the
program; here it is a structure of functions over an abstract database state, so
every theorem about a handler holds for every implementation of the repository.

Conventions
* `int64` values are `Int`, wrapped with `wrap64` where Go arithmetic can overflow;
  `int` is taken to be 64 bits wide, so `int(x)` is the identity on `int64`.
* a Go `error` result is an `Option` (`none` is `nil`), a `(value, error)` result is
  an `Except` or a pair when the value is used in spite of the error.
* Go strings are treated as sequences of characters; the functions embedded here
  only inspect ASCII characters and Unicode white space.
-/

namespace Shopicano

/-! ## Package `strconv` (Go standard library) -/

/-- The two error kinds of `strconv`: `ErrSyntax` and `ErrRange`. -/
inductive NumError
  | ErrSyntax
  | ErrRange
  deriving DecidableEq, Repr

/-- Go's `lower(c)` of `strconv`: `c | ('x' - 'X')`. -/
def lower (c : Nat) : Nat := c ||| 0x20

/-- The digit loop of `strconv.ParseUint(s, 10, 64)` over the remaining characters,
with `n` the value accumulated so far.  `cutoff = maxUint64/10 + 1`,
`maxVal = 1<<64 - 1`; the first overflow returns `(maxVal, ErrRange)` at once,
without looking at the characters that follow. -/
def parseUintLoop : List Char → Nat → Nat × Option NumError
  | [], n => (n, none)
  | ch :: cs, n =>
    let c := ch.toNat
    let digit : Option Nat :=
      if 48 ≤ c ∧ c ≤ 57 then some (c - 48)
      else if 97 ≤ lower c ∧ lower c ≤ 122 then some (lower c - 97 + 10)
      else none
    match digit with
    | none => (0, some NumError.ErrSyntax)
    | some d =>
      if d ≥ 10 then (0, some NumError.ErrSyntax)
      else if n ≥ (2 ^ 64 - 1) / 10 + 1 then (2 ^ 64 - 1, some NumError.ErrRange)
      else
        let n10 := (n * 10) % 2 ^ 64
        let n1 := (n10 + d) % 2 ^ 64
        if n1 < n10 ∨ n1 > 2 ^ 64 - 1 then (2 ^ 64 - 1, some NumError.ErrRange)
        else parseUintLoop cs n1

/-- Go's `strconv.ParseUint(s, 10, 64)`. -/
def ParseUint (s : List Char) : Nat × Option NumError :=
  match s with
  | [] => (0, some NumError.ErrSyntax)
  | _ => parseUintLoop s 0

/-- Go's `strconv.ParseInt(s, 10, 64)`: the value and the error, both of which the
callers may use (a range error comes with the nearest representable value, a
syntax error with 0). -/
def ParseInt (s : String) : Int × Option NumError :=
  match s.data with
  | [] => (0, some NumError.ErrSyntax)
  | c :: rest =>
    let neg := decide (c = '-')
    let body := if c = '+' ∨ c = '-' then rest else c :: rest
    let r := ParseUint body
    if r.2 = some NumError.ErrSyntax then (0, some NumError.ErrSyntax)
    else if !neg && decide (r.1 ≥ 2 ^ 63) then (2 ^ 63 - 1, some NumError.ErrRange)
    else if neg && decide (r.1 > 2 ^ 63) then (-(2 ^ 63), some NumError.ErrRange)
    else (if neg then -(r.1 : Int) else (r.1 : Int), none)

/-- An ASCII decimal digit, `'0'` to `'9'`. -/
def isDecimalDigit (c : Char) : Bool := decide (48 ≤ c.toNat) && decide (c.toNat ≤ 57)

/-- The natural number written by a sequence of decimal digits, most significant
first, continuing from the value `n` of the digits already read. -/
def decimalValueFrom (n : Nat) (digits : List Char) : Nat :=
  digits.foldl (fun n c => n * 10 + (c.toNat - 48)) n

/-- The integer written by a decimal numeral: an optional sign `+` or `-` followed
by one or more decimal digits; `none` for any other text. -/
def signedDecimal (s : List Char) : Option Int :=
  match s with
  | [] => none
  | c :: rest =>
    let body := if c = '+' ∨ c = '-' then rest else c :: rest
    if body ≠ [] ∧ body.all isDecimalDigit = true then
      some (if c = '-' then -(decimalValueFrom 0 body : Int) else (decimalValueFrom 0 body : Int))
    else none

/-- Two's-complement wrap-around of a mathematical integer to `int64`. -/
def wrap64 (x : Int) : Int := (x + 2 ^ 63) % 2 ^ 64 - 2 ^ 63

/-! ## Package `strings` (Go standard library) -/

/-- Go's `unicode.IsSpace`: the white-space characters of Unicode. -/
def isSpace (c : Char) : Bool :=
  let n := c.toNat
  (9 ≤ n && n ≤ 13) || n == 0x20 || n == 0x85 || n == 0xA0 || n == 0x1680 ||
  (0x2000 ≤ n && n ≤ 0x200A) || n == 0x2028 || n == 0x2029 || n == 0x202F ||
  n == 0x205F || n == 0x3000

/-- Go's `strings.TrimSpace`: the string without its leading and trailing white space. -/
def TrimSpace (s : String) : String :=
  String.mk (((s.toList.dropWhile isSpace).reverse.dropWhile isSpace).reverse)

/-! ## Errors and the response envelope -/

/-- Modelled from the spec: an error returned by the repository layer (package
`errors` and the ORM are not among the sources).  §7 distinguishes exactly three
kinds: not-found, duplicate-key (which carries the message used as the response
title) and every other database failure. -/
inductive DbError
  | recordNotFound
  | duplicateKey (msg : String)
  | other (msg : String)
  deriving DecidableEq, Repr

/-- Modelled from the spec: `errors.IsDuplicateKeyError`, the message and whether
the error is a duplicate-key violation. -/
def IsDuplicateKeyError : DbError → String × Bool
  | DbError.duplicateKey msg => (msg, true)
  | _ => ("", false)

/-- Modelled from the spec: `errors.IsRecordNotFoundError`. -/
def IsRecordNotFoundError : DbError → Bool
  | DbError.recordNotFound => true
  | _ => false

/-- The field errors produced by a validator (`errors.ValidationError`). -/
structure ValidationError where
  Fields : List (String × String)
  deriving DecidableEq, Repr

/-- The error codes of package `errors` that the handlers use; `none` is the zero
value of an unset `Code`. -/
inductive ErrorCode
  | none
  | ProductCreationDataInvalid
  | ProductAlreadyExists
  | ProductNotFound
  | ProductAttributeCreationDataInvalid
  | ProductAttributeAlreadyExists
  | DatabaseQueryFailed
  deriving DecidableEq, Repr

/-- The value of the `Errors` field of a response. -/
inductive RespError
  | validation (e : ValidationError)
  | db (e : DbError)
  deriving DecidableEq, Repr

def StatusOK : Nat := 200
def StatusCreated : Nat := 201
def StatusNoContent : Nat := 204
def StatusNotFound : Nat := 404
def StatusConflict : Nat := 409
def StatusUnprocessableEntity : Nat := 422
def StatusInternalServerError : Nat := 500

/-- Type `core.Response`, with `δ` the type of the payload in `Data`. -/
structure Response (δ : Type) where
  Code : ErrorCode := ErrorCode.none
  Status : Nat := 0
  Title : String := ""
  Data : Option δ := none
  Errors : Option RespError := none
  deriving DecidableEq, Repr

/-! ## Products -/

/-- A point in time, in nanoseconds since the Unix epoch. -/
abbrev Time := Int

/-- Type `models.Product`, with the fields the handlers assign. -/
structure Product where
  ID : String
  StoreID : String
  Price : Int
  Stock : Int
  Name : String
  IsShippable : Bool
  CategoryID : Option String
  IsPublished : Bool
  IsDigital : Bool
  AdditionalImages : String
  SKU : String
  Unit : String
  DigitalDownloadLink : String
  Image : String
  Description : String
  CreatedAt : Time
  UpdatedAt : Time
  deriving DecidableEq, Repr

/-- Type `models.ProductAttribute`. -/
structure ProductAttribute where
  ProductID : String
  Key : String
  Value : String
  deriving DecidableEq, Repr

/-- The request body accepted by `validators.ValidateCreateProduct` and
`validators.ValidateUpdateProduct`, with the fields the handlers read. -/
structure ReqProduct where
  StoreID : String
  Price : Int
  Stock : Int
  Name : String
  IsShippable : Bool
  CategoryID : Option String
  IsPublished : Bool
  IsDigital : Bool
  AdditionalImages : List String
  SKU : String
  Unit : String
  DigitalDownloadLink : String
  Image : String
  Description : String
  deriving DecidableEq, Repr

/-- The request body accepted by `validators.ValidateAddProductAttribute`. -/
structure ReqProductAttribute where
  Key : String
  Value : String
  deriving DecidableEq, Repr

/-- Interface `data.ProductRepository` over a database state `σ`.  Writes return the error
(or `nil`) and the state they leave; reads return a value or an error.  `π` is the
public view of a product (`GetDetails`), `ρ` a page of results. -/
structure ProductRepository (σ π ρ : Type) where
  Create : σ → Product → Option DbError × σ
  Get : σ → String → Except DbError Product
  GetAsStoreStuff : σ → String → String → Except DbError Product
  GetDetails : σ → String → Except DbError π
  Update : σ → String → Product → Option DbError × σ
  Delete : σ → String → String → Option DbError × σ
  AddAttribute : σ → ProductAttribute → Option DbError × σ
  RemoveAttribute : σ → String → String → Option DbError × σ
  List : σ → Int → Int → Except DbError ρ
  ListAsStoreStuff : σ → String → Int → Int → Except DbError ρ
  Search : σ → String → Int → Int → Except DbError ρ
  SearchAsStoreStuff : σ → String → String → Int → Int → Except DbError ρ

/-- What a handler reads from `echo.Context`: the store id put there by the
middleware, whether the caller is store staff, path parameters and query
parameters (an absent parameter reads as the empty string). -/
structure Context where
  StoreID : String
  IsStoreStaff : Bool
  Param : String → String
  QueryParam : String → String

/-- The payload of a product response: the staff view, the public view or a page. -/
inductive ProductData (π ρ : Type)
  | product (p : Product)
  | details (d : π)
  | page (r : ρ)
  deriving DecidableEq, Repr

/-- Lines 53-55 and 132-134 of `api/product.go`: an empty `category_id` becomes
absent. -/
def normalizeCategoryID (req : ReqProduct) : ReqProduct :=
  match req.CategoryID with
  | some c => if c = "" then { req with CategoryID := none } else req
  | none => req

/-- Lines 57-66 and 140-149 of `api/product.go`: the loop that joins the
non-blank additional images with commas. -/
def joinImages (additionalImages : List String) : String :=
  additionalImages.foldl
    (fun images i =>
      if TrimSpace i = "" then images
      else (if images ≠ "" then images ++ "," else images) ++ TrimSpace i)
    ""

/-- Lines 52-86 of `api/product.go`: the record `createProduct` builds from a
valid request.  `uuid` is the value of `utils.NewUUID()`, `createdAt` and
`updatedAt` the two readings of `time.Now().UTC()`. -/
def newProduct (ctx : Context) (req : ReqProduct) (uuid : String)
    (createdAt updatedAt : Time) : Product :=
  let storeID := ctx.StoreID
  let req := { req with StoreID := storeID }
  let req := normalizeCategoryID req
  let images := joinImages req.AdditionalImages
  { ID := uuid, StoreID := req.StoreID, Price := req.Price, Stock := req.Stock,
    Name := req.Name, IsShippable := req.IsShippable, CategoryID := req.CategoryID,
    IsPublished := req.IsPublished, IsDigital := req.IsDigital,
    AdditionalImages := images, SKU := req.SKU, Unit := req.Unit,
    DigitalDownloadLink := req.DigitalDownloadLink, Image := req.Image,
    Description := req.Description, CreatedAt := createdAt, UpdatedAt := updatedAt }

/-- Lines 131-149 and 160-175 of `api/product.go`: the record `updateProduct`
hands to `Update`, from the valid request and the record `p` that `Get` returned.
`now` is the reading of `time.Now().UTC()`. -/
def updatedProduct (ctx : Context) (req : ReqProduct) (p : Product) (now : Time) : Product :=
  let storeID := ctx.StoreID
  let productID := ctx.Param "product_id"
  let req := { req with StoreID := storeID }
  let req := normalizeCategoryID req
  let images := joinImages req.AdditionalImages
  { p with ID := productID, StoreID := req.StoreID, Price := req.Price,
           Stock := req.Stock, Name := req.Name, IsShippable := req.IsShippable,
           CategoryID := req.CategoryID, IsPublished := req.IsPublished,
           IsDigital := req.IsDigital, AdditionalImages := images, SKU := req.SKU,
           Unit := req.Unit, DigitalDownloadLink := req.DigitalDownloadLink,
           Image := req.Image, Description := req.Description, UpdatedAt := now }

section Handlers

variable {σ π ρ : Type}

/-- Handler `createProduct` of `api/product.go`.  `req` is the result of
`validators.ValidateCreateProduct`; for `uuid`, `createdAt` and `updatedAt` see
`newProduct`. -/
def createProduct (pu : ProductRepository σ π ρ) (db : σ) (ctx : Context)
    (req : Except ValidationError ReqProduct) (uuid : String) (createdAt updatedAt : Time) :
    Response (ProductData π ρ) × σ :=
  match req with
  | Except.error err =>
    ({ Title := "Invalid data", Status := StatusUnprocessableEntity,
       Code := ErrorCode.ProductCreationDataInvalid,
       Errors := some (RespError.validation err) }, db)
  | Except.ok req =>
    let p := newProduct ctx req uuid createdAt updatedAt
    match pu.Create db p with
    | (some err, db1) =>
      let r := IsDuplicateKeyError err
      if r.2 then
        ({ Title := r.1, Status := StatusConflict, Code := ErrorCode.ProductAlreadyExists,
           Errors := some (RespError.db err) }, db1)
      else
        ({ Title := "Database query failed", Status := StatusInternalServerError,
           Code := ErrorCode.DatabaseQueryFailed, Errors := some (RespError.db err) }, db1)
    | (none, db1) =>
      ({ Status := StatusCreated, Title := "Product created",
         Data := some (ProductData.product p) }, db1)

/-- Handler `updateProduct` of `api/product.go`.  `req` is the result of
`validators.ValidateUpdateProduct`, `now` the reading of `time.Now().UTC()`. -/
def updateProduct (pu : ProductRepository σ π ρ) (db : σ) (ctx : Context)
    (req : Except ValidationError ReqProduct) (now : Time) :
    Response (ProductData π ρ) × σ :=
  let productID := ctx.Param "product_id"
  match req with
  | Except.error err =>
    ({ Title := "Invalid data", Status := StatusUnprocessableEntity,
       Code := ErrorCode.ProductCreationDataInvalid,
       Errors := some (RespError.validation err) }, db)
  | Except.ok req =>
    match pu.Get db productID with
    | Except.error err =>
      ({ Title := "Product not found", Status := StatusNotFound,
         Code := ErrorCode.ProductNotFound, Errors := some (RespError.db err) }, db)
    | Except.ok p =>
      let p := updatedProduct ctx req p now
      match pu.Update db productID p with
      | (some err, db1) =>
        let r := IsDuplicateKeyError err
        if r.2 then
          ({ Title := r.1, Status := StatusConflict, Code := ErrorCode.ProductAlreadyExists,
             Errors := some (RespError.db err) }, db1)
        else
          ({ Title := "Database query failed", Status := StatusInternalServerError,
             Code := ErrorCode.DatabaseQueryFailed, Errors := some (RespError.db err) }, db1)
      | (none, db1) =>
        ({ Status := StatusOK, Title := "Product updated",
           Data := some (ProductData.product p) }, db1)

/-- Handler `deleteProduct` of `api/product.go`. -/
def deleteProduct (pu : ProductRepository σ π ρ) (db : σ) (ctx : Context) :
    Response (ProductData π ρ) × σ :=
  let storeID := ctx.StoreID
  let productID := ctx.Param "product_id"
  match pu.Delete db storeID productID with
  | (some err, db1) =>
    if IsRecordNotFoundError err then
      ({ Title := "Product not found", Status := StatusNotFound,
         Code := ErrorCode.ProductNotFound, Errors := some (RespError.db err) }, db1)
    else
      ({ Title := "Database query failed", Status := StatusInternalServerError,
         Code := ErrorCode.DatabaseQueryFailed, Errors := some (RespError.db err) }, db1)
  | (none, db1) => ({ Status := StatusNoContent }, db1)

/-- Handler `getProduct` of `api/product.go`. -/
def getProduct (pu : ProductRepository σ π ρ) (db : σ) (ctx : Context) :
    Response (ProductData π ρ) × σ :=
  let productID := ctx.Param "product_id"
  let r : Except DbError (ProductData π ρ) :=
    if ctx.IsStoreStaff then
      (pu.GetAsStoreStuff db ctx.StoreID productID).map ProductData.product
    else
      (pu.GetDetails db productID).map ProductData.details
  match r with
  | Except.error err =>
    if IsRecordNotFoundError err then
      ({ Title := "Product not found", Status := StatusNotFound,
         Code := ErrorCode.ProductNotFound, Errors := some (RespError.db err) }, db)
    else
      ({ Title := "Database query failed", Status := StatusInternalServerError,
         Code := ErrorCode.DatabaseQueryFailed, Errors := some (RespError.db err) }, db)
  | Except.ok p => ({ Status := StatusOK, Data := some p }, db)

/-- Function `fetchProducts` of `api/product.go`; `frm` is the variable `from`. -/
def fetchProducts (pu : ProductRepository σ π ρ) (db : σ) (ctx : Context)
    (page limit : Int) (isPublic : Bool) : Except DbError ρ :=
  let frm := wrap64 (wrap64 (page - 1) * limit)
  if isPublic then pu.List db frm limit
  else pu.ListAsStoreStuff db ctx.StoreID frm limit

/-- Function `searchProducts` of `api/product.go`; `frm` is the variable `from`. -/
def searchProducts (pu : ProductRepository σ π ρ) (db : σ) (ctx : Context)
    (query : String) (page limit : Int) (isPublic : Bool) : Except DbError ρ :=
  let frm := wrap64 (wrap64 (page - 1) * limit)
  if isPublic then pu.Search db query frm limit
  else pu.SearchAsStoreStuff db query ctx.StoreID frm limit

/-- Lines 270-281 of `api/product.go` (and 268-279 of `api/coupon.go`): the page
and the limit read from the query string, with their fall-backs. -/
def pageAndLimit (ctx : Context) : Int × Int :=
  let pageQ := ctx.QueryParam "page"
  let limitQ := ctx.QueryParam "limit"
  let r := ParseInt pageQ
  let page := if r.2 ≠ none then 1 else r.1
  let r := ParseInt limitQ
  let limit := if r.2 ≠ none then 10 else r.1
  (page, limit)

/-- Lines 293-303 of `api/product.go` (and 291-301 of `api/coupon.go`): the
response to a listing, from the result `r, err` of the repository. -/
def respondPage (db : σ) (r : Except DbError ρ) : Response (ProductData π ρ) × σ :=
  match r with
  | Except.error err =>
    ({ Title := "Database query failed", Status := StatusInternalServerError,
       Code := ErrorCode.DatabaseQueryFailed, Errors := some (RespError.db err) }, db)
  | Except.ok r => ({ Status := StatusOK, Data := some (ProductData.page r) }, db)

/-- Handler `listProducts` of `api/product.go`. -/
def listProducts (pu : ProductRepository σ π ρ) (db : σ) (ctx : Context) :
    Response (ProductData π ρ) × σ :=
  let query := ctx.QueryParam "query"
  let page := (pageAndLimit ctx).1
  let limit := (pageAndLimit ctx).2
  respondPage db
    (if query = "" then fetchProducts pu db ctx page limit (!ctx.IsStoreStaff)
     else searchProducts pu db ctx query page limit (!ctx.IsStoreStaff))

/-- Handler `listCoupon` of `api/coupon.go`: the same statements as `listProducts`. -/
def listCoupon (pu : ProductRepository σ π ρ) (db : σ) (ctx : Context) :
    Response (ProductData π ρ) × σ :=
  let query := ctx.QueryParam "query"
  let page := (pageAndLimit ctx).1
  let limit := (pageAndLimit ctx).2
  respondPage db
    (if query = "" then fetchProducts pu db ctx page limit (!ctx.IsStoreStaff)
     else searchProducts pu db ctx query page limit (!ctx.IsStoreStaff))

/-- Handler `addProductAttribute` of `api/product.go`.  `req` is the result of
`validators.ValidateAddProductAttribute`. -/
def addProductAttribute (pu : ProductRepository σ π ρ) (db : σ) (ctx : Context)
    (req : Except ValidationError ReqProductAttribute) : Response (ProductData π ρ) × σ :=
  let storeID := ctx.StoreID
  let productID := ctx.Param "product_id"
  match req with
  | Except.error err =>
    ({ Title := "Invalid data", Status := StatusUnprocessableEntity,
       Code := ErrorCode.ProductAttributeCreationDataInvalid,
       Errors := some (RespError.validation err) }, db)
  | Except.ok req =>
    match pu.GetAsStoreStuff db storeID productID with
    | Except.error err =>
      ({ Title := "Product not found", Status := StatusNotFound,
         Code := ErrorCode.ProductNotFound, Errors := some (RespError.db err) }, db)
    | Except.ok p =>
      let v : ProductAttribute := { ProductID := p.ID, Key := req.Key, Value := req.Value }
      match pu.AddAttribute db v with
      | (some err, db1) =>
        let r := IsDuplicateKeyError err
        if r.2 then
          ({ Title := r.1, Status := StatusConflict,
             Code := ErrorCode.ProductAttributeAlreadyExists,
             Errors := some (RespError.db err) }, db1)
        else
          ({ Title := "Database query failed", Status := StatusInternalServerError,
             Code := ErrorCode.DatabaseQueryFailed, Errors := some (RespError.db err) }, db1)
      | (none, db1) => ({ Status := StatusOK, Title := "Product attribute added" }, db1)

/-- Handler `deleteProductAttribute` of `api/product.go`. -/
def deleteProductAttribute (pu : ProductRepository σ π ρ) (db : σ) (ctx : Context) :
    Response (ProductData π ρ) × σ :=
  let storeID := ctx.StoreID
  let productID := ctx.Param "product_id"
  let attributeKey := ctx.Param "attribute_key"
  match pu.GetAsStoreStuff db storeID productID with
  | Except.error err =>
    ({ Title := "Product not found", Status := StatusNotFound,
       Code := ErrorCode.ProductNotFound, Errors := some (RespError.db err) }, db)
  | Except.ok p =>
    match pu.RemoveAttribute db p.ID attributeKey with
    | (some err, db1) =>
      ({ Title := "Database query failed", Status := StatusInternalServerError,
         Code := ErrorCode.DatabaseQueryFailed, Errors := some (RespError.db err) }, db1)
    | (none, db1) => ({ Status := StatusNoContent }, db1)

end Handlers

/-! ## The image response of `core/response.go` -/

/-- What `ServeStreamFromMinio` sends as the body of the response, for a decoded
image type `ι`. -/
inductive Served (ι : Type)
  /-- The bytes of the object, by `io.Copy(ctx.Response().Writer, object)`. -/
  | copied (bytes : List UInt8)
  /-- No body: `imaging.Decode` failed and the handler returns `nil`. -/
  | nothing
  /-- The output of `imaging.Encode(w, imaging.Resize(img, width, height, imaging.Lanczos),
  imaging.JPEG, imaging.JPEGQuality(quality))`. -/
  | encoded (img : ι) (width height : Int) (quality : Int)
  deriving DecidableEq, Repr

/-- Method `Response.ServeStreamFromMinio` of `core/response.go`, from the query
parameters on: `object` is the content of the stored object and `Decode` is
`imaging.Decode` (`none` when it returns an error). -/
def ServeStreamFromMinio {ι : Type} (Decode : List UInt8 → Option ι) (ctx : Context)
    (object : List UInt8) : Served ι :=
  let heightQ := ctx.QueryParam "height"
  let widthQ := ctx.QueryParam "width"
  let qualityQ := ctx.QueryParam "quality"
  let height := (ParseInt heightQ).1
  let width := (ParseInt widthQ).1
  let quality := (ParseInt qualityQ).1
  let resized : Option (Option (ι × Int × Int)) :=
    if height ≠ 0 ∧ width ≠ 0 then
      some ((Decode object).map (fun img => (img, width, height)))
    else if height ≠ 0 ∧ width = 0 then
      some ((Decode object).map (fun img => (img, 0, height)))
    else if height = 0 ∧ width ≠ 0 then
      some ((Decode object).map (fun img => (img, width, 0)))
    else none
  match resized with
  | none => Served.copied object
  | some none => Served.nothing
  | some (some (img, w, h)) =>
    if quality ≤ 0 ∨ quality > 100 then Served.encoded img w h 100
    else Served.encoded img w h quality

/-! ## Order statistics of `api/stats.go` -/

/-- Go's `time.Hour`, in nanoseconds. -/
def Hour : Int := 3600 * 1000000000

/-- The layout `utils.DateFormat` (not among the sources) as the two functions the
handler applies with it: `Format` is `t.Format(utils.DateFormat)` and `Parse` is
the value of `time.Parse(utils.DateFormat, s)`, whose error the handler drops. -/
structure DateLayout where
  Format : Time → String
  Parse : String → Time

/-- Assignment `m[k] = v` on a Go map, kept as a list of entries with distinct
keys. -/
def mapPut {κ ν : Type} [DecidableEq κ] : List (κ × ν) → κ → ν → List (κ × ν)
  | [], k, v => [(k, v)]
  | (k1, v1) :: rest, k, v =>
    if k1 = k then (k, v) :: rest else (k1, v1) :: mapPut rest k v

/-- The loop `for len(timeFrames) < n { timeFrames[prev] = now; now = prev;
prev = now.Add(step) }` of `orderStats`, run for at most `fuel` iterations; `none`
when the loop is still running after them. -/
def buildTimeFrames (n : Nat) (step : Int) :
    Nat → List (Time × Time) → Time → Time → Option (List (Time × Time))
  | 0, timeFrames, _, _ => if timeFrames.length < n then none else some timeFrames
  | fuel + 1, timeFrames, now, prev =>
    if timeFrames.length < n then
      buildTimeFrames n step fuel (mapPut timeFrames prev now) prev (prev + step)
    else some timeFrames

/-- Lines 99-133 of `api/stats.go`: the time frames for a `timeline` selector,
from the clock reading `clock` of `time.Now()`. -/
def timeFramesFor (fuel : Nat) (timeline : String) (clock : Time) :
    Option (List (Time × Time)) :=
  if timeline = "w" then
    buildTimeFrames 7 (Hour * -24) fuel [] clock (clock + Hour * -24)
  else if timeline = "m" then
    buildTimeFrames 5 (Hour * 7 * -24) fuel [] clock (clock + Hour * 7 * -24)
  else if timeline = "y" then
    buildTimeFrames 12 (Hour * 30 * -24) fuel [] clock (clock + Hour * 30 * -24)
  else some []

/-- Type `models.Summary`: the bucket label `Time` and the aggregated totals. -/
structure Summary where
  Time : String
  Totals : List (String × Int)
  deriving DecidableEq, Repr

/-- A row of `CountByStatus` / `EarningsByStatus`. -/
structure StatusCount where
  Key : String
  Value : Int
  deriving DecidableEq, Repr

/-- Interface `data.OrderRepository`, with the four reads `orderStats` makes. -/
structure OrderRepository (σ : Type) where
  StoreSummary : σ → String → Except DbError Summary
  StoreSummaryByTime : σ → String → Time → Time → Except DbError Summary
  CountByStatus : σ → String → Time → Time → Except DbError (List StatusCount)
  EarningsByStatus : σ → String → Time → Time → Except DbError (List StatusCount)

/-- Modelled from the spec: the order states of package `models` (not among the
sources), §3: pending/confirmed/shipping/delivered/cancelled. -/
def OrderPending : String := "pending"
/-- Modelled from the spec: see `OrderPending`. -/
def OrderConfirmed : String := "confirmed"
/-- Modelled from the spec: see `OrderPending`. -/
def OrderShipping : String := "shipping"
/-- Modelled from the spec: see `OrderPending`. -/
def OrderDelivered : String := "delivered"
/-- Modelled from the spec: see `OrderPending`. -/
def OrderCancelled : String := "cancelled"
/-- Modelled from the spec: the payment states of package `models` (not among the
sources), §3: pending/completed/failed/reverted. -/
def PaymentPending : String := "pending"
/-- Modelled from the spec: see `PaymentPending`. -/
def PaymentCompleted : String := "completed"
/-- Modelled from the spec: see `PaymentPending`. -/
def PaymentFailed : String := "failed"
/-- Modelled from the spec: see `PaymentPending`. -/
def PaymentReverted : String := "reverted"

/-- Lines 189-216 of `api/stats.go`: the order counts of one bucket. -/
def orderCounts (cStat : List StatusCount) : List (String × Int) :=
  let c := cStat.foldl
    (fun (c : Int × Int × Int × Int × Int) x =>
      if x.Key = OrderPending then (x.Value, c.2.1, c.2.2.1, c.2.2.2.1, c.2.2.2.2)
      else if x.Key = OrderConfirmed then (c.1, x.Value, c.2.2.1, c.2.2.2.1, c.2.2.2.2)
      else if x.Key = OrderShipping then (c.1, c.2.1, x.Value, c.2.2.2.1, c.2.2.2.2)
      else if x.Key = OrderDelivered then (c.1, c.2.1, c.2.2.1, x.Value, c.2.2.2.2)
      else if x.Key = OrderCancelled then (c.1, c.2.1, c.2.2.1, c.2.2.2.1, x.Value)
      else c)
    (0, 0, 0, 0, 0)
  [("pending", c.1), ("confirmed", c.2.1), ("shipping", c.2.2.1),
   ("delivered", c.2.2.2.1), ("cancelled", c.2.2.2.2)]

/-- Lines 227-250 of `api/stats.go`: the earnings of one bucket. -/
def earningCounts (eStat : List StatusCount) : List (String × Int) :=
  let c := eStat.foldl
    (fun (c : Int × Int × Int × Int) x =>
      if x.Key = PaymentPending then (x.Value, c.2.1, c.2.2.1, c.2.2.2)
      else if x.Key = PaymentCompleted then (c.1, x.Value, c.2.2.1, c.2.2.2)
      else if x.Key = PaymentFailed then (c.1, c.2.1, x.Value, c.2.2.2)
      else if x.Key = PaymentReverted then (c.1, c.2.1, c.2.2.1, x.Value)
      else c)
    (0, 0, 0, 0)
  [("pending", c.1), ("completed", c.2.1), ("failed", c.2.2.1), ("reverted", c.2.2.2)]

/-- The comparator given to `treemap.NewWith` (lines 145-155 and 157-167). -/
def compareByStart (layout : DateLayout) (x y : String) : Int :=
  if layout.Parse x > layout.Parse y then 1 else -1

/-- Method `Put` on a `treemap` with comparator `cmp`, seen through the in-order sequence
of its entries: the search for the key goes right past the entries the key
compares greater than, and stops at the first other entry, replacing it when the
comparator returns 0 and inserting before it otherwise. -/
def treemapPut {ν : Type} (cmp : String → String → Int) :
    List (String × ν) → String → ν → List (String × ν)
  | [], k, v => [(k, v)]
  | (k1, v1) :: rest, k, v =>
    if cmp k k1 = 0 then (k, v) :: rest
    else if cmp k k1 < 0 then (k, v) :: (k1, v1) :: rest
    else (k1, v1) :: treemapPut cmp rest k v

/-- One pass of the inner loop of an insertion sort: `x`, placed after the
elements of `sorted` (given last element first), moves towards the front while
`less x y` holds for the element `y` before it. -/
def sinkInto {α : Type} (less : α → α → Bool) (x : α) : List α → List α
  | [] => [x]
  | y :: rest => if less x y then y :: sinkInto less x rest else x :: y :: rest

/-- Go's `sort.Slice` for a slice of at most 12 elements, where the standard library
runs an insertion sort: each element in turn is swapped towards the front while
`less` holds between it and its predecessor.  (Releases before Go 1.19 first make one
pass of swaps at distance 6; it only changes the order the insertion sort starts
from, which in `orderStats` is the unspecified iteration order of a map.) -/
def sortSlice {α : Type} (less : α → α → Bool) (xs : List α) : List α :=
  (xs.foldl (fun sorted x => sinkInto less x sorted) []).reverse

/-- The variables the loop over the time frames of `orderStats` builds up. -/
structure StatsAcc where
  timeWiseSummary : List Summary
  ordersStats : List (String × List (String × Int))
  earningsStats : List (String × List (String × Int))
  deriving DecidableEq, Repr

/-- The payload of the response of `orderStats`. -/
structure OrderStatsData where
  report : Summary
  reports_by_time : List Summary
  orders_by_time : List (String × List (String × Int))
  earnings_by_time : List (String × List (String × Int))
  deriving DecidableEq, Repr

/-- Lines 169-253 of `api/stats.go`: the loop `for k, v := range timeFrames`, over
the entries in the order the iteration visits them; the first failing query ends
it with that error. -/
def statsLoop {σ : Type} (ou : OrderRepository σ) (db : σ) (ctx : Context)
    (layout : DateLayout) : List (Time × Time) → StatsAcc → Except DbError StatsAcc
  | [], acc => Except.ok acc
  | (k, v) :: rest, acc =>
    match ou.StoreSummaryByTime db ctx.StoreID k v with
    | Except.error err => Except.error err
    | Except.ok sum =>
      let sum := { sum with Time := layout.Format k }
      match ou.CountByStatus db ctx.StoreID k v with
      | Except.error err => Except.error err
      | Except.ok cStat =>
        let ordersStats :=
          treemapPut (compareByStart layout) acc.ordersStats sum.Time (orderCounts cStat)
        match ou.EarningsByStatus db ctx.StoreID k v with
        | Except.error err => Except.error err
        | Except.ok eStat =>
          let earningsStats :=
            treemapPut (compareByStart layout) acc.earningsStats sum.Time (earningCounts eStat)
          statsLoop ou db ctx layout rest
            { timeWiseSummary := acc.timeWiseSummary ++ [sum],
              ordersStats := ordersStats, earningsStats := earningsStats }

/-- Handler `orderStats` of `api/stats.go`.  `clock` is the reading of `time.Now()`,
`rangeOrder` the order in which `range` visits the entries of the map
`timeFrames` (unspecified in Go), `fuel` the number of iterations allowed to the
loop that builds the time frames (`none` when they do not suffice). -/
def orderStats {σ : Type} (ou : OrderRepository σ) (db : σ) (ctx : Context)
    (layout : DateLayout) (rangeOrder : List (Time × Time) → List (Time × Time))
    (fuel : Nat) (clock : Time) : Option (Response OrderStatsData) :=
  match timeFramesFor fuel (ctx.QueryParam "timeline") clock with
  | none => none
  | some timeFrames =>
    match ou.StoreSummary db ctx.StoreID with
    | Except.error err =>
      some { Title := "Database query failed", Status := StatusInternalServerError,
             Code := ErrorCode.DatabaseQueryFailed, Errors := some (RespError.db err) }
    | Except.ok summary =>
      match statsLoop ou db ctx layout (rangeOrder timeFrames)
          { timeWiseSummary := [], ordersStats := [], earningsStats := [] } with
      | Except.error err =>
        some { Title := "Database query failed", Status := StatusInternalServerError,
               Code := ErrorCode.DatabaseQueryFailed, Errors := some (RespError.db err) }
      | Except.ok acc =>
        let timeWiseSummary :=
          sortSlice (fun x y => !decide (layout.Parse x.Time > layout.Parse y.Time))
            acc.timeWiseSummary
        let ordersIt := acc.ordersStats.foldl (fun m kv => mapPut m kv.1 kv.2) []
        let earningsIt := acc.earningsStats.foldl (fun m kv => mapPut m kv.1 kv.2) []
        some { Status := StatusOK,
               Data := some { report := summary, reports_by_time := timeWiseSummary,
                              orders_by_time := ordersIt, earnings_by_time := earningsIt } }

/-! ## Concrete instances, for running the handlers -/

/-- Value of a key in a list of bindings, the empty string when it has none. -/
def lookupParam (bindings : List (String × String)) (name : String) : String :=
  match bindings.find? (fun b => b.1 = name) with
  | some b => b.2
  | none => ""

/-- Request context with the given store, staff flag, path and query parameters. -/
def mkContext (storeID : String) (isStaff : Bool) (params query : List (String × String)) :
    Context :=
  { StoreID := storeID, IsStoreStaff := isStaff, Param := lookupParam params,
    QueryParam := lookupParam query }

/-- First record of a table that satisfies `f`, or the not-found error. -/
def firstOr (db : List Product) (f : Product → Bool) : Except DbError Product :=
  match db.find? f with
  | some p => Except.ok p
  | none => Except.error DbError.recordNotFound

/-- Modelled from the spec: an implementation of the product repository over a
table of products (package `data` has no implementation among the sources).
Ids are unique and a SKU is unique within a store (§3); `Get` looks a record up
by its id, the only key it is given; `GetAsStoreStuff` and `Delete` are
tenant-scoped and answer not-found for a record of another store (§4.1);
`Update` rewrites the record with the given id; the public reads see published
records. -/
def tableRepository : ProductRepository (List Product) Product (List Product) where
  Create db p :=
    if db.any (fun q => q.ID = p.ID ∨ (q.StoreID = p.StoreID ∧ q.SKU = p.SKU)) then
      (some (DbError.duplicateKey "duplicate key"), db)
    else (none, db ++ [p])
  Get db id := firstOr db (fun q => q.ID = id)
  GetAsStoreStuff db storeID id := firstOr db (fun q => q.ID = id ∧ q.StoreID = storeID)
  GetDetails db id := firstOr db (fun q => q.ID = id ∧ q.IsPublished)
  Update db id p := (none, db.map (fun q => if q.ID = id then p else q))
  Delete db storeID id :=
    if db.any (fun q => q.ID = id ∧ q.StoreID = storeID) then
      (none, db.filter (fun q => ¬ (q.ID = id ∧ q.StoreID = storeID)))
    else (some DbError.recordNotFound, db)
  AddAttribute db _ := (none, db)
  RemoveAttribute db _ _ := (none, db)
  List db frm limit := Except.ok (((db.filter (·.IsPublished)).drop frm.toNat).take limit.toNat)
  ListAsStoreStuff db storeID frm limit :=
    Except.ok (((db.filter (fun q => q.StoreID = storeID)).drop frm.toNat).take limit.toNat)
  Search db query frm limit :=
    Except.ok (((db.filter (fun q => q.IsPublished ∧ q.Name = query)).drop frm.toNat).take
      limit.toNat)
  SearchAsStoreStuff db query storeID frm limit :=
    Except.ok (((db.filter (fun q => q.StoreID = storeID ∧ q.Name = query)).drop frm.toNat).take
      limit.toNat)

/-- A repository whose database cannot be reached: every call fails with the same
error `err`. -/
def failingRepository (err : DbError) : ProductRepository Unit Unit Unit where
  Create db _ := (some err, db)
  Get _ _ := Except.error err
  GetAsStoreStuff _ _ _ := Except.error err
  GetDetails _ _ := Except.error err
  Update db _ _ := (some err, db)
  Delete db _ _ := (some err, db)
  AddAttribute db _ := (some err, db)
  RemoveAttribute db _ _ := (some err, db)
  List _ _ _ := Except.error err
  ListAsStoreStuff _ _ _ _ := Except.error err
  Search _ _ _ _ := Except.error err
  SearchAsStoreStuff _ _ _ _ _ := Except.error err

/-- A product of store `store-a`. -/
def mugOfStoreA : Product :=
  { ID := "p1", StoreID := "store-a", Price := 500, Stock := 3, Name := "Mug",
    IsShippable := true, CategoryID := some "kitchen", IsPublished := true,
    IsDigital := false, AdditionalImages := "", SKU := "MUG-1", Unit := "pc",
    DigitalDownloadLink := "", Image := "mug.png", Description := "A mug",
    CreatedAt := 1000, UpdatedAt := 1000 }

/-- A valid request body, with an empty `category_id`. -/
def renameRequest : ReqProduct :=
  { StoreID := "", Price := 1, Stock := 0, Name := "Taken", IsShippable := false,
    CategoryID := some "", IsPublished := false, IsDigital := false,
    AdditionalImages := [" a.png ", "  ", "b.png"], SKU := "X", Unit := "pc",
    DigitalDownloadLink := "", Image := "", Description := "" }

/-- A request on product `p1`, authenticated as staff of store `store-b`. -/
def staffOfStoreB : Context :=
  mkContext "store-b" true [("product_id", "p1")] []

/-- The frames `[clock + (i+1)*step, clock + i*step]` for `i = 0 .. n-1`, as entries
`(start, end)` in the order of `i`. -/
def expectedFrames (step : Int) (clock : Time) (n : Nat) : List (Time × Time) :=
  (List.range n).map
    (fun (i : Nat) => (clock + ((i : Int) + 1) * step, clock + (i : Int) * step))

/-- A layout with the resolution of a day, for running `orderStats`: a sign and one
stroke per day since the epoch.  Parsing a formatted time gives the start of its
day. -/
def tallyLayout : DateLayout where
  Format t :=
    String.mk ((if t / (Hour * 24) < 0 then '-' else '+') ::
      List.replicate (t / (Hour * 24)).natAbs '|')
  Parse s :=
    match s.data with
    | [] => 0
    | c :: strokes =>
      if c = '-' then -(strokes.length : Int) * (Hour * 24)
      else (strokes.length : Int) * (Hour * 24)

/-- An order repository over no data: every bucket has one pending order and one
completed payment. -/
def sampleOrders : OrderRepository Unit where
  StoreSummary _ _ := Except.ok { Time := "", Totals := [("orders", 7)] }
  StoreSummaryByTime _ _ _ _ := Except.ok { Time := "", Totals := [("orders", 1)] }
  CountByStatus _ _ _ _ := Except.ok [{ Key := "pending", Value := 1 }]
  EarningsByStatus _ _ _ _ := Except.ok [{ Key := "completed", Value := 100 }]

/-- A decoder that accepts every object and returns its bytes as the image. -/
def decodeAny (object : List UInt8) : Option (List UInt8) := some object

/-! ## Users and sessions of `repositories/user_impl.go` -/

/-- The states of a user: `models.UserActive` and every other state of package
`models`, by its name. -/
inductive UserStatus
  | active
  | other (name : String)
  deriving DecidableEq, Repr

/-- Type `models.User`, with the fields the sources assign. -/
structure User where
  ID : String
  Name : String
  Status : UserStatus
  Phone : Option String
  ProfilePicture : Option String
  Password : String
  PermissionID : String
  Email : String
  CreatedAt : Time
  UpdatedAt : Time
  deriving DecidableEq, Repr

/-- Type `models.Session`, with the fields the sources assign. -/
structure Session where
  ID : String
  UserID : String
  AccessToken : String
  RefreshToken : String
  CreatedAt : Time
  ExpireOn : Int
  deriving DecidableEq, Repr

/-- The committed content of the two tables behind `app.DB()` that the user
repository works on. -/
structure Database where
  users : List User
  sessions : List Session
  deriving DecidableEq, Repr

/-- The row with the lesser primary key of `best`, the least found so far if any, and
`r`. -/
def earlierRow {α : Type} (key : α → String) (best : Option α) (r : α) : Option α :=
  match best with
  | none => some r
  | some b => if key r < key b then some r else some b

/-- The row a query `ORDER BY id LIMIT 1` returns: among the rows that satisfy
`cond`, the one with the least primary key. -/
def firstRow {α : Type} (key : α → String) (rows : List α) (cond : α → Bool) : Option α :=
  (rows.filter cond).foldl (earlierRow key) none

/-- The ORM's `Where(cond).First(&row)`: the first row by primary key among those
that satisfy `cond`, `gorm.ErrRecordNotFound` when there is none; `fault` is the
error of a database that fails to answer. -/
def queryFirst {α : Type} (key : α → String) (rows : List α) (cond : α → Bool)
    (fault : Option DbError) : Except DbError α :=
  match fault with
  | some err => Except.error err
  | none =>
    match firstRow key rows cond with
    | some row => Except.ok row
    | none => Except.error DbError.recordNotFound

/-- The ORM's `Create(&s)` on the table of sessions, whose primary key is `ID`: the
row is added unless the database fails (`fault`) or holds a session with that id. -/
def insertSession (sessions : List Session) (s : Session) (fault : Option DbError) :
    Option DbError × List Session :=
  match fault with
  | some err => (some err, sessions)
  | none =>
    if sessions.any (fun r => r.ID = s.ID) then
      (some (DbError.duplicateKey "sessions_pkey"), sessions)
    else (none, sessions ++ [s])

/-- The ORM's `Where(cond).Delete(&row)`: the rows that satisfy `cond` are removed,
unless the database fails (`fault`); removing no row is not an error. -/
def deleteSessions (sessions : List Session) (cond : Session → Bool)
    (fault : Option DbError) : Option DbError × List Session :=
  match fault with
  | some err => (some err, sessions)
  | none => (none, sessions.filter (fun r => !cond r))

/-- The ORM's `Where("id = ?", userID).Save(&u)` for a record `u` with its primary
key set: every column of the rows with that primary key and `id = userID` is
written from `u`, and the update stamps `UpdatedAt` with the time `now` of the
write.  The record as written is returned with the table. -/
def saveUser (users : List User) (userID : String) (u : User) (now : Time)
    (fault : Option DbError) : Option DbError × List User × User :=
  match fault with
  | some err => (some err, users, u)
  | none =>
    let written := { u with UpdatedAt := now }
    (none, users.map (fun r => if r.ID = u.ID ∧ r.ID = userID then written else r), written)

/-- The errors of a database that fails to answer, one for each statement of
`RefreshToken`; `none` where the statement is answered. -/
structure RefreshFaults where
  lookup : Option DbError
  insert : Option DbError
  delete : Option DbError
  commit : Option DbError
  deriving DecidableEq, Repr

/-- What a call of `RefreshToken` leaves: its result, the committed database, and
the sessions as the transaction it opened sees them when the method returns (the
method never rolls back; what the transaction holds is published by a successful
commit only). -/
structure RefreshOutcome where
  result : Except DbError Session
  db : Database
  tx : List Session

namespace UserRepositoryImpl

/-- Method `Login` of `repositories/user_impl.go`.  `CheckPassword` is
`utils.CheckPassword` (`true` when it returns no error), `uuid`, `accessToken` and
`refreshToken` the values of `utils.NewUUID()` and the two calls of
`utils.NewToken()`, `createdAt` and `now` the two clock readings, `lookupFault`
and `insertFault` the errors of a failing database at the two statements. -/
def Login (CheckPassword : String → String → Bool) (db : Database)
    (lookupFault insertFault : Option DbError) (email password : String)
    (uuid accessToken refreshToken : String) (createdAt now : Time) :
    Except DbError Session × Database :=
  match queryFirst User.ID db.users
      (fun u => decide (u.Email = email ∧ u.Status = UserStatus.active)) lookupFault with
  | Except.error err => (Except.error err, db)
  | Except.ok u =>
    if !CheckPassword u.Password password then
      (Except.error DbError.recordNotFound, db)
    else
      let s : Session :=
        { ID := uuid, UserID := u.ID, AccessToken := accessToken,
          RefreshToken := refreshToken, CreatedAt := createdAt,
          ExpireOn := (now + Hour * 48) / 1000000000 }
      match insertSession db.sessions s insertFault with
      | (some err, _) => (Except.error err, db)
      | (none, sessions) => (Except.ok s, { db with sessions := sessions })

/-- Method `RefreshToken` of `repositories/user_impl.go`.  The statements run in
the transaction opened by `app.DB().Begin()`, on its view `tx` of the sessions;
the delete is `Where("refresh_token = ?", token).Delete(&os)` with the primary key
of `os` set, which the ORM adds to the condition.  The generated values and clock
readings are as for `Login`. -/
def RefreshToken (db : Database) (faults : RefreshFaults) (token : String)
    (uuid accessToken refreshToken : String) (createdAt now : Time) : RefreshOutcome :=
  let tx := db.sessions
  match queryFirst Session.ID tx (fun r => decide (r.RefreshToken = token)) faults.lookup with
  | Except.error err => { result := Except.error err, db := db, tx := tx }
  | Except.ok os =>
    let s : Session :=
      { ID := uuid, UserID := os.UserID, AccessToken := accessToken,
        RefreshToken := refreshToken, CreatedAt := createdAt,
        ExpireOn := (now + Hour * 48) / 1000000000 }
    match insertSession tx s faults.insert with
    | (some err, tx) => { result := Except.error err, db := db, tx := tx }
    | (none, tx) =>
      match deleteSessions tx
          (fun r => decide (r.RefreshToken = token ∧ r.ID = os.ID)) faults.delete with
      | (some err, tx) => { result := Except.error err, db := db, tx := tx }
      | (none, tx) =>
        match faults.commit with
        | some err => { result := Except.error err, db := db, tx := tx }
        | none => { result := Except.ok s, db := { db with sessions := tx }, tx := tx }

/-- Method `Update` of `repositories/user_impl.go`.  `ud` is the payload, `now` the
time of the write, `lookupFault` and `saveFault` the errors of a failing database
at the two statements. -/
def Update (db : Database) (lookupFault saveFault : Option DbError) (userID : String)
    (ud : User) (now : Time) : Except DbError User × Database :=
  match queryFirst User.ID db.users (fun u => decide (u.ID = userID)) lookupFault with
  | Except.error err => (Except.error err, db)
  | Except.ok u =>
    let u := { u with Name := ud.Name, ProfilePicture := ud.ProfilePicture, Phone := ud.Phone }
    match saveUser db.users userID u now saveFault with
    | (some err, _, _) => (Except.error err, db)
    | (none, users, u) => (Except.ok u, { db with users := users })

end UserRepositoryImpl

/-- Go's `strings.Split(s, ",")` on the characters of `s`: the pieces between the
commas, one more than there are commas. -/
def splitCommaChars : List Char → List (List Char)
  | [] => [[]]
  | c :: cs =>
    if c = ',' then [] :: splitCommaChars cs
    else
      match splitCommaChars cs with
      | [] => [[c]]
      | piece :: pieces => (c :: piece) :: pieces

/-- Go's `strings.Split(s, ",")`. -/
def splitComma (s : String) : List String :=
  (splitCommaChars s.data).map String.mk

/-- The value of the last of the `rows` whose key is `key`, 0 when no row has that
key. -/
def statusValue (key : String) (rows : List StatusCount) : Int :=
  match (rows.filter (fun x => x.Key = key)).getLast? with
  | some x => x.Value
  | none => 0

/-- The trimmed entries of `additional_images` that are not blank, in their order. -/
def keptImages (additionalImages : List String) : List String :=
  (additionalImages.map TrimSpace).filter (fun i => i ≠ "")

/-- The rows `CountByStatus` returns for a time frame, none when the query fails. -/
def countRows {σ : Type} (ou : OrderRepository σ) (db : σ) (ctx : Context)
    (e : Time × Time) : List StatusCount :=
  match ou.CountByStatus db ctx.StoreID e.1 e.2 with
  | Except.ok rows => rows
  | Except.error _ => []

/-- The rows `EarningsByStatus` returns for a time frame, none when the query fails. -/
def earningRows {σ : Type} (ou : OrderRepository σ) (db : σ) (ctx : Context)
    (e : Time × Time) : List StatusCount :=
  match ou.EarningsByStatus db ctx.StoreID e.1 e.2 with
  | Except.ok rows => rows
  | Except.error _ => []

/-- A database with an active user, an inactive user and a session of each. -/
def sampleDatabase : Database :=
  { users :=
      [{ ID := "u1", Name := "Alice", Status := UserStatus.active, Phone := none,
         ProfilePicture := none, Password := "alice-secret", PermissionID := "g1",
         Email := "alice@example.com", CreatedAt := 1, UpdatedAt := 1 },
       { ID := "u2", Name := "Bob", Status := UserStatus.other "blocked", Phone := some "555",
         ProfilePicture := none, Password := "bob-secret", PermissionID := "g2",
         Email := "bob@example.com", CreatedAt := 2, UpdatedAt := 2 }],
    sessions :=
      [{ ID := "s1", UserID := "u1", AccessToken := "a1", RefreshToken := "r1",
         CreatedAt := 10, ExpireOn := 1000 },
       { ID := "s2", UserID := "u2", AccessToken := "a2", RefreshToken := "r2",
         CreatedAt := 20, ExpireOn := 2000 }] }

/-- A database that answers every statement of `RefreshToken`. -/
def noFaults : RefreshFaults :=
  { lookup := none, insert := none, delete := none, commit := none }

/-- A password check that accepts the stored password itself. -/
def samePassword (stored given : String) : Bool := decide (stored = given)

/-- A session store in which the two sessions hold the same refresh token `r1`. -/
def twinTokenDatabase : Database :=
  { users := sampleDatabase.users,
    sessions :=
      [{ ID := "s1", UserID := "u1", AccessToken := "a1", RefreshToken := "r1",
         CreatedAt := 10, ExpireOn := 1000 },
       { ID := "s2", UserID := "u2", AccessToken := "a2", RefreshToken := "r1",
         CreatedAt := 20, ExpireOn := 2000 }] }

/-- An update payload: a new name and phone number, no picture. -/
def renamePayload : User :=
  { ID := "", Name := "Alice B", Status := UserStatus.active, Phone := some "777",
    ProfilePicture := none, Password := "", PermissionID := "", Email := "",
    CreatedAt := 0, UpdatedAt := 0 }

/-- A date-only layout as `orderStats` uses it when the process runs in a zone whose
clocks are set back an hour at the instant `change`.  Go's `time.Now()` carries the local
zone and `Format` prints the local wall clock: two hours ahead of UTC before `change`,
one hour ahead from then on.  A layout without a zone is parsed by `time.Parse` as UTC,
so `Parse` gives the start of the day of the label.  Days are written as by
`tallyLayout`. -/
def autumnLayout (change : Time) : DateLayout where
  Format t := tallyLayout.Format (t + (if t < change then Hour * 2 else Hour))
  Parse := tallyLayout.Parse

/-- An order repository over no data whose rows tell the buckets apart: the bucket that
starts at `k` has `k / Hour` pending orders and as many completed payments. -/
def datedOrders : OrderRepository Unit where
  StoreSummary _ _ := Except.ok { Time := "", Totals := [] }
  StoreSummaryByTime _ _ _ _ := Except.ok { Time := "", Totals := [] }
  CountByStatus _ _ k _ := Except.ok [{ Key := "pending", Value := k / Hour }]
  EarningsByStatus _ _ k _ := Except.ok [{ Key := "completed", Value := k / Hour }]

/-! # Theorems -/

section ParseTheorems

theorem decimalValueFrom_ge (digits : List Char) : ∀ n, n ≤ decimalValueFrom n digits := by
  induction digits with
  | nil => intro n; exact Nat.le_refl _
  | cons c cs ih =>
    intro n
    have h := ih (n * 10 + (c.toNat - 48))
    simp only [decimalValueFrom, List.foldl_cons] at h ⊢
    omega

/-- The digit loop of `ParseUint` on decimal digits: the value they write when it fits
in 64 bits, and a range error with the largest value otherwise. -/
theorem parseUintLoop_digits (digits : List Char)
    (hd : ∀ c ∈ digits, isDecimalDigit c = true) :
    ∀ n, n < 2 ^ 64 →
      parseUintLoop digits n
        = if decimalValueFrom n digits < 2 ^ 64 then (decimalValueFrom n digits, none)
          else (2 ^ 64 - 1, some NumError.ErrRange) := by
  induction digits with
  | nil =>
    intro n hn
    simp only [parseUintLoop, decimalValueFrom, List.foldl_nil, if_pos hn]
  | cons c cs ih =>
    intro n hn
    have hc := hd c (List.mem_cons_self _ _)
    simp only [isDecimalDigit, Bool.and_eq_true, decide_eq_true_eq] at hc
    have hcs : ∀ c ∈ cs, isDecimalDigit c = true := fun x hx => hd x (List.mem_cons_of_mem _ hx)
    have hge := decimalValueFrom_ge cs (n * 10 + (c.toNat - 48))
    have hstep : decimalValueFrom n (c :: cs) = decimalValueFrom (n * 10 + (c.toNat - 48)) cs := rfl
    rw [hstep]
    simp only [parseUintLoop, hc, and_self, if_true]
    have hd10 : ¬ (c.toNat - 48 ≥ 10) := by omega
    simp only [hd10, if_false]
    by_cases hcut : n ≥ (2 ^ 64 - 1) / 10 + 1
    · have : ¬ decimalValueFrom (n * 10 + (c.toNat - 48)) cs < 2 ^ 64 := by omega
      rw [if_pos hcut, if_neg this]
    · simp only [hcut, if_false]
      have h10 : n * 10 % 2 ^ 64 = n * 10 := Nat.mod_eq_of_lt (by omega)
      rw [h10]
      by_cases hov : n * 10 + (c.toNat - 48) < 2 ^ 64
      · have h1 : (n * 10 + (c.toNat - 48)) % 2 ^ 64 = n * 10 + (c.toNat - 48) :=
          Nat.mod_eq_of_lt hov
        rw [h1]
        have h2 : ¬ (n * 10 + (c.toNat - 48) < n * 10 ∨ n * 10 + (c.toNat - 48) > 2 ^ 64 - 1) := by
          omega
        simp only [h2, if_false]
        exact ih hcs _ hov
      · have h1 : (n * 10 + (c.toNat - 48)) % 2 ^ 64 < n * 10 := by omega
        have : ¬ decimalValueFrom (n * 10 + (c.toNat - 48)) cs < 2 ^ 64 := by omega
        rw [if_pos (Or.inl h1), if_neg this]

/-- The digit loop of `ParseUint` reports an error when a character is not a decimal
digit. -/
theorem parseUintLoop_nondigit (cs : List Char)
    (hd : ¬ (∀ c ∈ cs, isDecimalDigit c = true)) :
    ∀ n, (parseUintLoop cs n).2 ≠ none ∧
      ((parseUintLoop cs n).2 = some NumError.ErrRange → (parseUintLoop cs n).1 = 2 ^ 64 - 1) := by
  induction cs with
  | nil => exact absurd (fun c hc => absurd hc (List.not_mem_nil c)) hd
  | cons c cs ih =>
    intro n
    simp only [parseUintLoop]
    by_cases hc : 48 ≤ c.toNat ∧ c.toNat ≤ 57
    · have hcs : ¬ (∀ c ∈ cs, isDecimalDigit c = true) := by
        intro hall
        apply hd
        intro x hx
        rcases List.mem_cons.1 hx with rfl | hx
        · simp [isDecimalDigit, hc]
        · exact hall x hx
      simp only [hc, and_self, if_true]
      split_ifs
      · simp
      · simp
      · simp
      · exact ih hcs _
    · simp only [hc, if_false]
      split_ifs <;> simp

theorem ParseUint_digits (body : List Char) (hne : body ≠ [])
    (hd : ∀ c ∈ body, isDecimalDigit c = true) :
    ParseUint body
      = if decimalValueFrom 0 body < 2 ^ 64 then (decimalValueFrom 0 body, none)
        else (2 ^ 64 - 1, some NumError.ErrRange) := by
  cases body with
  | nil => exact absurd rfl hne
  | cons c cs => exact parseUintLoop_digits (c :: cs) hd 0 (by omega)

theorem ParseUint_nondigit (body : List Char)
    (hd : body = [] ∨ ¬ (∀ c ∈ body, isDecimalDigit c = true)) :
    (ParseUint body).2 ≠ none ∧
      ((ParseUint body).2 = some NumError.ErrRange → (ParseUint body).1 = 2 ^ 64 - 1) := by
  cases body with
  | nil => simp [ParseUint]
  | cons c cs =>
    rcases hd with hd | hd
    · exact absurd hd (by simp)
    · exact parseUintLoop_nondigit (c :: cs) hd 0

/-- The result of `ParseInt`, from the result `r` of `ParseUint` on the text after the
sign. -/
theorem ParseInt_cons (s : String) (c : Char) (rest : List Char) (hs : s.data = c :: rest) :
    ParseInt s =
      if (ParseUint (if c = '+' ∨ c = '-' then rest else c :: rest)).2
          = some NumError.ErrSyntax then (0, some NumError.ErrSyntax)
      else if !decide (c = '-') &&
          decide ((ParseUint (if c = '+' ∨ c = '-' then rest else c :: rest)).1 ≥ 2 ^ 63) then
        (2 ^ 63 - 1, some NumError.ErrRange)
      else if decide (c = '-') &&
          decide ((ParseUint (if c = '+' ∨ c = '-' then rest else c :: rest)).1 > 2 ^ 63) then
        (-(2 ^ 63), some NumError.ErrRange)
      else (if decide (c = '-') then
          -((ParseUint (if c = '+' ∨ c = '-' then rest else c :: rest)).1 : Int)
        else ((ParseUint (if c = '+' ∨ c = '-' then rest else c :: rest)).1 : Int), none) := by
  simp only [ParseInt, hs]

/-- What `strconv.ParseInt(s, 10, 64)` returns, by the decimal numeral `s` writes:
the integer itself when it fits in an `int64`, the nearest bound and a range error
when it does not, and an error when `s` is not a decimal numeral. -/
theorem ParseInt_spec (s : String) :
    (∀ v, signedDecimal s.data = some v → -(2 ^ 63) ≤ v → v < 2 ^ 63 →
      ParseInt s = (v, none)) ∧
    (∀ v, signedDecimal s.data = some v → v < -(2 ^ 63) →
      ParseInt s = (-(2 ^ 63), some NumError.ErrRange)) ∧
    (∀ v, signedDecimal s.data = some v → 2 ^ 63 ≤ v →
      ParseInt s = (2 ^ 63 - 1, some NumError.ErrRange)) ∧
    (signedDecimal s.data = none → (ParseInt s).2 ≠ none) := by
  cases hs : s.data with
  | nil => simp [signedDecimal, ParseInt, hs]
  | cons c rest =>
    rw [ParseInt_cons s c rest hs]
    simp only [signedDecimal]
    generalize hbody : (if c = '+' ∨ c = '-' then rest else c :: rest) = body
    by_cases hnum : body ≠ [] ∧ body.all isDecimalDigit = true
    · -- a numeral
      have hall : ∀ x ∈ body, isDecimalDigit x = true := by
        simpa [List.all_eq_true] using hnum.2
      rw [if_pos hnum, ParseUint_digits body hnum.1 hall]
      generalize decimalValueFrom 0 body = V
      by_cases hV : V < 2 ^ 64
      · rw [if_pos hV]
        by_cases hneg : c = '-'
        · simp only [hneg, if_true, decide_True, Bool.not_true, Bool.false_and,
            Bool.true_and, Option.some.injEq, decide_eq_true_eq]
          refine ⟨?_, ?_, ?_, ?_⟩
          · intro v hv h1 h2
            subst hv
            simp
            omega
          · intro v hv h1
            subst hv
            simp
            omega
          · intro v hv h1
            omega
          · intro h; simp at h
        · simp only [hneg, if_false, decide_False, Bool.not_false, Bool.false_and,
            Bool.true_and, Option.some.injEq, decide_eq_true_eq]
          refine ⟨?_, ?_, ?_, ?_⟩
          · intro v hv h1 h2
            subst hv
            simp
            omega
          · intro v hv h1
            omega
          · intro v hv h1
            subst hv
            simp
            omega
          · intro h; simp at h
      · rw [if_neg hV]
        by_cases hneg : c = '-'
        · simp only [hneg, if_true, decide_True, Bool.not_true, Bool.false_and,
            Bool.true_and, Option.some.injEq, decide_eq_true_eq]
          refine ⟨?_, ?_, ?_, ?_⟩
          · intro v hv h1 h2; omega
          · intro v hv h1; simp
          · intro v hv h1; omega
          · intro h; simp at h
        · simp only [hneg, if_false, decide_False, Bool.not_false, Bool.false_and,
            Bool.true_and, Option.some.injEq, decide_eq_true_eq]
          refine ⟨?_, ?_, ?_, ?_⟩
          · intro v hv h1 h2; omega
          · intro v hv h1; omega
          · intro v hv h1; simp
          · intro h; simp at h
    · -- not a numeral
      rw [if_neg hnum]
      have hbad : body = [] ∨ ¬ (∀ x ∈ body, isDecimalDigit x = true) := by
        by_cases hb : body = []
        · exact Or.inl hb
        · refine Or.inr (fun hall => hnum ⟨hb, ?_⟩)
          simpa [List.all_eq_true] using hall
      obtain ⟨herr, hrange⟩ := ParseUint_nondigit body hbad
      refine ⟨by simp, by simp, by simp, fun _ => ?_⟩
      by_cases hsyn : (ParseUint body).2 = some NumError.ErrSyntax
      · simp [hsyn]
      · rw [if_neg hsyn]
        have hr : (ParseUint body).2 = some NumError.ErrRange := by
          cases h2 : (ParseUint body).2 with
          | none => exact absurd h2 herr
          | some e =>
            cases e with
            | ErrSyntax => exact absurd h2 hsyn
            | ErrRange => rfl
        have hmax := hrange hr
        rw [hmax]
        by_cases hneg : c = '-' <;> simp [hneg]

end ParseTheorems

section ProductTheorems

variable {σ π ρ : Type}

theorem wrap64_of_representable (x : Int) (h1 : -(2 ^ 63) ≤ x) (h2 : x < 2 ^ 63) :
    wrap64 x = x := by
  unfold wrap64
  rw [Int.emod_eq_of_lt (by omega) (by omega)]
  omega

theorem wrap64_mul_wrap64 (a b : Int) : wrap64 (wrap64 a * b) = wrap64 (a * b) := by
  unfold wrap64
  have h : ((a + 2 ^ 63) % 2 ^ 64 - 2 ^ 63) * b + 2 ^ 63
      = (a * b + 2 ^ 63) + 2 ^ 64 * (-((a + 2 ^ 63) / 2 ^ 64) * b) := by
    rw [Int.emod_def]; ring
  rw [h, Int.add_mul_emod_self_left]

/-- The offset computed by `fetchProducts` and `searchProducts` is `(page - 1) * limit`
whenever that product fits in an `int64`. -/
theorem offset_of_representable (page limit : Int)
    (h1 : -(2 ^ 63) ≤ (page - 1) * limit) (h2 : (page - 1) * limit < 2 ^ 63) :
    wrap64 (wrap64 (page - 1) * limit) = (page - 1) * limit := by
  rw [wrap64_mul_wrap64, wrap64_of_representable _ h1 h2]

/-- C1 (the handler departs from the claim).  `updateProduct` looks the record up with
`Get`, by id alone, and never compares the record's store with the caller's.  So
whenever the lookup by id finds the record, whichever store owns it, the response is
not 404, and the record handed to `Update` carries the caller's store id. -/
theorem updateProduct_lookup_ignores_store (pu : ProductRepository σ π ρ) (db : σ)
    (ctx : Context) (req : ReqProduct) (now : Time) (p : Product)
    (hget : pu.Get db (ctx.Param "product_id") = Except.ok p) :
    (updateProduct pu db ctx (Except.ok req) now).1.Status ≠ StatusNotFound ∧
    (updateProduct pu db ctx (Except.ok req) now).2
      = (pu.Update db (ctx.Param "product_id") (updatedProduct ctx req p now)).2 ∧
    (updatedProduct ctx req p now).StoreID = ctx.StoreID := by
  refine ⟨?_, ?_, ?_⟩
  · simp only [updateProduct, hget]
    rcases hu : pu.Update db (ctx.Param "product_id") (updatedProduct ctx req p now)
      with ⟨_ | err, db1⟩
    · simp [StatusOK, StatusNotFound]
    · by_cases hd : (IsDuplicateKeyError err).2 = true <;>
        simp [hd, StatusConflict, StatusInternalServerError, StatusNotFound]
  · simp only [updateProduct, hget]
    rcases hu : pu.Update db (ctx.Param "product_id") (updatedProduct ctx req p now)
      with ⟨_ | err, db1⟩
    · simp
    · by_cases hd : (IsDuplicateKeyError err).2 = true <;> simp [hd]
  · simp only [updatedProduct, normalizeCategoryID]
    cases req.CategoryID with
    | none => rfl
    | some c => by_cases hc : c = "" <;> simp [hc]

/-- Witness for C1: the product `p1` belongs to `store-a`, the request comes from staff
of `store-b`, and the lookup by id succeeds. -/
theorem updateProduct_lookup_ignores_store_witness :
    mugOfStoreA.StoreID ≠ staffOfStoreB.StoreID ∧
    ((updateProduct tableRepository [mugOfStoreA] staffOfStoreB
        (Except.ok renameRequest) 2000).1.Status ≠ StatusNotFound ∧
     (updateProduct tableRepository [mugOfStoreA] staffOfStoreB
        (Except.ok renameRequest) 2000).2
      = (tableRepository.Update [mugOfStoreA] (staffOfStoreB.Param "product_id")
          (updatedProduct staffOfStoreB renameRequest mugOfStoreA 2000)).2 ∧
     (updatedProduct staffOfStoreB renameRequest mugOfStoreA 2000).StoreID
      = staffOfStoreB.StoreID) :=
  ⟨by decide,
   updateProduct_lookup_ignores_store tableRepository [mugOfStoreA] staffOfStoreB
     renameRequest 2000 mugOfStoreA rfl⟩

/-- A run of `updateProduct` on the table repository, whose `Update` rewrites the
record with the given id: staff of `store-b` update the product `p1` of `store-a`; the
answer is 200 and the stored record now belongs to `store-b`. -/
theorem updateProduct_foreign_store_run :
    (updateProduct tableRepository [mugOfStoreA] staffOfStoreB
        (Except.ok renameRequest) 2000).1.Status = 200 ∧
    ((updateProduct tableRepository [mugOfStoreA] staffOfStoreB
        (Except.ok renameRequest) 2000).2.map (fun q => (q.ID, q.StoreID, q.Name)))
      = [("p1", "store-b", "Taken")] := by
  decide

/-- C2.  When `page` and `limit` parse to `p` and `l` and `(p - 1) * l` fits in an
`int64`, `listProducts` answers with the result of the repository call made with
offset `(p - 1) * l` and limit `l`, on each of its four paths: `List` and `Search`
for the public, `ListAsStoreStuff` and `SearchAsStoreStuff` for store staff. -/
theorem listProducts_offset (pu : ProductRepository σ π ρ) (db : σ) (ctx : Context)
    (p l : Int)
    (hp : ParseInt (ctx.QueryParam "page") = (p, none))
    (hl : ParseInt (ctx.QueryParam "limit") = (l, none))
    (h1 : -(2 ^ 63) ≤ (p - 1) * l) (h2 : (p - 1) * l < 2 ^ 63) :
    listProducts pu db ctx = respondPage db
      (if ctx.QueryParam "query" = "" then
        (if ctx.IsStoreStaff then pu.ListAsStoreStuff db ctx.StoreID ((p - 1) * l) l
         else pu.List db ((p - 1) * l) l)
       else
        (if ctx.IsStoreStaff then
          pu.SearchAsStoreStuff db (ctx.QueryParam "query") ctx.StoreID ((p - 1) * l) l
         else pu.Search db (ctx.QueryParam "query") ((p - 1) * l) l)) := by
  have hpl : pageAndLimit ctx = (p, l) := by simp [pageAndLimit, hp, hl]
  simp only [listProducts, fetchProducts, searchProducts, hpl,
    offset_of_representable p l h1 h2]
  cases ctx.IsStoreStaff <;> simp

/-- Witness for C2: `page=2&limit=10` on the public listing skips exactly 10 records,
and `page=1` skips none. -/
theorem listProducts_offset_witness :
    listProducts tableRepository [mugOfStoreA] (mkContext "" false [] [("page", "2"), ("limit", "10")])
      = respondPage [mugOfStoreA] (tableRepository.List [mugOfStoreA] 10 10) ∧
    listProducts tableRepository [mugOfStoreA] (mkContext "" false [] [("page", "1"), ("limit", "10")])
      = respondPage [mugOfStoreA] (tableRepository.List [mugOfStoreA] 0 10) :=
  ⟨listProducts_offset tableRepository [mugOfStoreA]
      (mkContext "" false [] [("page", "2"), ("limit", "10")]) 2 10
      (by decide) (by decide) (by decide) (by decide),
   listProducts_offset tableRepository [mugOfStoreA]
      (mkContext "" false [] [("page", "1"), ("limit", "10")]) 1 10
      (by decide) (by decide) (by decide) (by decide)⟩

/-- C3.  The page is 1 when the `page` parameter is absent or is not a decimal numeral
that `ParseInt` accepts (an optional sign and decimal digits, within `int64`), and the
integer it writes otherwise; the limit is 10 when the `limit` parameter is absent or not
such a numeral, and the integer it writes otherwise; neither depends on the other
parameter; `listProducts` and `listCoupon` query the repository with exactly this
pair. -/
theorem pagination_fallback (ctx : Context) :
    ((ParseInt (ctx.QueryParam "page")).2 ≠ none → (pageAndLimit ctx).1 = 1) ∧
    ((ParseInt (ctx.QueryParam "limit")).2 ≠ none → (pageAndLimit ctx).2 = 10) ∧
    (ctx.QueryParam "page" = "" → (pageAndLimit ctx).1 = 1) ∧
    (ctx.QueryParam "limit" = "" → (pageAndLimit ctx).2 = 10) ∧
    (signedDecimal (ctx.QueryParam "page").data = none → (pageAndLimit ctx).1 = 1) ∧
    (signedDecimal (ctx.QueryParam "limit").data = none → (pageAndLimit ctx).2 = 10) ∧
    (∀ p, signedDecimal (ctx.QueryParam "page").data = some p → -(2 ^ 63) ≤ p → p < 2 ^ 63 →
      (pageAndLimit ctx).1 = p) ∧
    (∀ l, signedDecimal (ctx.QueryParam "limit").data = some l → -(2 ^ 63) ≤ l → l < 2 ^ 63 →
      (pageAndLimit ctx).2 = l) ∧
    (∀ p, ParseInt (ctx.QueryParam "page") = (p, none) → (pageAndLimit ctx).1 = p) ∧
    (∀ l, ParseInt (ctx.QueryParam "limit") = (l, none) → (pageAndLimit ctx).2 = l) ∧
    (∀ (σ π ρ : Type) (pu : ProductRepository σ π ρ) (db : σ),
      listProducts pu db ctx = respondPage db
        (if ctx.QueryParam "query" = "" then
          fetchProducts pu db ctx (pageAndLimit ctx).1 (pageAndLimit ctx).2 (!ctx.IsStoreStaff)
         else
          searchProducts pu db ctx (ctx.QueryParam "query") (pageAndLimit ctx).1
            (pageAndLimit ctx).2 (!ctx.IsStoreStaff)) ∧
      listCoupon pu db ctx = listProducts pu db ctx) := by
  have hpage : (ParseInt (ctx.QueryParam "page")).2 ≠ none → (pageAndLimit ctx).1 = 1 := by
    intro h; simp [pageAndLimit, h]
  have hlimit : (ParseInt (ctx.QueryParam "limit")).2 ≠ none → (pageAndLimit ctx).2 = 10 := by
    intro h; simp [pageAndLimit, h]
  have hpageOk : ∀ p, ParseInt (ctx.QueryParam "page") = (p, none) →
      (pageAndLimit ctx).1 = p := by
    intro p h; simp [pageAndLimit, h]
  have hlimitOk : ∀ l, ParseInt (ctx.QueryParam "limit") = (l, none) →
      (pageAndLimit ctx).2 = l := by
    intro l h; simp [pageAndLimit, h]
  have hempty : (ParseInt "").2 ≠ none := by decide
  refine ⟨hpage, hlimit, ?_, ?_, ?_, ?_, ?_, ?_, hpageOk, hlimitOk, ?_⟩
  · intro h; exact hpage (by rw [h]; exact hempty)
  · intro h; exact hlimit (by rw [h]; exact hempty)
  · intro h; exact hpage ((ParseInt_spec _).2.2.2 h)
  · intro h; exact hlimit ((ParseInt_spec _).2.2.2 h)
  · intro p h h1 h2; exact hpageOk p ((ParseInt_spec _).1 p h h1 h2)
  · intro l h h1 h2; exact hlimitOk l ((ParseInt_spec _).1 l h h1 h2)
  · intro σ π ρ pu db
    exact ⟨rfl, rfl⟩

/-- Witness for C3: `page=abc&limit=25` gives page 1 and limit 25, and `page=3` with
a limit that is not a number gives page 3 and limit 10. -/
theorem pagination_fallback_witness :
    pageAndLimit (mkContext "" false [] [("page", "abc"), ("limit", "25")]) = (1, 25) ∧
    pageAndLimit (mkContext "" false [] [("page", "3"), ("limit", "1o")]) = (3, 10) := by
  have h1 := pagination_fallback (mkContext "" false [] [("page", "abc"), ("limit", "25")])
  have h2 := pagination_fallback (mkContext "" false [] [("page", "3"), ("limit", "1o")])
  refine ⟨Prod.ext (h1.2.2.2.2.1 (by decide))
            (h1.2.2.2.2.2.2.2.1 25 (by decide) (by decide) (by decide)),
          Prod.ext (h2.2.2.2.2.2.2.1 3 (by decide) (by decide) (by decide))
            (h2.2.2.2.2.2.1 (by decide))⟩

/-- C4.  The record `createProduct` hands to `Create`, and the record `updateProduct`
hands to `Update` once the lookup has succeeded, has no `CategoryID` when the request
carries an empty `category_id`, and the request's `CategoryID` otherwise (a non-empty
one unchanged, an absent one absent). -/
theorem category_id_normalised (pu : ProductRepository σ π ρ) (db : σ) (ctx : Context)
    (req : ReqProduct) :
    (∀ (uuid : String) (createdAt updatedAt : Time),
      (createProduct pu db ctx (Except.ok req) uuid createdAt updatedAt).2
        = (pu.Create db (newProduct ctx req uuid createdAt updatedAt)).2 ∧
      (newProduct ctx req uuid createdAt updatedAt).CategoryID
        = (if req.CategoryID = some "" then none else req.CategoryID)) ∧
    (∀ (now : Time) (p : Product), pu.Get db (ctx.Param "product_id") = Except.ok p →
      (updateProduct pu db ctx (Except.ok req) now).2
        = (pu.Update db (ctx.Param "product_id") (updatedProduct ctx req p now)).2 ∧
      (updatedProduct ctx req p now).CategoryID
        = (if req.CategoryID = some "" then none else req.CategoryID)) := by
  have hnorm : (normalizeCategoryID { req with StoreID := ctx.StoreID }).CategoryID
      = (if req.CategoryID = some "" then none else req.CategoryID) := by
    simp only [normalizeCategoryID]
    cases req.CategoryID with
    | none => rfl
    | some c => by_cases hc : c = "" <;> simp [hc]
  constructor
  · intro uuid createdAt updatedAt
    refine ⟨?_, hnorm⟩
    simp only [createProduct]
    rcases hu : pu.Create db (newProduct ctx req uuid createdAt updatedAt) with ⟨_ | err, db1⟩
    · simp
    · by_cases hd : (IsDuplicateKeyError err).2 = true <;> simp [hd]
  · intro now p hget
    refine ⟨?_, hnorm⟩
    simp only [updateProduct, hget]
    rcases hu : pu.Update db (ctx.Param "product_id") (updatedProduct ctx req p now)
      with ⟨_ | err, db1⟩
    · simp
    · by_cases hd : (IsDuplicateKeyError err).2 = true <;> simp [hd]

/-- Witness for C4: a request with `category_id` equal to the empty string, created in
and then written over a record of the table. -/
theorem category_id_normalised_witness :
    renameRequest.CategoryID = some "" ∧
    (newProduct staffOfStoreB renameRequest "u1" 1 2).CategoryID = none ∧
    (updatedProduct staffOfStoreB renameRequest mugOfStoreA 2000).CategoryID = none := by
  have h := category_id_normalised tableRepository [mugOfStoreA] staffOfStoreB renameRequest
  exact ⟨rfl, (h.1 "u1" 1 2).2, (h.2 2000 mugOfStoreA rfl).2⟩

/-- C5.  The status of the response of `createProduct`: 422 exactly when validation
fails; for a valid request, 409 (with code `ProductAlreadyExists`) exactly when `Create`
returns a duplicate-key error, 500 (with code `DatabaseQueryFailed`) exactly when it
returns any other error, and 201 (with the created record as data) exactly when it
returns none.  In particular a duplicate-key error never gives 500. -/
theorem createProduct_status (pu : ProductRepository σ π ρ) (db : σ) (ctx : Context)
    (req : Except ValidationError ReqProduct) (uuid : String) (createdAt updatedAt : Time) :
    ((createProduct pu db ctx req uuid createdAt updatedAt).1.Status
        = StatusUnprocessableEntity ↔ ∃ e, req = Except.error e) ∧
    (∀ q, req = Except.ok q →
      ((createProduct pu db ctx req uuid createdAt updatedAt).1.Status = StatusConflict ↔
        ∃ e, (pu.Create db (newProduct ctx q uuid createdAt updatedAt)).1 = some e ∧
          (IsDuplicateKeyError e).2 = true) ∧
      ((createProduct pu db ctx req uuid createdAt updatedAt).1.Status = StatusConflict →
        (createProduct pu db ctx req uuid createdAt updatedAt).1.Code
          = ErrorCode.ProductAlreadyExists) ∧
      ((createProduct pu db ctx req uuid createdAt updatedAt).1.Status
          = StatusInternalServerError ↔
        ∃ e, (pu.Create db (newProduct ctx q uuid createdAt updatedAt)).1 = some e ∧
          (IsDuplicateKeyError e).2 = false) ∧
      ((createProduct pu db ctx req uuid createdAt updatedAt).1.Status
          = StatusInternalServerError →
        (createProduct pu db ctx req uuid createdAt updatedAt).1.Code
          = ErrorCode.DatabaseQueryFailed) ∧
      ((createProduct pu db ctx req uuid createdAt updatedAt).1.Status = StatusCreated ↔
        (pu.Create db (newProduct ctx q uuid createdAt updatedAt)).1 = none) ∧
      ((createProduct pu db ctx req uuid createdAt updatedAt).1.Status = StatusCreated →
        (createProduct pu db ctx req uuid createdAt updatedAt).1.Data
          = some (ProductData.product (newProduct ctx q uuid createdAt updatedAt)))) := by
  cases req with
  | error e => simp [createProduct]
  | ok q0 =>
    refine ⟨?_, ?_⟩
    · simp only [createProduct]
      rcases hu : pu.Create db (newProduct ctx q0 uuid createdAt updatedAt) with ⟨_ | err, db1⟩
      · simp [StatusCreated, StatusUnprocessableEntity]
      · by_cases hd : (IsDuplicateKeyError err).2 = true <;>
          simp [hd, StatusConflict, StatusInternalServerError, StatusUnprocessableEntity]
    · intro q hq
      cases hq
      simp only [createProduct]
      rcases hu : pu.Create db (newProduct ctx q0 uuid createdAt updatedAt) with ⟨_ | err, db1⟩
      · simp [StatusCreated, StatusConflict, StatusInternalServerError]
      · by_cases hd : (IsDuplicateKeyError err).2 = true <;>
          simp [hd, StatusCreated, StatusConflict, StatusInternalServerError]

/-- Witness for C5: a second product with the SKU of `p1` in the same store is
answered with 409, and a rejected body with 422. -/
theorem createProduct_status_witness :
    (createProduct tableRepository [mugOfStoreA] (mkContext "store-a" true [] [])
        (Except.ok { renameRequest with SKU := "MUG-1" }) "p2" 1 2).1.Status = StatusConflict ∧
    (createProduct tableRepository [mugOfStoreA] (mkContext "store-a" true [] [])
        (Except.error { Fields := [("name", "required")] }) "p2" 1 2).1.Status
      = StatusUnprocessableEntity := by
  have h1 := createProduct_status tableRepository [mugOfStoreA] (mkContext "store-a" true [] [])
    (Except.ok { renameRequest with SKU := "MUG-1" }) "p2" 1 2
  have h2 := createProduct_status tableRepository [mugOfStoreA] (mkContext "store-a" true [] [])
    (Except.error { Fields := [("name", "required")] }) "p2" 1 2
  exact ⟨(h1.2 _ rfl).1.2 ⟨DbError.duplicateKey "duplicate key", by decide, rfl⟩,
         h2.1.2 ⟨_, rfl⟩⟩

/-- C6 (the handler departs from the claim).  In `updateProduct` every error of the
lookup `Get` is answered with 404 and code `ProductNotFound`, whatever its kind: also
an error that is neither a record-not-found nor a duplicate-key error, for which the
claim requires 500 and `DatabaseQueryFailed`. -/
theorem updateProduct_lookup_error_is_404 (pu : ProductRepository σ π ρ) (db : σ)
    (ctx : Context) (req : ReqProduct) (now : Time) (err : DbError)
    (hget : pu.Get db (ctx.Param "product_id") = Except.error err) :
    (updateProduct pu db ctx (Except.ok req) now).1.Status = StatusNotFound ∧
    (updateProduct pu db ctx (Except.ok req) now).1.Code = ErrorCode.ProductNotFound ∧
    (updateProduct pu db ctx (Except.ok req) now).1.Errors = some (RespError.db err) ∧
    (updateProduct pu db ctx (Except.ok req) now).1.Status ≠ StatusInternalServerError := by
  simp [updateProduct, hget, StatusNotFound, StatusInternalServerError]

/-- Witness for C6: the database cannot be reached, the error is neither a
record-not-found nor a duplicate-key error, and `updateProduct` answers 404. -/
theorem updateProduct_lookup_error_is_404_witness :
    IsRecordNotFoundError (DbError.other "connection refused") = false ∧
    (IsDuplicateKeyError (DbError.other "connection refused")).2 = false ∧
    (updateProduct (failingRepository (DbError.other "connection refused")) ()
        staffOfStoreB (Except.ok renameRequest) 2000).1.Status = 404 ∧
    (updateProduct (failingRepository (DbError.other "connection refused")) ()
        staffOfStoreB (Except.ok renameRequest) 2000).1.Code = ErrorCode.ProductNotFound :=
  have h := updateProduct_lookup_error_is_404
    (failingRepository (DbError.other "connection refused")) () staffOfStoreB renameRequest
    2000 (DbError.other "connection refused") rfl
  ⟨rfl, rfl, h.1, h.2.1⟩

/-- The attribute handlers share the behaviour of `updateProduct`: every error of the
lookup `GetAsStoreStuff` is answered with 404. -/
theorem attribute_lookup_error_is_404 (pu : ProductRepository σ π ρ) (db : σ)
    (ctx : Context) (req : ReqProductAttribute) (err : DbError)
    (hget : pu.GetAsStoreStuff db ctx.StoreID (ctx.Param "product_id") = Except.error err) :
    (addProductAttribute pu db ctx (Except.ok req)).1.Status = StatusNotFound ∧
    (deleteProductAttribute pu db ctx).1.Status = StatusNotFound := by
  simp [addProductAttribute, deleteProductAttribute, hget]

/-- The handlers that do classify the error: in `getProduct` and `deleteProduct` the
status is 404 for a record-not-found error and 500 for every other error, and
`listProducts` never answers 404. -/
theorem classified_errors (pu : ProductRepository σ π ρ) (db : σ) (ctx : Context) :
    (∀ err, (pu.Delete db ctx.StoreID (ctx.Param "product_id")).1 = some err →
      (deleteProduct pu db ctx).1.Status
        = (if IsRecordNotFoundError err then StatusNotFound else StatusInternalServerError)) ∧
    (∀ err, pu.GetAsStoreStuff db ctx.StoreID (ctx.Param "product_id") = Except.error err →
      ctx.IsStoreStaff = true →
      (getProduct pu db ctx).1.Status
        = (if IsRecordNotFoundError err then StatusNotFound else StatusInternalServerError)) ∧
    (∀ err, pu.GetDetails db (ctx.Param "product_id") = Except.error err →
      ctx.IsStoreStaff = false →
      (getProduct pu db ctx).1.Status
        = (if IsRecordNotFoundError err then StatusNotFound else StatusInternalServerError)) ∧
    (listProducts pu db ctx).1.Status ≠ StatusNotFound := by
  refine ⟨?_, ?_, ?_, ?_⟩
  · intro err h
    simp only [deleteProduct]
    rcases hu : pu.Delete db ctx.StoreID (ctx.Param "product_id") with ⟨e, db1⟩
    rw [hu] at h
    simp only at h
    subst h
    by_cases hn : IsRecordNotFoundError err = true <;> simp [hn]
  · intro err h hs
    simp only [getProduct, hs, h, if_true, Except.map]
    by_cases hn : IsRecordNotFoundError err = true <;> simp [hn]
  · intro err h hs
    simp only [getProduct, hs, h, Except.map]
    by_cases hn : IsRecordNotFoundError err = true <;> simp [hn]
  · intro h
    simp only [listProducts, respondPage] at h
    split at h <;> simp [StatusInternalServerError, StatusOK, StatusNotFound] at h

end ProductTheorems

section ImageTheorems

/-- A syntax error of `ParseInt` comes with the value 0. -/
theorem ParseInt_syntax_value (s : String) (h : (ParseInt s).2 = some NumError.ErrSyntax) :
    (ParseInt s).1 = 0 := by
  cases hs : s.data with
  | nil => simp [ParseInt, hs]
  | cons c rest =>
    simp only [ParseInt, hs] at h ⊢
    generalize ParseUint (if c = '+' ∨ c = '-' then rest else c :: rest) = r at h ⊢
    by_cases h1 : r.2 = some NumError.ErrSyntax
    · simp [h1]
    · simp only [h1, if_false] at h
      split_ifs at h <;> simp at h

/-- The body `ServeStreamFromMinio` sends, in one equation: the object itself when the
values read for `height` and `width` are both 0, and otherwise nothing when the object
does not decode, or else the image resized to (`width`, `height`) and encoded with the
quality read, replaced by 100 outside 1..100. -/
theorem ServeStreamFromMinio_eq {ι : Type} (Decode : List UInt8 → Option ι) (ctx : Context)
    (object : List UInt8) :
    ServeStreamFromMinio Decode ctx object =
      if (ParseInt (ctx.QueryParam "height")).1 = 0 ∧ (ParseInt (ctx.QueryParam "width")).1 = 0
      then Served.copied object
      else match Decode object with
        | none => Served.nothing
        | some img =>
          Served.encoded img (ParseInt (ctx.QueryParam "width")).1
            (ParseInt (ctx.QueryParam "height")).1
            (if (ParseInt (ctx.QueryParam "quality")).1 ≤ 0
                ∨ (ParseInt (ctx.QueryParam "quality")).1 > 100 then 100
             else (ParseInt (ctx.QueryParam "quality")).1) := by
  unfold ServeStreamFromMinio
  by_cases hh : (ParseInt (ctx.QueryParam "height")).1 = 0 <;>
    by_cases hw : (ParseInt (ctx.QueryParam "width")).1 = 0 <;>
    cases hd : Decode object <;>
    simp [hh, hw] <;>
    split <;> simp_all

/-- C9, as the claim states it, fails: for `width=-5` and no `height`, neither value is
a positive integer, yet the object is decoded, resized to (-5, 0) and re-encoded instead
of being copied to the response. -/
theorem negative_width_is_not_passed_through :
    ¬ (0 < (ParseInt "-5").1) ∧ ¬ (0 < (ParseInt "").1) ∧
    ServeStreamFromMinio decodeAny (mkContext "" false [] [("width", "-5")]) [1, 2, 3]
      = Served.encoded [1, 2, 3] (-5) 0 100 ∧
    ServeStreamFromMinio decodeAny (mkContext "" false [] [("width", "-5")]) [1, 2, 3]
      ≠ Served.copied [1, 2, 3] := by
  decide

/-- C9, amended.  `ServeStreamFromMinio` copies the object to the response, whatever the
decoder, exactly when the values `ParseInt` returns for `height` and for `width` are both
0; otherwise it takes the decoding path, with a body that is never the copied object.
The value is 0 for a parameter that is absent, that is `0`, or that `ParseInt` rejects
with a syntax error. -/
theorem pass_through_iff_both_zero {ι : Type} (Decode : List UInt8 → Option ι)
    (ctx : Context) (object : List UInt8) :
    (ServeStreamFromMinio Decode ctx object = Served.copied object ↔
      (ParseInt (ctx.QueryParam "height")).1 = 0 ∧ (ParseInt (ctx.QueryParam "width")).1 = 0) ∧
    (¬ ((ParseInt (ctx.QueryParam "height")).1 = 0 ∧ (ParseInt (ctx.QueryParam "width")).1 = 0) →
      ServeStreamFromMinio Decode ctx object = Served.nothing ∨
      ∃ img q, Decode object = some img ∧
        ServeStreamFromMinio Decode ctx object
          = Served.encoded img (ParseInt (ctx.QueryParam "width")).1
              (ParseInt (ctx.QueryParam "height")).1 q) ∧
    (∀ name, (ctx.QueryParam name = "" ∨ ctx.QueryParam name = "0" ∨
        (ParseInt (ctx.QueryParam name)).2 = some NumError.ErrSyntax) →
      (ParseInt (ctx.QueryParam name)).1 = 0) := by
  refine ⟨?_, ?_, ?_⟩
  · rw [ServeStreamFromMinio_eq]
    by_cases hz : (ParseInt (ctx.QueryParam "height")).1 = 0
        ∧ (ParseInt (ctx.QueryParam "width")).1 = 0
    · simp [hz]
    · simp only [hz, if_false, iff_false]
      cases Decode object <;> simp
  · intro hz
    rw [ServeStreamFromMinio_eq]
    simp only [hz, if_false]
    cases hd : Decode object with
    | none => exact Or.inl rfl
    | some img => exact Or.inr ⟨img, _, rfl, rfl⟩
  · intro name h
    rcases h with h | h | h
    · rw [h]; decide
    · rw [h]; decide
    · exact ParseInt_syntax_value _ h

/-- Witness for C9 amended: without parameters, and with `width=abc&height=0`, the
object is copied; with `width=100` it is not. -/
theorem pass_through_iff_both_zero_witness :
    ServeStreamFromMinio decodeAny (mkContext "" false [] []) [1, 2, 3]
      = Served.copied [1, 2, 3] ∧
    ServeStreamFromMinio decodeAny
      (mkContext "" false [] [("width", "abc"), ("height", "0")]) [1, 2, 3]
      = Served.copied [1, 2, 3] ∧
    ServeStreamFromMinio decodeAny (mkContext "" false [] [("width", "100")]) [1, 2, 3]
      ≠ Served.copied [1, 2, 3] :=
  ⟨(pass_through_iff_both_zero decodeAny (mkContext "" false [] []) [1, 2, 3]).1.2
      (by decide),
   (pass_through_iff_both_zero decodeAny
      (mkContext "" false [] [("width", "abc"), ("height", "0")]) [1, 2, 3]).1.2 (by decide),
   fun h => absurd
    ((pass_through_iff_both_zero decodeAny (mkContext "" false [] [("width", "100")])
      [1, 2, 3]).1.1 h) (by decide)⟩

/-- C10.  When the object decodes: a width `W > 0` with a height that reads as 0 (given
as 0 or absent) asks for the target (W, 0); a height `H > 0` with a width that reads as
0 asks for (0, H); a width `W > 0` with a height `H > 0` asks for exactly (W, H). -/
theorem resize_target {ι : Type} (Decode : List UInt8 → Option ι) (ctx : Context)
    (object : List UInt8) (img : ι) (hdec : Decode object = some img) :
    (∀ W, ParseInt (ctx.QueryParam "width") = (W, none) → 0 < W →
      (ParseInt (ctx.QueryParam "height")).1 = 0 →
      ∃ q, ServeStreamFromMinio Decode ctx object = Served.encoded img W 0 q) ∧
    (∀ H, ParseInt (ctx.QueryParam "height") = (H, none) → 0 < H →
      (ParseInt (ctx.QueryParam "width")).1 = 0 →
      ∃ q, ServeStreamFromMinio Decode ctx object = Served.encoded img 0 H q) ∧
    (∀ W H, ParseInt (ctx.QueryParam "width") = (W, none) →
      ParseInt (ctx.QueryParam "height") = (H, none) → 0 < W → 0 < H →
      ∃ q, ServeStreamFromMinio Decode ctx object = Served.encoded img W H q) ∧
    (ctx.QueryParam "height" = "" → (ParseInt (ctx.QueryParam "height")).1 = 0) ∧
    (ctx.QueryParam "width" = "" → (ParseInt (ctx.QueryParam "width")).1 = 0) := by
  refine ⟨?_, ?_, ?_, ?_, ?_⟩
  · intro W hW hpos hH
    rw [ServeStreamFromMinio_eq, hdec, hW, hH]
    have : ¬ W = 0 := by omega
    simp only [this, and_false, if_false]
    exact ⟨_, rfl⟩
  · intro H hH hpos hW
    rw [ServeStreamFromMinio_eq, hdec, hW, hH]
    have : ¬ H = 0 := by omega
    simp only [this, false_and, if_false]
    exact ⟨_, rfl⟩
  · intro W H hW hH hposW hposH
    rw [ServeStreamFromMinio_eq, hdec, hW, hH]
    have : ¬ H = 0 := by omega
    simp only [this, false_and, if_false]
    exact ⟨_, rfl⟩
  · intro h; rw [h]; decide
  · intro h; rw [h]; decide

/-- Witness for C10: `width=100&height=0` asks for the target (100, 0), and so does
`width=100` alone. -/
theorem resize_target_witness :
    (∃ q, ServeStreamFromMinio decodeAny
        (mkContext "" false [] [("width", "100"), ("height", "0")]) [1, 2, 3]
      = Served.encoded [1, 2, 3] 100 0 q) ∧
    (∃ q, ServeStreamFromMinio decodeAny (mkContext "" false [] [("width", "100")]) [1, 2, 3]
      = Served.encoded [1, 2, 3] 100 0 q) :=
  ⟨(resize_target decodeAny (mkContext "" false [] [("width", "100"), ("height", "0")])
      [1, 2, 3] [1, 2, 3] rfl).1 100 (by decide) (by decide) (by decide),
   (resize_target decodeAny (mkContext "" false [] [("width", "100")])
      [1, 2, 3] [1, 2, 3] rfl).1 100 (by decide) (by decide) (by decide)⟩

end ImageTheorems

section StatsTheorems

theorem mapPut_fresh {κ ν : Type} [DecidableEq κ] (m : List (κ × ν)) (k : κ) (v : ν)
    (h : ∀ e ∈ m, e.1 ≠ k) : mapPut m k v = m ++ [(k, v)] := by
  induction m with
  | nil => rfl
  | cons e rest ih =>
    obtain ⟨k1, v1⟩ := e
    have h1 : k1 ≠ k := h (k1, v1) (List.mem_cons_self _ _)
    have h2 : ∀ e ∈ rest, e.1 ≠ k := fun e he => h e (List.mem_cons_of_mem _ he)
    simp [mapPut, h1, ih h2]

theorem expectedFrames_length (step : Int) (clock : Time) (n : Nat) :
    (expectedFrames step clock n).length = n := by
  simp [expectedFrames]

theorem expectedFrames_succ (step : Int) (clock : Time) (j : Nat) :
    expectedFrames step clock (j + 1)
      = expectedFrames step clock j
        ++ [(clock + ((j : Int) + 1) * step, clock + (j : Int) * step)] := by
  simp [expectedFrames, List.range_succ]

theorem expectedFrames_starts_injective (step : Int) (clock : Time) (hstep : step ≠ 0) :
    Function.Injective (fun i : Nat => clock + ((i : Int) + 1) * step) := by
  intro i j h
  have h1 : ((i : Int) + 1) * step = ((j : Int) + 1) * step := by
    have := h
    simp only at this
    linarith
  have h2 := Int.eq_of_mul_eq_mul_right hstep h1
  omega

/-- The starts of the expected frames are pairwise distinct. -/
theorem expectedFrames_starts_nodup (step : Int) (clock : Time) (n : Nat) (hstep : step ≠ 0) :
    ((expectedFrames step clock n).map Prod.fst).Nodup := by
  have h : (expectedFrames step clock n).map Prod.fst
      = (List.range n).map (fun i : Nat => clock + ((i : Int) + 1) * step) := by
    simp [expectedFrames, Function.comp_def]
  rw [h]
  exact (List.nodup_range n).map (expectedFrames_starts_injective step clock hstep)

/-- The loop that builds the time frames, started after `j` iterations: with at least
`n - j` iterations left to it, it ends with exactly the `n` expected frames; with fewer
it is still running when they are used up. -/
theorem buildTimeFrames_from (n : Nat) (step : Int) (clock : Time) (hstep : step ≠ 0) :
    ∀ (fuel j : Nat), j ≤ n →
      buildTimeFrames n step fuel (expectedFrames step clock j)
          (clock + (j : Int) * step) (clock + ((j : Int) + 1) * step)
        = if n ≤ fuel + j then some (expectedFrames step clock n) else none := by
  intro fuel
  induction fuel with
  | zero =>
    intro j hj
    simp only [buildTimeFrames, expectedFrames_length]
    by_cases h : j < n
    · have : ¬ n ≤ j := by omega
      simp [h, this]
    · have : j = n := by omega
      subst this
      simp
  | succ fuel ih =>
    intro j hj
    simp only [buildTimeFrames, expectedFrames_length]
    by_cases h : j < n
    · have hfresh : ∀ e ∈ expectedFrames step clock j, e.1 ≠ clock + ((j : Int) + 1) * step := by
        intro e he
        simp only [expectedFrames, List.mem_map, List.mem_range] at he
        obtain ⟨i, hi, rfl⟩ := he
        intro heq
        have := @expectedFrames_starts_injective step clock hstep i j heq
        omega
      have hnext : clock + ((j : Int) + 1) * step + step
          = clock + (((j + 1 : Nat) : Int) + 1) * step := by
        push_cast; ring
      have hnow : clock + ((j : Int) + 1) * step = clock + ((j + 1 : Nat) : Int) * step := by
        push_cast; ring
      rw [if_pos h, mapPut_fresh _ _ _ hfresh, ← expectedFrames_succ, hnext]
      conv_lhs => arg 5; rw [hnow]
      rw [ih (j + 1) (by omega)]
      have : (n ≤ fuel + (j + 1)) ↔ (n ≤ fuel + 1 + j) := by omega
      simp only [this]
    · have : j = n := by omega
      subst this
      simp

/-- The loop of `orderStats` that builds `n` time frames from the clock reading ends
when it is given at least `n` iterations, with the expected frames. -/
theorem buildTimeFrames_eq (n : Nat) (step : Int) (clock : Time) (hstep : step ≠ 0)
    (fuel : Nat) :
    buildTimeFrames n step fuel [] clock (clock + step)
      = if n ≤ fuel then some (expectedFrames step clock n) else none := by
  have h := buildTimeFrames_from n step clock hstep fuel 0 (Nat.zero_le _)
  simpa [expectedFrames] using h

theorem sinkInto_perm {α : Type} (less : α → α → Bool) (x : α) (l : List α) :
    (sinkInto less x l).Perm (x :: l) := by
  induction l with
  | nil => exact List.Perm.refl _
  | cons y rest ih =>
    simp only [sinkInto]
    by_cases h : less x y = true
    · rw [if_pos h]
      exact (List.Perm.cons y ih).trans (List.Perm.swap x y rest)
    · rw [if_neg h]

theorem foldl_sinkInto_perm {α : Type} (less : α → α → Bool) (xs : List α) :
    ∀ sorted : List α,
      (xs.foldl (fun sorted x => sinkInto less x sorted) sorted).Perm (xs ++ sorted) := by
  induction xs with
  | nil => intro sorted; exact List.Perm.refl _
  | cons x rest ih =>
    intro sorted
    simp only [List.foldl_cons, List.cons_append]
    exact (ih _).trans
      ((List.Perm.append_left rest (sinkInto_perm less x sorted)).trans List.perm_middle)

/-- The slice sorted by `sortSlice` holds the elements it held before. -/
theorem sortSlice_perm {α : Type} (less : α → α → Bool) (xs : List α) :
    (sortSlice less xs).Perm xs := by
  unfold sortSlice
  have h := foldl_sinkInto_perm less xs []
  rw [List.append_nil] at h
  exact (List.reverse_perm _).trans h

theorem sinkInto_descending {α : Type} (key : α → Int) (x : α) (l : List α)
    (h : l.Pairwise (fun a b => key b ≤ key a)) :
    (sinkInto (fun x y => !decide (key x > key y)) x l).Pairwise
      (fun a b => key b ≤ key a) := by
  induction l with
  | nil => simp [sinkInto]
  | cons y rest ih =>
    rw [List.pairwise_cons] at h
    simp only [sinkInto]
    by_cases hxy : key x > key y
    · simp only [hxy, decide_True, Bool.not_true, Bool.false_eq_true, if_false]
      refine List.pairwise_cons.2 ⟨?_, List.pairwise_cons.2 h⟩
      intro b hb
      rcases List.mem_cons.1 hb with rfl | hb
      · omega
      · have := h.1 b hb
        omega
    · simp only [hxy, decide_False, Bool.not_false, if_true]
      refine List.pairwise_cons.2 ⟨?_, ih h.2⟩
      intro b hb
      rcases List.mem_cons.1 ((sinkInto_perm _ x rest).mem_iff.1 hb) with rfl | hb
      · omega
      · exact h.1 b hb

theorem foldl_sinkInto_descending {α : Type} (key : α → Int) (xs : List α) :
    ∀ sorted : List α, sorted.Pairwise (fun a b => key b ≤ key a) →
      (xs.foldl (fun sorted x => sinkInto (fun x y => !decide (key x > key y)) x sorted)
        sorted).Pairwise (fun a b => key b ≤ key a) := by
  induction xs with
  | nil => intro sorted h; exact h
  | cons x rest ih =>
    intro sorted h
    exact ih _ (sinkInto_descending key x sorted h)

/-- Sorting with the comparison `less x y = !(key x > key y)` of `orderStats` leaves the
slice in ascending order of `key`. -/
theorem sortSlice_ascending {α : Type} (key : α → Int) (xs : List α) :
    (sortSlice (fun x y => !decide (key x > key y)) xs).Pairwise
      (fun a b => key a ≤ key b) := by
  unfold sortSlice
  rw [List.pairwise_reverse]
  exact foldl_sinkInto_descending key xs [] List.Pairwise.nil

/-- When the keys are pairwise distinct the order is strict. -/
theorem sortSlice_strictly_ascending {α : Type} (key : α → Int) (xs : List α)
    (hnd : (xs.map key).Nodup) :
    (sortSlice (fun x y => !decide (key x > key y)) xs).Pairwise
      (fun a b => key a < key b) := by
  have hperm := sortSlice_perm (fun x y => !decide (key x > key y)) xs
  have hnd2 : ((sortSlice (fun x y => !decide (key x > key y)) xs).map key).Nodup :=
    ((hperm.map key).nodup_iff).2 hnd
  have hne := List.pairwise_map.1 hnd2
  exact ((sortSlice_ascending key xs).and hne).imp (fun h => lt_of_le_of_ne h.1 h.2)

/-- The labels of the summaries the loop over the time frames collects: those it
started with, followed by the formatted start of each frame, in the order visited. -/
theorem statsLoop_labels {σ : Type} (ou : OrderRepository σ) (db : σ) (ctx : Context)
    (layout : DateLayout) :
    ∀ (entries : List (Time × Time)) (acc acc1 : StatsAcc),
      statsLoop ou db ctx layout entries acc = Except.ok acc1 →
      acc1.timeWiseSummary.map (·.Time)
        = acc.timeWiseSummary.map (·.Time) ++ entries.map (fun e => layout.Format e.1) := by
  intro entries
  induction entries with
  | nil =>
    intro acc acc1 h
    simp only [statsLoop, Except.ok.injEq] at h
    subst h
    simp
  | cons e rest ih =>
    intro acc acc1 h
    obtain ⟨k, v⟩ := e
    simp only [statsLoop] at h
    split at h
    · exact absurd h (by simp)
    · split at h
      · exact absurd h (by simp)
      · split at h
        · exact absurd h (by simp)
        · rw [ih _ _ h]
          simp

/-- The time frames of each timeline: the 7, 5 or 12 expected frames of one day, 7 days
or 30 days when the loop is given that many iterations, and no result with fewer. -/
theorem timeFramesFor_eq (fuel : Nat) (clock : Time) :
    timeFramesFor fuel "w" clock
      = (if 7 ≤ fuel then some (expectedFrames (Hour * -24) clock 7) else none) ∧
    timeFramesFor fuel "m" clock
      = (if 5 ≤ fuel then some (expectedFrames (Hour * 7 * -24) clock 5) else none) ∧
    timeFramesFor fuel "y" clock
      = (if 12 ≤ fuel then some (expectedFrames (Hour * 30 * -24) clock 12) else none) := by
  refine ⟨?_, ?_, ?_⟩
  · simp only [timeFramesFor, if_true]
    exact buildTimeFrames_eq 7 _ clock (by decide) fuel
  · have h1 : ¬ ("m" = "w") := by decide
    simp only [timeFramesFor, h1, if_false, if_true]
    exact buildTimeFrames_eq 5 _ clock (by decide) fuel
  · have h1 : ¬ ("y" = "w") := by decide
    have h2 : ¬ ("y" = "m") := by decide
    simp only [timeFramesFor, h1, h2, if_false, if_true]
    exact buildTimeFrames_eq 12 _ clock (by decide) fuel

/-- With 12 iterations allowed, the time frames are built for every timeline. -/
theorem timeFramesFor_some (fuel : Nat) (hfuel : 12 ≤ fuel) (timeline : String)
    (clock : Time) : ∃ fr, timeFramesFor fuel timeline clock = some fr := by
  have h := timeFramesFor_eq fuel clock
  by_cases hw : timeline = "w"
  · subst hw; exact ⟨_, by rw [h.1, if_pos (by omega)]⟩
  · by_cases hm : timeline = "m"
    · subst hm; exact ⟨_, by rw [h.2.1, if_pos (by omega)]⟩
    · by_cases hy : timeline = "y"
      · subst hy; exact ⟨_, by rw [h.2.2, if_pos hfuel]⟩
      · exact ⟨[], by simp [timeFramesFor, hw, hm, hy]⟩

/-- Once the time frames are built `orderStats` answers. -/
theorem orderStats_some {σ : Type} (ou : OrderRepository σ) (db : σ) (ctx : Context)
    (layout : DateLayout) (rangeOrder : List (Time × Time) → List (Time × Time))
    (fuel : Nat) (clock : Time) (fr : List (Time × Time))
    (hfr : timeFramesFor fuel (ctx.QueryParam "timeline") clock = some fr) :
    ∃ resp, orderStats ou db ctx layout rangeOrder fuel clock = some resp := by
  simp only [orderStats, hfr]
  split
  · exact ⟨_, rfl⟩
  · split <;> exact ⟨_, rfl⟩

/-- The list `reports_by_time` of a successful answer of `orderStats`: the summaries
collected by the loop over the time frames, sorted by their parsed label. -/
theorem orderStats_reports {σ : Type} (ou : OrderRepository σ) (db : σ) (ctx : Context)
    (layout : DateLayout) (rangeOrder : List (Time × Time) → List (Time × Time))
    (fuel : Nat) (clock : Time) (fr : List (Time × Time))
    (resp : Response OrderStatsData) (data : OrderStatsData)
    (hfr : timeFramesFor fuel (ctx.QueryParam "timeline") clock = some fr)
    (hresp : orderStats ou db ctx layout rangeOrder fuel clock = some resp)
    (hdata : resp.Data = some data) :
    ∃ acc, statsLoop ou db ctx layout (rangeOrder fr)
        { timeWiseSummary := [], ordersStats := [], earningsStats := [] } = Except.ok acc ∧
      data.reports_by_time
        = sortSlice (fun x y => !decide (layout.Parse x.Time > layout.Parse y.Time))
            acc.timeWiseSummary := by
  simp only [orderStats, hfr] at hresp
  split at hresp
  · simp only [Option.some.injEq] at hresp
    subst hresp
    simp at hdata
  · split at hresp
    · simp only [Option.some.injEq] at hresp
      subst hresp
      simp at hdata
    · rename_i acc hacc
      simp only [Option.some.injEq] at hresp
      subst hresp
      simp only [Option.some.injEq] at hdata
      subst hdata
      exact ⟨acc, hacc, rfl⟩

/-- The number of entries of `reports_by_time` is the number of time frames. -/
theorem orderStats_reports_length {σ : Type} (ou : OrderRepository σ) (db : σ)
    (ctx : Context) (layout : DateLayout)
    (rangeOrder : List (Time × Time) → List (Time × Time))
    (hrange : ∀ m, (rangeOrder m).Perm m)
    (fuel : Nat) (clock : Time) (fr : List (Time × Time))
    (resp : Response OrderStatsData) (data : OrderStatsData)
    (hfr : timeFramesFor fuel (ctx.QueryParam "timeline") clock = some fr)
    (hresp : orderStats ou db ctx layout rangeOrder fuel clock = some resp)
    (hdata : resp.Data = some data) :
    data.reports_by_time.length = fr.length := by
  obtain ⟨acc, hacc, hrep⟩ :=
    orderStats_reports ou db ctx layout rangeOrder fuel clock fr resp data hfr hresp hdata
  have hl := congrArg List.length (statsLoop_labels ou db ctx layout _ _ _ hacc)
  simp only [List.length_map, List.map_nil, List.nil_append] at hl
  rw [hrep, (sortSlice_perm _ _).length_eq, hl, (hrange fr).length_eq]

/-- C7.  With the 12 iterations the largest timeline needs, the loop of `orderStats`
builds, for every clock reading, exactly 7 time frames for `w`, 5 for `m` and 12 for `y`,
with pairwise distinct starts; `orderStats` then answers, and when the answer carries
data, `reports_by_time` has 7, 5 or 12 entries. -/
theorem bucket_counts (clock : Time) (fuel : Nat) (hfuel : 12 ≤ fuel) :
    (∃ fr, timeFramesFor fuel "w" clock = some fr ∧ fr.length = 7 ∧
      (fr.map Prod.fst).Nodup) ∧
    (∃ fr, timeFramesFor fuel "m" clock = some fr ∧ fr.length = 5 ∧
      (fr.map Prod.fst).Nodup) ∧
    (∃ fr, timeFramesFor fuel "y" clock = some fr ∧ fr.length = 12 ∧
      (fr.map Prod.fst).Nodup) ∧
    (∀ (σ : Type) (ou : OrderRepository σ) (db : σ) (ctx : Context) (layout : DateLayout)
        (rangeOrder : List (Time × Time) → List (Time × Time)),
      (∀ m, (rangeOrder m).Perm m) →
      ∃ resp, orderStats ou db ctx layout rangeOrder fuel clock = some resp ∧
        ∀ data, resp.Data = some data →
          (ctx.QueryParam "timeline" = "w" → data.reports_by_time.length = 7) ∧
          (ctx.QueryParam "timeline" = "m" → data.reports_by_time.length = 5) ∧
          (ctx.QueryParam "timeline" = "y" → data.reports_by_time.length = 12)) := by
  have h := timeFramesFor_eq fuel clock
  have hw : timeFramesFor fuel "w" clock = some (expectedFrames (Hour * -24) clock 7) := by
    rw [h.1, if_pos (by omega)]
  have hm : timeFramesFor fuel "m" clock = some (expectedFrames (Hour * 7 * -24) clock 5) := by
    rw [h.2.1, if_pos (by omega)]
  have hy : timeFramesFor fuel "y" clock = some (expectedFrames (Hour * 30 * -24) clock 12) := by
    rw [h.2.2, if_pos hfuel]
  refine ⟨⟨_, hw, expectedFrames_length _ _ _, expectedFrames_starts_nodup _ _ _ (by decide)⟩,
    ⟨_, hm, expectedFrames_length _ _ _, expectedFrames_starts_nodup _ _ _ (by decide)⟩,
    ⟨_, hy, expectedFrames_length _ _ _, expectedFrames_starts_nodup _ _ _ (by decide)⟩, ?_⟩
  intro σ ou db ctx layout rangeOrder hrange
  obtain ⟨fr, hfr⟩ := timeFramesFor_some fuel hfuel (ctx.QueryParam "timeline") clock
  obtain ⟨resp, hresp⟩ := orderStats_some ou db ctx layout rangeOrder fuel clock fr hfr
  refine ⟨resp, hresp, ?_⟩
  intro data hdata
  have hlen := orderStats_reports_length ou db ctx layout rangeOrder hrange fuel clock fr
    resp data hfr hresp hdata
  refine ⟨?_, ?_, ?_⟩
  · intro htl
    rw [htl, hw] at hfr
    cases hfr
    rw [hlen, expectedFrames_length]
  · intro htl
    rw [htl, hm] at hfr
    cases hfr
    rw [hlen, expectedFrames_length]
  · intro htl
    rw [htl, hy] at hfr
    cases hfr
    rw [hlen, expectedFrames_length]

/-- Witness for C7: a week of statistics from a clock reading on day 10, with the time
frames visited in reverse order; the answer is 200 with 7 entries. -/
theorem bucket_counts_witness :
    (∃ fr, timeFramesFor 12 "w" 864000000000005 = some fr ∧ fr.length = 7 ∧
      (fr.map Prod.fst).Nodup) ∧
    (∃ resp, orderStats sampleOrders () (mkContext "s" true [] [("timeline", "w")])
        tallyLayout List.reverse 12 864000000000005 = some resp ∧
      ∀ data, resp.Data = some data → data.reports_by_time.length = 7) ∧
    (orderStats sampleOrders () (mkContext "s" true [] [("timeline", "w")])
        tallyLayout List.reverse 12 864000000000005).map
      (fun resp => (resp.Status, resp.Data.map (fun data => data.reports_by_time.length)))
      = some (200, some 7) :=
  have h := bucket_counts 864000000000005 12 (by decide)
  ⟨h.1,
   (h.2.2.2 Unit sampleOrders () (mkContext "s" true [] [("timeline", "w")]) tallyLayout
      List.reverse (fun m => List.reverse_perm m)).imp
      (fun _ hr => ⟨hr.1, fun data hdata => (hr.2 data hdata).1 rfl⟩),
   by decide⟩

/-- Under a layout that tells apart any two times a day or more apart, the parsed
labels of the expected frames are pairwise distinct when the step is a day or more. -/
theorem parsed_starts_nodup (layout : DateLayout)
    (hlayout : ∀ a b : Time, a + Hour * 24 ≤ b →
      layout.Parse (layout.Format a) < layout.Parse (layout.Format b))
    (step : Int) (hstep : step ≤ -(Hour * 24)) (clock : Time) (n : Nat) :
    ((expectedFrames step clock n).map
      (fun e => layout.Parse (layout.Format e.1))).Nodup := by
  have hH : (0 : Int) < Hour * 24 := by decide
  have hanti : StrictAnti
      (fun i : Nat => layout.Parse (layout.Format (clock + ((i : Int) + 1) * step))) := by
    intro i j hij
    apply hlayout
    have h1 : (i : Int) + 1 ≤ j := by exact_mod_cast hij
    have h2 : ((j : Int) - i) * step ≤ 1 * step :=
      mul_le_mul_of_nonpos_right (by omega) (by omega)
    nlinarith
  have h : (expectedFrames step clock n).map (fun e => layout.Parse (layout.Format e.1))
      = (List.range n).map
          (fun i : Nat => layout.Parse (layout.Format (clock + ((i : Int) + 1) * step))) := by
    simp [expectedFrames, Function.comp_def]
  rw [h]
  exact (List.nodup_range n).map hanti.injective

/-- The loop over the time frames runs to its end when the three queries succeed for
every frame. -/
theorem statsLoop_ok {σ : Type} (ou : OrderRepository σ) (db : σ) (ctx : Context)
    (layout : DateLayout) :
    ∀ (entries : List (Time × Time)) (acc : StatsAcc),
      (∀ e ∈ entries,
        (∃ s, ou.StoreSummaryByTime db ctx.StoreID e.1 e.2 = Except.ok s) ∧
        (∃ c, ou.CountByStatus db ctx.StoreID e.1 e.2 = Except.ok c) ∧
        (∃ x, ou.EarningsByStatus db ctx.StoreID e.1 e.2 = Except.ok x)) →
      ∃ acc1, statsLoop ou db ctx layout entries acc = Except.ok acc1 := by
  intro entries
  induction entries with
  | nil => intro acc _; exact ⟨acc, rfl⟩
  | cons e rest ih =>
    intro acc h
    obtain ⟨k, v⟩ := e
    obtain ⟨⟨s, hs⟩, ⟨c, hc⟩, ⟨x, hx⟩⟩ := h (k, v) (List.mem_cons_self _ _)
    simp only at hs hc hx
    simp only [statsLoop, hs, hc, hx]
    exact ih _ (fun e he => h e (List.mem_cons_of_mem _ he))

/-- The answer of `orderStats` carries data, with status 200, when the time frames are
built and the queries succeed: the summary of the store and the three queries of every
frame. -/
theorem orderStats_data {σ : Type} (ou : OrderRepository σ) (db : σ) (ctx : Context)
    (layout : DateLayout) (rangeOrder : List (Time × Time) → List (Time × Time))
    (hrange : ∀ m, (rangeOrder m).Perm m)
    (fuel : Nat) (clock : Time) (fr : List (Time × Time))
    (hfr : timeFramesFor fuel (ctx.QueryParam "timeline") clock = some fr)
    (hsum : ∃ summary, ou.StoreSummary db ctx.StoreID = Except.ok summary)
    (hall : ∀ e ∈ fr,
      (∃ s, ou.StoreSummaryByTime db ctx.StoreID e.1 e.2 = Except.ok s) ∧
      (∃ c, ou.CountByStatus db ctx.StoreID e.1 e.2 = Except.ok c) ∧
      (∃ x, ou.EarningsByStatus db ctx.StoreID e.1 e.2 = Except.ok x)) :
    ∃ resp data, orderStats ou db ctx layout rangeOrder fuel clock = some resp ∧
      resp.Status = StatusOK ∧ resp.Data = some data := by
  obtain ⟨summary, hsum⟩ := hsum
  obtain ⟨acc, hacc⟩ := statsLoop_ok ou db ctx layout (rangeOrder fr)
    { timeWiseSummary := [], ordersStats := [], earningsStats := [] }
    (fun e he => hall e ((hrange fr).mem_iff.1 he))
  simp only [orderStats, hfr, hsum, hacc]
  exact ⟨_, _, rfl, rfl, rfl⟩

/-- The slice sorted by `sortSlice` with the comparison of `orderStats` is strictly
ascending exactly when the keys are pairwise distinct. -/
theorem sortSlice_strict_iff {α : Type} (key : α → Int) (xs : List α) :
    (sortSlice (fun x y => !decide (key x > key y)) xs).Pairwise
        (fun a b => key a < key b) ↔ (xs.map key).Nodup := by
  constructor
  · intro h
    have hperm := sortSlice_perm (fun x y => !decide (key x > key y)) xs
    refine ((hperm.map key).nodup_iff).1 ?_
    exact List.pairwise_map.2 (h.imp (fun hab => ne_of_lt hab))
  · exact sortSlice_strictly_ascending key xs

/-- C8, as the claim states it, fails.  With a date-only layout in a zone whose clocks
are set back at 01:00 UTC of day 20, and a clock reading at 22:30 UTC of day 22, the
frames that start at 22:30 UTC of day 19 and of day 20 are both labelled with local day
20: the answer is 200 and `reports_by_time` carries the start of day 20 twice, so it is
not strictly ascending. -/
theorem reports_by_time_may_repeat_a_start :
    (orderStats sampleOrders () (mkContext "s" true [] [("timeline", "w")])
        (autumnLayout 1731600000000000) id 12 1981800000000000).map
      (fun resp => (resp.Status, resp.Data.map (fun data =>
        data.reports_by_time.map
          (fun s => (autumnLayout 1731600000000000).Parse s.Time / (Hour * 24)))))
      = some (200, some [16, 17, 18, 19, 20, 20, 21]) ∧
    (orderStats sampleOrders () (mkContext "s" true [] [("timeline", "w")])
        (autumnLayout 1731600000000000) id 12 1981800000000000).map
      (fun resp => resp.Data.map (fun data =>
        decide (data.reports_by_time.Pairwise
          (fun x y => (autumnLayout 1731600000000000).Parse x.Time
            < (autumnLayout 1731600000000000).Parse y.Time))))
      = some (some false) := by
  constructor <;> decide

/-- C8, amended.  For a timeline `w`, `m` or `y`, every clock reading and every order in
which the time frames are visited, `orderStats` answers once the loop has had its 12
iterations, with data when the queries succeed.  The list `reports_by_time` of an answer
with data has one entry for each time frame, labelled with the formatted start of the
frame, and is ascending by parsed bucket start: no entry's parsed `Time` is later than
that of a later entry.  It is strictly ascending exactly when the labels of the frames
parse to pairwise distinct times, which is so when the layout `utils.DateFormat` tells
apart times that lie a day or more apart. -/
theorem reports_by_time_ascending {σ : Type} (ou : OrderRepository σ) (db : σ)
    (ctx : Context) (layout : DateLayout)
    (rangeOrder : List (Time × Time) → List (Time × Time)) (fuel : Nat) (clock : Time)
    (htl : ctx.QueryParam "timeline" = "w" ∨ ctx.QueryParam "timeline" = "m" ∨
      ctx.QueryParam "timeline" = "y")
    (hrange : ∀ m, (rangeOrder m).Perm m)
    (hfuel : 12 ≤ fuel) :
    ∃ frames resp,
      timeFramesFor fuel (ctx.QueryParam "timeline") clock = some frames ∧
      orderStats ou db ctx layout rangeOrder fuel clock = some resp ∧
      ((∃ summary, ou.StoreSummary db ctx.StoreID = Except.ok summary) →
        (∀ e ∈ frames,
          (∃ s, ou.StoreSummaryByTime db ctx.StoreID e.1 e.2 = Except.ok s) ∧
          (∃ c, ou.CountByStatus db ctx.StoreID e.1 e.2 = Except.ok c) ∧
          (∃ x, ou.EarningsByStatus db ctx.StoreID e.1 e.2 = Except.ok x)) →
        resp.Status = StatusOK ∧ ∃ data, resp.Data = some data) ∧
      ∀ data, resp.Data = some data →
        data.reports_by_time.Pairwise
          (fun x y => layout.Parse x.Time ≤ layout.Parse y.Time) ∧
        (data.reports_by_time.map (fun s => s.Time)).Perm
          (frames.map (fun e => layout.Format e.1)) ∧
        (data.reports_by_time.Pairwise
            (fun x y => layout.Parse x.Time < layout.Parse y.Time) ↔
          (frames.map (fun e => layout.Parse (layout.Format e.1))).Nodup) ∧
        ((∀ a b : Time, a + Hour * 24 ≤ b →
            layout.Parse (layout.Format a) < layout.Parse (layout.Format b)) →
          data.reports_by_time.Pairwise
            (fun x y => layout.Parse x.Time < layout.Parse y.Time)) := by
  -- the time frames are the expected ones, for a step of a day or more
  have hfr : ∃ step n, step ≤ -(Hour * 24) ∧
      timeFramesFor fuel (ctx.QueryParam "timeline") clock
        = some (expectedFrames step clock n) := by
    have h := timeFramesFor_eq fuel clock
    rcases htl with htl | htl | htl <;> rw [htl]
    · exact ⟨Hour * -24, 7, by decide, by rw [h.1, if_pos (by omega)]⟩
    · exact ⟨Hour * 7 * -24, 5, by decide, by rw [h.2.1, if_pos (by omega)]⟩
    · exact ⟨Hour * 30 * -24, 12, by decide, by rw [h.2.2, if_pos hfuel]⟩
  obtain ⟨step, n, hstep, hfr⟩ := hfr
  obtain ⟨resp, hresp⟩ := orderStats_some ou db ctx layout rangeOrder fuel clock _ hfr
  refine ⟨_, resp, hfr, hresp, ?_, ?_⟩
  · intro hsum hall
    obtain ⟨resp1, data, hresp1, hstatus, hdata⟩ :=
      orderStats_data ou db ctx layout rangeOrder hrange fuel clock _ hfr hsum hall
    rw [hresp] at hresp1
    cases hresp1
    exact ⟨hstatus, data, hdata⟩
  · intro data hdata
    obtain ⟨acc, hacc, hrep⟩ := orderStats_reports ou db ctx layout rangeOrder fuel clock _
      resp data hfr hresp hdata
    have hlabels := statsLoop_labels ou db ctx layout _ _ _ hacc
    simp only [List.map_nil, List.nil_append] at hlabels
    -- the parsed labels of the collected summaries are those of the frames
    have hkeys : (acc.timeWiseSummary.map (fun s => layout.Parse s.Time)).Perm
        ((expectedFrames step clock n).map (fun e => layout.Parse (layout.Format e.1))) := by
      have h1 : acc.timeWiseSummary.map (fun s => layout.Parse s.Time)
          = (rangeOrder (expectedFrames step clock n)).map
              (fun e => layout.Parse (layout.Format e.1)) := by
        have := congrArg (List.map layout.Parse) hlabels
        simpa [List.map_map, Function.comp_def] using this
      rw [h1]
      exact (hrange _).map _
    have hiff := sortSlice_strict_iff (fun s : Summary => layout.Parse s.Time)
      acc.timeWiseSummary
    rw [hrep]
    refine ⟨sortSlice_ascending (fun s : Summary => layout.Parse s.Time) _, ?_, ?_, ?_⟩
    · refine ((sortSlice_perm _ _).map _).trans ?_
      rw [hlabels]
      exact (hrange _).map _
    · rw [hiff]
      exact hkeys.nodup_iff
    · intro hlayout
      rw [hiff]
      exact hkeys.nodup_iff.2 (parsed_starts_nodup layout hlayout step hstep clock n)

/-- Parsing a time formatted with the tally layout gives the start of its day. -/
theorem tallyLayout_roundtrip (t : Time) :
    tallyLayout.Parse (tallyLayout.Format t) = t / (Hour * 24) * (Hour * 24) := by
  simp only [tallyLayout]
  generalize t / (Hour * 24) = d
  by_cases h : d < 0
  · simp only [h, if_true, List.length_replicate]
    have : (d.natAbs : Int) = -d := Int.ofNat_natAbs_of_nonpos (le_of_lt h)
    rw [this]; simp
  · simp only [h, if_false, List.length_replicate]
    have : (d.natAbs : Int) = d := Int.natAbs_of_nonneg (not_lt.1 h)
    rw [this]; simp

/-- The tally layout tells apart times that lie a day or more apart. -/
theorem tallyLayout_resolves_days (a b : Time) (h : a + Hour * 24 ≤ b) :
    tallyLayout.Parse (tallyLayout.Format a) < tallyLayout.Parse (tallyLayout.Format b) := by
  rw [tallyLayout_roundtrip, tallyLayout_roundtrip]
  have hH : (0 : Int) < Hour * 24 := by decide
  have h1 : a / (Hour * 24) + 1 ≤ b / (Hour * 24) := by
    have : (a + Hour * 24) / (Hour * 24) ≤ b / (Hour * 24) := Int.ediv_le_ediv hH h
    rwa [Int.add_ediv_of_dvd_right (dvd_refl _), Int.ediv_self (ne_of_gt hH)] at this
  nlinarith

/-- Witness for C8: a week of statistics under the tally layout, with the time frames
visited in the order of days 6, 5, 4, 3, 9, 8, 7; the answer lists them from day 3 to
day 9. -/
theorem reports_by_time_ascending_witness :
    ∃ resp data,
      orderStats sampleOrders () (mkContext "s" true [] [("timeline", "w")])
        tallyLayout (fun m => m.rotate 3) 12 864000000000005 = some resp ∧
      resp.Data = some data ∧
      data.reports_by_time.Pairwise
        (fun x y => tallyLayout.Parse x.Time < tallyLayout.Parse y.Time) ∧
      (timeFramesFor 12 "w" 864000000000005).map
          (fun fr => (fr.rotate 3).map (fun e => tallyLayout.Format e.1))
        = some ["+||||||", "+|||||", "+||||", "+|||", "+|||||||||", "+||||||||", "+|||||||"] ∧
      (orderStats sampleOrders () (mkContext "s" true [] [("timeline", "w")])
          tallyLayout (fun m => m.rotate 3) 12 864000000000005).map
        (fun resp => resp.Data.map (fun data => data.reports_by_time.map (fun s => s.Time)))
        = some (some ["+|||", "+||||", "+|||||", "+||||||", "+|||||||", "+||||||||",
            "+|||||||||"]) := by
  obtain ⟨frames, resp, _, hresp, hdata, hall⟩ :=
    reports_by_time_ascending sampleOrders () (mkContext "s" true [] [("timeline", "w")])
      tallyLayout (fun m => m.rotate 3) 12 864000000000005 (Or.inl rfl)
      (fun m => List.rotate_perm m 3) (by decide)
  obtain ⟨_, data, hd⟩ := hdata ⟨_, rfl⟩
    (fun _ _ => ⟨⟨_, rfl⟩, ⟨_, rfl⟩, ⟨_, rfl⟩⟩)
  exact ⟨resp, data, hresp, hd, (hall data hd).2.2.2 tallyLayout_resolves_days,
    by decide, by decide⟩

end StatsTheorems

section QualityTheorems

/-- An error of `ParseInt` comes with the value 0 or with one of the bounds of
`int64`. -/
theorem ParseInt_error_value (s : String) (h : (ParseInt s).2 ≠ none) :
    (ParseInt s).1 = 0 ∨ (ParseInt s).1 = 2 ^ 63 - 1 ∨ (ParseInt s).1 = -(2 ^ 63) := by
  cases hs : s.data with
  | nil => simp [ParseInt, hs]
  | cons c rest =>
    simp only [ParseInt, hs] at h ⊢
    generalize ParseUint (if c = '+' ∨ c = '-' then rest else c :: rest) = r at h ⊢
    by_cases h1 : r.2 = some NumError.ErrSyntax
    · simp [h1]
    · simp only [h1, if_false] at h ⊢
      split_ifs at h ⊢
      all_goals
        first
        | exact Or.inr (Or.inl rfl)
        | exact Or.inr (Or.inr rfl)
        | exact absurd rfl h

/-- C11.  Whenever `ServeStreamFromMinio` encodes an image, the quality `q` it passes
to the JPEG encoder lies in 1..100: it is the value of the `quality` parameter when
`ParseInt` accepts it with a value in 1..100, and the default 100 when the parameter is
absent, is not a decimal numeral, is rejected by `ParseInt`, or has a value outside
1..100. -/
theorem jpeg_quality_bound {ι : Type} (Decode : List UInt8 → Option ι) (ctx : Context)
    (object : List UInt8) (img : ι) (w h q : Int)
    (henc : ServeStreamFromMinio Decode ctx object = Served.encoded img w h q) :
    (1 ≤ q ∧ q ≤ 100) ∧
    (∀ v, ParseInt (ctx.QueryParam "quality") = (v, none) → 1 ≤ v → v ≤ 100 → q = v) ∧
    ((ParseInt (ctx.QueryParam "quality")).1 < 1 ∨ 100 < (ParseInt (ctx.QueryParam "quality")).1 →
      q = 100) ∧
    ((ParseInt (ctx.QueryParam "quality")).2 ≠ none → q = 100) ∧
    (signedDecimal (ctx.QueryParam "quality").data = none → q = 100) ∧
    (ctx.QueryParam "quality" = "" → q = 100) := by
  have hq : q = if (ParseInt (ctx.QueryParam "quality")).1 ≤ 0
        ∨ (ParseInt (ctx.QueryParam "quality")).1 > 100 then 100
      else (ParseInt (ctx.QueryParam "quality")).1 := by
    rw [ServeStreamFromMinio_eq] at henc
    split at henc
    · exact absurd henc (by simp)
    · split at henc
      · exact absurd henc (by simp)
      · simp only [Served.encoded.injEq] at henc
        exact henc.2.2.2.symm
  have herr : (ParseInt (ctx.QueryParam "quality")).2 ≠ none → q = 100 := by
    intro he
    rcases ParseInt_error_value _ he with h0 | h0 | h0 <;> rw [hq, h0] <;> simp
  refine ⟨?_, ?_, ?_, herr, ?_, ?_⟩
  · rw [hq]; split_ifs <;> omega
  · intro v hv h1 h2
    rw [hq, hv]
    have : ¬ (v ≤ 0 ∨ v > 100) := by omega
    simp [this]
  · intro hout
    rw [hq]
    have : (ParseInt (ctx.QueryParam "quality")).1 ≤ 0
        ∨ (ParseInt (ctx.QueryParam "quality")).1 > 100 := by omega
    simp [this]
  · intro hs
    exact herr ((ParseInt_spec _).2.2.2 hs)
  · intro hs
    exact herr (by rw [hs]; decide)

/-- Witness for C11: `width=100&quality=80` encodes with quality 80, and
`width=100&quality=500` with quality 100. -/
theorem jpeg_quality_bound_witness :
    ServeStreamFromMinio decodeAny
        (mkContext "" false [] [("width", "100"), ("quality", "80")]) [1, 2, 3]
      = Served.encoded [1, 2, 3] 100 0 80 ∧
    ServeStreamFromMinio decodeAny
        (mkContext "" false [] [("width", "100"), ("quality", "500")]) [1, 2, 3]
      = Served.encoded [1, 2, 3] 100 0 100 ∧
    ((1 : Int) ≤ 80 ∧ (80 : Int) ≤ 100) :=
  ⟨by decide, by decide,
   (jpeg_quality_bound decodeAny (mkContext "" false [] [("width", "100"), ("quality", "80")])
      [1, 2, 3] [1, 2, 3] 100 0 80 (by decide)).1⟩

end QualityTheorems

section FrameTheorems

theorem mem_expectedFrames (step : Int) (clock : Time) (n : Nat) (e : Time × Time) :
    e ∈ expectedFrames step clock n ↔
      ∃ i : Nat, i < n ∧ e = (clock + ((i : Int) + 1) * step, clock + (i : Int) * step) := by
  simp only [expectedFrames, List.mem_map, List.mem_range]
  constructor
  · rintro ⟨i, hi, rfl⟩; exact ⟨i, hi, rfl⟩
  · rintro ⟨i, hi, rfl⟩; exact ⟨i, hi, rfl⟩

theorem getElem?_expectedFrames (step : Int) (clock : Time) (n i : Nat) :
    (expectedFrames step clock n)[i]?
      = if i < n then some (clock + ((i : Int) + 1) * step, clock + (i : Int) * step)
        else none := by
  simp only [expectedFrames, List.getElem?_map, List.getElem?_range]
  by_cases h : i < n
  · simp [h, List.getElem?_range h]
  · simp [h]
    omega

/-- With a negative step each frame starts strictly before the frames built before
it, and before the clock reading. -/
theorem expectedFrames_starts_descending (step : Int) (clock : Time) (n : Nat)
    (hstep : step < 0) :
    ((expectedFrames step clock n).map Prod.fst).Pairwise (fun a b => b < a) ∧
    ∀ e ∈ expectedFrames step clock n, e.1 < clock := by
  constructor
  · have h : (expectedFrames step clock n).map Prod.fst
        = (List.range n).map (fun i : Nat => clock + ((i : Int) + 1) * step) := by
      simp [expectedFrames, Function.comp_def]
    rw [h, List.pairwise_map]
    refine (List.pairwise_lt_range n).imp ?_
    intro i j hij
    have h1 : (i : Int) + 1 ≤ j := by exact_mod_cast hij
    nlinarith
  · intro e he
    obtain ⟨i, _, rfl⟩ := (mem_expectedFrames step clock n e).1 he
    have : (0 : Int) ≤ i := Int.ofNat_nonneg i
    simp only
    nlinarith

/-- C14.  For each timeline the loop `for len(timeFrames) < N` of `orderStats` ends,
for every clock reading, exactly when it is given N iterations (7 for `w`, 5 for `m`,
12 for `y`): with N or more it returns, with fewer it is still running.  What it returns
are N frames, the `i`-th inserted being `(clock - (i+1)*u, clock - i*u)`: the clock is
read once, and every iteration inserts one key, new and strictly earlier than the keys
inserted before it.  One iteration of the loop, from any state whose keys are all later
than `prev`, adds the entry `(prev, now)` and goes on from `prev` and `prev + step`; the
loop returns the map as soon as it has `n` entries. -/
theorem bucket_loop_terminates (clock : Time) (fuel : Nat) :
    (timeFramesFor fuel "w" clock ≠ none ↔ 7 ≤ fuel) ∧
    (timeFramesFor fuel "m" clock ≠ none ↔ 5 ≤ fuel) ∧
    (timeFramesFor fuel "y" clock ≠ none ↔ 12 ≤ fuel) ∧
    (∀ (timeline : String) (u : Int) (N : Nat),
      (timeline = "w" ∧ u = Hour * 24 ∧ N = 7) ∨
        (timeline = "m" ∧ u = Hour * 7 * 24 ∧ N = 5) ∨
        (timeline = "y" ∧ u = Hour * 30 * 24 ∧ N = 12) →
      (fuel < N → timeFramesFor fuel timeline clock = none) ∧
      (N ≤ fuel →
        ∃ fr, timeFramesFor fuel timeline clock = some fr ∧ fr.length = N ∧
          (∀ i : Nat, i < N →
            fr[i]? = some (clock - ((i : Int) + 1) * u, clock - (i : Int) * u)) ∧
          (fr.map Prod.fst).Pairwise (fun a b => b < a) ∧ (fr.map Prod.fst).Nodup ∧
          ∀ e ∈ fr, e.1 < clock)) ∧
    (∀ (n : Nat) (step : Int) (k : Nat) (timeFrames : List (Time × Time)) (now prev : Time),
      timeFrames.length < n → (∀ e ∈ timeFrames, prev < e.1) →
      buildTimeFrames n step (k + 1) timeFrames now prev
        = buildTimeFrames n step k (timeFrames ++ [(prev, now)]) prev (prev + step)) ∧
    (∀ (n : Nat) (step : Int) (k : Nat) (timeFrames : List (Time × Time)) (now prev : Time),
      n ≤ timeFrames.length →
      buildTimeFrames n step k timeFrames now prev = some timeFrames) := by
  have h := timeFramesFor_eq fuel clock
  refine ⟨?_, ?_, ?_, ?_, ?_, ?_⟩
  · rw [h.1]; split_ifs with hf <;> simp [hf]
  · rw [h.2.1]; split_ifs with hf <;> simp [hf]
  · rw [h.2.2]; split_ifs with hf <;> simp [hf]
  · intro timeline u N htl
    have key : 0 < u ∧
        timeFramesFor fuel timeline clock
          = if N ≤ fuel then some (expectedFrames (-u) clock N) else none := by
      rcases htl with ⟨rfl, rfl, rfl⟩ | ⟨rfl, rfl, rfl⟩ | ⟨rfl, rfl, rfl⟩
      · refine ⟨by decide, ?_⟩
        rw [h.1]
        have : Hour * -24 = -(Hour * 24) := by decide
        rw [this]
      · refine ⟨by decide, ?_⟩
        rw [h.2.1]
        have : Hour * 7 * -24 = -(Hour * 7 * 24) := by decide
        rw [this]
      · refine ⟨by decide, ?_⟩
        rw [h.2.2]
        have : Hour * 30 * -24 = -(Hour * 30 * 24) := by decide
        rw [this]
    obtain ⟨hu, hfr⟩ := key
    refine ⟨?_, ?_⟩
    · intro hlt
      rw [hfr, if_neg (by omega)]
    · intro hle
      have hd := expectedFrames_starts_descending (-u) clock N (by omega)
      refine ⟨_, by rw [hfr, if_pos hle], expectedFrames_length _ _ _, ?_, hd.1,
        expectedFrames_starts_nodup (-u) clock N (by omega), hd.2⟩
      intro i hi
      rw [getElem?_expectedFrames, if_pos hi]
      congr 2 <;> ring
  · intro n step k timeFrames now prev hlen hnew
    have hfresh : ∀ e ∈ timeFrames, e.1 ≠ prev := fun e he => ne_of_gt (hnew e he)
    rw [buildTimeFrames, if_pos hlen, mapPut_fresh _ _ _ hfresh]
  · intro n step k timeFrames now prev hlen
    cases k with
    | zero => rw [buildTimeFrames, if_neg (by omega)]
    | succ k => rw [buildTimeFrames, if_neg (by omega)]

/-- Witness for C14: from a clock reading on day 10 the loop for `w` returns with 7
iterations and not with 6; the third frame it inserts starts three days before the
reading; its first iteration, from the empty map, inserts the frame of the last day. -/
theorem bucket_loop_terminates_witness :
    timeFramesFor 7 "w" 864000000000005 ≠ none ∧
    timeFramesFor 6 "w" 864000000000005 = none ∧
    (∃ fr, timeFramesFor 7 "w" 864000000000005 = some fr ∧ fr.length = 7 ∧
      fr[2]? = some (864000000000005 - 3 * (Hour * 24), 864000000000005 - 2 * (Hour * 24))) ∧
    (timeFramesFor 7 "w" 864000000000005).map (fun fr => fr.map Prod.fst)
      = some [777600000000005, 691200000000005, 604800000000005, 518400000000005,
              432000000000005, 345600000000005, 259200000000005] ∧
    buildTimeFrames 7 (Hour * -24) 7 [] 864000000000005 777600000000005
      = buildTimeFrames 7 (Hour * -24) 6 ([] ++ [(777600000000005, 864000000000005)])
          777600000000005 (777600000000005 + Hour * -24) ∧
    buildTimeFrames 1 (Hour * -24) 3 [(777600000000005, 864000000000005)]
        777600000000005 691200000000005
      = some [(777600000000005, 864000000000005)] :=
  have h := bucket_loop_terminates 864000000000005
  ⟨(h 7).1.2 (by decide),
   ((h 6).2.2.2.1 "w" (Hour * 24) 7 (Or.inl ⟨rfl, rfl, rfl⟩)).1 (by decide),
   (((h 7).2.2.2.1 "w" (Hour * 24) 7 (Or.inl ⟨rfl, rfl, rfl⟩)).2 (by decide)).imp
     (fun _ hfr => ⟨hfr.1, hfr.2.1, hfr.2.2.1 2 (by decide)⟩),
   by decide,
   (h 7).2.2.2.2.1 7 (Hour * -24) 6 [] 864000000000005 777600000000005 (by decide)
     (fun _ he => absurd he (List.not_mem_nil _)),
   (h 7).2.2.2.2.2 1 (Hour * -24) 3 [(777600000000005, 864000000000005)]
     777600000000005 691200000000005 (by decide)⟩

/-- Frames of width `u` cover the whole stretch from `clock - n * u` to `clock`. -/
theorem expectedFrames_cover (u : Int) (clock : Time) :
    ∀ n : Nat, 1 ≤ n → ∀ t : Time, clock - (n : Int) * u ≤ t → t ≤ clock →
      ∃ i : Nat, i < n ∧ clock - ((i : Int) + 1) * u ≤ t ∧ t ≤ clock - (i : Int) * u := by
  intro n
  induction n with
  | zero => intro h; omega
  | succ m ih =>
    intro _ t h1 h2
    by_cases hm : m = 0
    · subst hm
      exact ⟨0, by omega, by simpa using h1, by simpa using h2⟩
    · by_cases ht : clock - (m : Int) * u ≤ t
      · obtain ⟨i, hi, h3, h4⟩ := ih (by omega) t ht h2
        exact ⟨i, by omega, h3, h4⟩
      · refine ⟨m, by omega, ?_, by linarith⟩
        push_cast at h1
        exact h1

/-- C16.  For each timeline, with unit `u` (24 h for `w`, 7 * 24 h for `m`, 30 * 24 h
for `y`) and count `N` (7, 5, 12), the frames built from the clock reading `clock` are
exactly the intervals `[clock - (i+1)*u, clock - i*u]` for `i = 0 .. N-1`.  Every frame
has width `u`, the newest ends at `clock`, each frame starts where the next older one
ends, and together they cover `[clock - N*u, clock]`: every time in it lies in a frame,
no frame reaches outside it, and two frames share at most an end point. -/
theorem buckets_contiguous (clock : Time) (fuel : Nat) (hfuel : 12 ≤ fuel)
    (timeline : String) (u : Int) (N : Nat)
    (htl : (timeline = "w" ∧ u = Hour * 24 ∧ N = 7) ∨
      (timeline = "m" ∧ u = Hour * 7 * 24 ∧ N = 5) ∨
      (timeline = "y" ∧ u = Hour * 30 * 24 ∧ N = 12)) :
    ∃ fr, timeFramesFor fuel timeline clock = some fr ∧
      fr = (List.range N).map
        (fun (i : Nat) => (clock - ((i : Int) + 1) * u, clock - (i : Int) * u)) ∧
      (∀ e ∈ fr, e.2 - e.1 = u) ∧
      fr.head? = some (clock - u, clock) ∧
      (∀ i, i + 1 < N → ∃ a b, fr[i]? = some a ∧ fr[i + 1]? = some b ∧ a.1 = b.2) ∧
      (∀ t : Time, clock - (N : Int) * u ≤ t → t ≤ clock → ∃ e ∈ fr, e.1 ≤ t ∧ t ≤ e.2) ∧
      (∀ e ∈ fr, clock - (N : Int) * u ≤ e.1 ∧ e.2 ≤ clock) ∧
      (∀ (i j : Nat) (a b : Time × Time), i < j → fr[i]? = some a → fr[j]? = some b →
        b.2 ≤ a.1) := by
  have h := timeFramesFor_eq fuel clock
  -- the frames are the expected ones, for the step `-u`
  have hfr : 0 < u ∧ 1 ≤ N ∧
      timeFramesFor fuel timeline clock = some (expectedFrames (-u) clock N) := by
    rcases htl with ⟨rfl, rfl, rfl⟩ | ⟨rfl, rfl, rfl⟩ | ⟨rfl, rfl, rfl⟩
    · refine ⟨by decide, by decide, ?_⟩
      rw [h.1, if_pos (by omega)]
      have : Hour * -24 = -(Hour * 24) := by decide
      rw [this]
    · refine ⟨by decide, by decide, ?_⟩
      rw [h.2.1, if_pos (by omega)]
      have : Hour * 7 * -24 = -(Hour * 7 * 24) := by decide
      rw [this]
    · refine ⟨by decide, by decide, ?_⟩
      rw [h.2.2, if_pos (by omega)]
      have : Hour * 30 * -24 = -(Hour * 30 * 24) := by decide
      rw [this]
  obtain ⟨hu, hN, hfr⟩ := hfr
  have hget : ∀ i, (expectedFrames (-u) clock N)[i]?
      = if i < N then some (clock - ((i : Int) + 1) * u, clock - (i : Int) * u) else none := by
    intro i
    rw [getElem?_expectedFrames]
    split_ifs
    · congr 2 <;> ring
    · rfl
  have hmem : ∀ e, e ∈ expectedFrames (-u) clock N ↔
      ∃ i : Nat, i < N ∧ e = (clock - ((i : Int) + 1) * u, clock - (i : Int) * u) := by
    intro e
    rw [mem_expectedFrames]
    constructor
    · rintro ⟨i, hi, rfl⟩
      exact ⟨i, hi, by congr 1 <;> ring⟩
    · rintro ⟨i, hi, rfl⟩
      exact ⟨i, hi, by congr 1 <;> ring⟩
  refine ⟨_, hfr, ?_, ?_, ?_, ?_, ?_, ?_, ?_⟩
  · simp only [expectedFrames]
    apply List.map_congr_left
    intro i _
    congr 1 <;> ring
  · intro e he
    obtain ⟨i, _, rfl⟩ := (hmem e).1 he
    simp only
    ring
  · have h0 := hget 0
    rw [if_pos (by omega)] at h0
    rw [List.head?_eq_getElem?, h0]
    congr 2 <;> simp
  · intro i hi
    refine ⟨(clock - ((i : Int) + 1) * u, clock - (i : Int) * u),
      (clock - (((i + 1 : Nat) : Int) + 1) * u, clock - ((i + 1 : Nat) : Int) * u), ?_, ?_, ?_⟩
    · rw [hget i, if_pos (by omega)]
    · rw [hget (i + 1), if_pos hi]
    · simp only; push_cast; ring
  · intro t h1 h2
    obtain ⟨i, hi, h3, h4⟩ := expectedFrames_cover u clock N hN t h1 h2
    exact ⟨_, (hmem _).2 ⟨i, hi, rfl⟩, h3, h4⟩
  · intro e he
    obtain ⟨i, hi, rfl⟩ := (hmem e).1 he
    have h1 : (i : Int) + 1 ≤ N := by exact_mod_cast hi
    have h2 : (0 : Int) ≤ i := Int.ofNat_nonneg i
    simp only
    constructor <;> nlinarith
  · intro i j a b hij ha hb
    rw [hget i] at ha
    rw [hget j] at hb
    split_ifs at ha hb
    cases ha
    cases hb
    have h1 : (i : Int) + 1 ≤ j := by exact_mod_cast hij
    simp only
    nlinarith

/-- Witness for C16: the week before a clock reading on day 10. -/
theorem buckets_contiguous_witness :
    ∃ fr, timeFramesFor 12 "w" 864000000000005 = some fr ∧
      fr = (List.range 7).map
        (fun (i : Nat) => ((864000000000005 : Int) - ((i : Int) + 1) * (Hour * 24),
          (864000000000005 : Int) - (i : Int) * (Hour * 24))) ∧
      fr.head? = some (864000000000005 - Hour * 24, 864000000000005) :=
  (buckets_contiguous 864000000000005 12 (by decide) "w" (Hour * 24) 7
    (Or.inl ⟨rfl, rfl, rfl⟩)).imp (fun _ h => ⟨h.1, h.2.1, h.2.2.2.1⟩)

end FrameTheorems

section StatusMapTheorems

/-- The variable a loop over the rows keeps for the status `key`, started at `d`: the
value of the last row with that key, `d` when there is none. -/
theorem foldl_status_value (key : String) (rows : List StatusCount) :
    ∀ d : Int, rows.foldl (fun d x => if x.Key = key then x.Value else d) d
      = match (rows.filter (fun x => x.Key = key)).getLast? with
        | some x => x.Value
        | none => d := by
  induction rows with
  | nil => intro d; rfl
  | cons r rest ih =>
    intro d
    rw [List.foldl_cons, ih]
    by_cases hr : r.Key = key
    · simp only [hr, if_true, List.filter_cons, decide_True]
      cases hl : (rest.filter (fun x => x.Key = key)).getLast? with
      | none =>
        have : rest.filter (fun x => x.Key = key) = [] := List.getLast?_eq_none_iff.1 hl
        simp [this]
      | some x =>
        rw [List.getLast?_cons, hl]
        simp
    · simp [hr, List.filter_cons]

/-- The order counts of a bucket: exactly the five keys, each with the value of the
last row of that status and 0 when there is none. -/
theorem orderCounts_eq (cStat : List StatusCount) :
    orderCounts cStat
      = [("pending", statusValue OrderPending cStat),
         ("confirmed", statusValue OrderConfirmed cStat),
         ("shipping", statusValue OrderShipping cStat),
         ("delivered", statusValue OrderDelivered cStat),
         ("cancelled", statusValue OrderCancelled cStat)] := by
  have key : ∀ (rows : List StatusCount) (c : Int × Int × Int × Int × Int),
      rows.foldl
        (fun (c : Int × Int × Int × Int × Int) x =>
          if x.Key = OrderPending then (x.Value, c.2.1, c.2.2.1, c.2.2.2.1, c.2.2.2.2)
          else if x.Key = OrderConfirmed then (c.1, x.Value, c.2.2.1, c.2.2.2.1, c.2.2.2.2)
          else if x.Key = OrderShipping then (c.1, c.2.1, x.Value, c.2.2.2.1, c.2.2.2.2)
          else if x.Key = OrderDelivered then (c.1, c.2.1, c.2.2.1, x.Value, c.2.2.2.2)
          else if x.Key = OrderCancelled then (c.1, c.2.1, c.2.2.1, c.2.2.2.1, x.Value)
          else c) c
      = (rows.foldl (fun d x => if x.Key = OrderPending then x.Value else d) c.1,
         rows.foldl (fun d x => if x.Key = OrderConfirmed then x.Value else d) c.2.1,
         rows.foldl (fun d x => if x.Key = OrderShipping then x.Value else d) c.2.2.1,
         rows.foldl (fun d x => if x.Key = OrderDelivered then x.Value else d) c.2.2.2.1,
         rows.foldl (fun d x => if x.Key = OrderCancelled then x.Value else d) c.2.2.2.2) := by
    intro rows
    induction rows with
    | nil => intro c; rfl
    | cons r rest ih =>
      intro c
      simp only [List.foldl_cons]
      rw [ih]
      by_cases h1 : r.Key = OrderPending
      · simp [h1, OrderPending, OrderConfirmed, OrderShipping, OrderDelivered, OrderCancelled]
      · by_cases h2 : r.Key = OrderConfirmed
        · simp [h2, OrderPending, OrderConfirmed, OrderShipping, OrderDelivered, OrderCancelled]
        · by_cases h3 : r.Key = OrderShipping
          · simp [h3, OrderPending, OrderConfirmed, OrderShipping, OrderDelivered,
              OrderCancelled]
          · by_cases h4 : r.Key = OrderDelivered
            · simp [h4, OrderPending, OrderConfirmed, OrderShipping, OrderDelivered,
                OrderCancelled]
            · by_cases h5 : r.Key = OrderCancelled
              · simp [h5, OrderPending, OrderConfirmed, OrderShipping, OrderDelivered,
                  OrderCancelled]
              · simp [h1, h2, h3, h4, h5]
  simp only [orderCounts, key, foldl_status_value, statusValue]

/-- The earnings of a bucket: exactly the four keys, each with the value of the last
row of that payment state and 0 when there is none. -/
theorem earningCounts_eq (eStat : List StatusCount) :
    earningCounts eStat
      = [("pending", statusValue PaymentPending eStat),
         ("completed", statusValue PaymentCompleted eStat),
         ("failed", statusValue PaymentFailed eStat),
         ("reverted", statusValue PaymentReverted eStat)] := by
  have key : ∀ (rows : List StatusCount) (c : Int × Int × Int × Int),
      rows.foldl
        (fun (c : Int × Int × Int × Int) x =>
          if x.Key = PaymentPending then (x.Value, c.2.1, c.2.2.1, c.2.2.2)
          else if x.Key = PaymentCompleted then (c.1, x.Value, c.2.2.1, c.2.2.2)
          else if x.Key = PaymentFailed then (c.1, c.2.1, x.Value, c.2.2.2)
          else if x.Key = PaymentReverted then (c.1, c.2.1, c.2.2.1, x.Value)
          else c) c
      = (rows.foldl (fun d x => if x.Key = PaymentPending then x.Value else d) c.1,
         rows.foldl (fun d x => if x.Key = PaymentCompleted then x.Value else d) c.2.1,
         rows.foldl (fun d x => if x.Key = PaymentFailed then x.Value else d) c.2.2.1,
         rows.foldl (fun d x => if x.Key = PaymentReverted then x.Value else d) c.2.2.2) := by
    intro rows
    induction rows with
    | nil => intro c; rfl
    | cons r rest ih =>
      intro c
      simp only [List.foldl_cons]
      rw [ih]
      by_cases h1 : r.Key = PaymentPending
      · simp [h1, PaymentPending, PaymentCompleted, PaymentFailed, PaymentReverted]
      · by_cases h2 : r.Key = PaymentCompleted
        · simp [h2, PaymentPending, PaymentCompleted, PaymentFailed, PaymentReverted]
        · by_cases h3 : r.Key = PaymentFailed
          · simp [h3, PaymentPending, PaymentCompleted, PaymentFailed, PaymentReverted]
          · by_cases h4 : r.Key = PaymentReverted
            · simp [h4, PaymentPending, PaymentCompleted, PaymentFailed, PaymentReverted]
            · simp [h1, h2, h3, h4]
  simp only [earningCounts, key, foldl_status_value, statusValue]

theorem treemapPut_perm {ν : Type} (cmp : String → String → Int)
    (hcmp : ∀ a b, cmp a b ≠ 0) (k : String) (v : ν) :
    ∀ m : List (String × ν), (treemapPut cmp m k v).Perm ((k, v) :: m) := by
  intro m
  induction m with
  | nil => exact List.Perm.refl _
  | cons e rest ih =>
    obtain ⟨k1, v1⟩ := e
    simp only [treemapPut, hcmp k k1, if_false]
    by_cases h : cmp k k1 < 0
    · rw [if_pos h]
    · rw [if_neg h]
      exact (List.Perm.cons _ ih).trans (List.Perm.swap _ _ _)

theorem compareByStart_ne_zero (layout : DateLayout) (a b : String) :
    compareByStart layout a b ≠ 0 := by
  unfold compareByStart
  split_ifs <;> decide

theorem mem_mapPut {κ ν : Type} [DecidableEq κ] (k : κ) (v : ν) (x : κ × ν) :
    ∀ m : List (κ × ν), x ∈ mapPut m k v → x = (k, v) ∨ x ∈ m := by
  intro m
  induction m with
  | nil => intro h; simpa [mapPut] using h
  | cons e rest ih =>
    obtain ⟨k1, v1⟩ := e
    intro h
    simp only [mapPut] at h
    by_cases hk : k1 = k
    · rw [if_pos hk] at h
      rcases List.mem_cons.1 h with h | h
      · exact Or.inl h
      · exact Or.inr (List.mem_cons_of_mem _ h)
    · rw [if_neg hk] at h
      rcases List.mem_cons.1 h with h | h
      · exact Or.inr (h ▸ List.mem_cons_self _ _)
      · rcases ih h with h | h
        · exact Or.inl h
        · exact Or.inr (List.mem_cons_of_mem _ h)

theorem mapPut_keys {κ ν : Type} [DecidableEq κ] (k : κ) (v : ν) :
    ∀ m : List (κ × ν), (mapPut m k v).map Prod.fst
      = if k ∈ m.map Prod.fst then m.map Prod.fst else m.map Prod.fst ++ [k] := by
  intro m
  induction m with
  | nil => simp [mapPut]
  | cons e rest ih =>
    obtain ⟨k1, v1⟩ := e
    simp only [mapPut]
    by_cases hk : k1 = k
    · subst hk; simp
    · have hk2 : ¬ k = k1 := fun h => hk h.symm
      rw [if_neg hk]
      simp only [List.map_cons, ih, List.mem_cons, hk2, false_or]
      split_ifs <;> simp

/-- A Go map filled by assignments holds one entry for each key, and only entries that
were assigned. -/
theorem foldl_mapPut_spec {κ ν : Type} [DecidableEq κ] (l : List (κ × ν)) :
    ∀ acc : List (κ × ν), (acc.map Prod.fst).Nodup →
      ((l.foldl (fun m kv => mapPut m kv.1 kv.2) acc).map Prod.fst).Nodup ∧
      (∀ x ∈ l.foldl (fun m kv => mapPut m kv.1 kv.2) acc, x ∈ acc ∨ x ∈ l) ∧
      ((l.map Prod.fst).Nodup → (∀ x ∈ l, ∀ y ∈ acc, x.1 ≠ y.1) →
        l.foldl (fun m kv => mapPut m kv.1 kv.2) acc = acc ++ l) := by
  induction l with
  | nil => intro acc h; simp [h]
  | cons e rest ih =>
    intro acc hacc
    have hnd : ((mapPut acc e.1 e.2).map Prod.fst).Nodup := by
      rw [mapPut_keys]
      split_ifs with hk
      · exact hacc
      · exact List.Nodup.append hacc (List.nodup_singleton _) (by simpa using hk)
    obtain ⟨h1, h2, h3⟩ := ih (mapPut acc e.1 e.2) hnd
    simp only [List.foldl_cons]
    refine ⟨h1, ?_, ?_⟩
    · intro x hx
      rcases h2 x hx with h | h
      · rcases mem_mapPut e.1 e.2 x acc h with h | h
        · exact Or.inr (h ▸ List.mem_cons_self _ _)
        · exact Or.inl h
      · exact Or.inr (List.mem_cons_of_mem _ h)
    · intro hl hdis
      rw [List.map_cons, List.nodup_cons] at hl
      have hfresh : ∀ y ∈ acc, y.1 ≠ e.1 :=
        fun y hy => (hdis e (List.mem_cons_self _ _) y hy).symm
      have hput : mapPut acc e.1 e.2 = acc ++ [e] := mapPut_fresh acc e.1 e.2 hfresh
      rw [h3 hl.2 ?_, hput, List.append_assoc, List.singleton_append]
      intro x hx y hy
      rw [hput] at hy
      rcases List.mem_append.1 hy with hy | hy
      · exact hdis x (List.mem_cons_of_mem _ hx) y hy
      · have : y = e := by simpa using hy
        subst this
        intro heq
        exact hl.1 (heq ▸ List.mem_map_of_mem Prod.fst hx)

/-- The entries the loop over the time frames puts into the two tree maps: for each
frame visited, its label with the counts of the rows the two queries returned, which
both succeeded. -/
theorem statsLoop_maps {σ : Type} (ou : OrderRepository σ) (db : σ) (ctx : Context)
    (layout : DateLayout) :
    ∀ (entries : List (Time × Time)) (acc acc1 : StatsAcc),
      statsLoop ou db ctx layout entries acc = Except.ok acc1 →
      (∀ e ∈ entries,
        ou.CountByStatus db ctx.StoreID e.1 e.2 = Except.ok (countRows ou db ctx e) ∧
        ou.EarningsByStatus db ctx.StoreID e.1 e.2 = Except.ok (earningRows ou db ctx e)) ∧
      acc1.ordersStats.Perm (acc.ordersStats ++
        entries.map (fun e => (layout.Format e.1, orderCounts (countRows ou db ctx e)))) ∧
      acc1.earningsStats.Perm (acc.earningsStats ++
        entries.map (fun e => (layout.Format e.1, earningCounts (earningRows ou db ctx e)))) := by
  intro entries
  induction entries with
  | nil =>
    intro acc acc1 h
    simp only [statsLoop, Except.ok.injEq] at h
    subst h
    simp
  | cons e rest ih =>
    intro acc acc1 h
    obtain ⟨k, v⟩ := e
    simp only [statsLoop] at h
    split at h
    · exact absurd h (by simp)
    · split at h
      · exact absurd h (by simp)
      · rename_i cStat hc
        split at h
        · exact absurd h (by simp)
        · rename_i eStat he
          have hcr : countRows ou db ctx (k, v) = cStat := by simp [countRows, hc]
          have her : earningRows ou db ctx (k, v) = eStat := by simp [earningRows, he]
          obtain ⟨h1, h2, h3⟩ := ih _ _ h
          refine ⟨?_, ?_, ?_⟩
          · intro e' he'
            rcases List.mem_cons.1 he' with rfl | he'
            · exact ⟨by rw [hcr]; exact hc, by rw [her]; exact he⟩
            · exact h1 e' he'
          · refine h2.trans ?_
            simp only [List.map_cons, hcr]
            exact (List.Perm.append_right _
              (treemapPut_perm _ (compareByStart_ne_zero layout) _ _ _)).trans
              (by simpa using List.perm_middle.symm)
          · refine h3.trans ?_
            simp only [List.map_cons, her]
            exact (List.Perm.append_right _
              (treemapPut_perm _ (compareByStart_ne_zero layout) _ _ _)).trans
              (by simpa using List.perm_middle.symm)

/-- The maps `orders_by_time` and `earnings_by_time` of a successful answer of
`orderStats`: the Go maps filled from the two tree maps of the loop. -/
theorem orderStats_maps {σ : Type} (ou : OrderRepository σ) (db : σ) (ctx : Context)
    (layout : DateLayout) (rangeOrder : List (Time × Time) → List (Time × Time))
    (fuel : Nat) (clock : Time) (fr : List (Time × Time))
    (resp : Response OrderStatsData) (data : OrderStatsData)
    (hfr : timeFramesFor fuel (ctx.QueryParam "timeline") clock = some fr)
    (hresp : orderStats ou db ctx layout rangeOrder fuel clock = some resp)
    (hdata : resp.Data = some data) :
    ∃ acc, statsLoop ou db ctx layout (rangeOrder fr)
        { timeWiseSummary := [], ordersStats := [], earningsStats := [] } = Except.ok acc ∧
      data.orders_by_time = acc.ordersStats.foldl (fun m kv => mapPut m kv.1 kv.2) [] ∧
      data.earnings_by_time = acc.earningsStats.foldl (fun m kv => mapPut m kv.1 kv.2) [] := by
  simp only [orderStats, hfr] at hresp
  split at hresp
  · simp only [Option.some.injEq] at hresp
    subst hresp
    simp at hdata
  · split at hresp
    · simp only [Option.some.injEq] at hresp
      subst hresp
      simp at hdata
    · rename_i acc hacc
      simp only [Option.some.injEq] at hresp
      subst hresp
      simp only [Option.some.injEq] at hdata
      subst hdata
      exact ⟨acc, hacc, rfl, rfl⟩

/-- A Go map filled by assignments has an entry for every key it held and for every key
assigned. -/
theorem foldl_mapPut_keys {κ ν : Type} [DecidableEq κ] (l : List (κ × ν)) :
    ∀ (acc : List (κ × ν)) (k : κ), k ∈ acc.map Prod.fst ∨ k ∈ l.map Prod.fst →
      k ∈ (l.foldl (fun m kv => mapPut m kv.1 kv.2) acc).map Prod.fst := by
  induction l with
  | nil =>
    intro acc k h
    rcases h with h | h
    · exact h
    · exact absurd h (List.not_mem_nil _)
  | cons e rest ih =>
    intro acc k h
    rw [List.foldl_cons]
    apply ih
    have hput : ∀ k1, k1 ∈ acc.map Prod.fst ∨ k1 = e.1 →
        k1 ∈ (mapPut acc e.1 e.2).map Prod.fst := by
      intro k1 hk1
      rw [mapPut_keys]
      split_ifs with hin
      · rcases hk1 with hk1 | hk1
        · exact hk1
        · rw [hk1]; exact hin
      · rcases hk1 with hk1 | hk1
        · exact List.mem_append_left _ hk1
        · rw [hk1]; exact List.mem_append_right _ (List.mem_singleton_self _)
    rcases h with h | h
    · exact Or.inl (hput k (Or.inl h))
    · rw [List.map_cons] at h
      rcases List.mem_cons.1 h with h | h
      · exact Or.inl (hput k (Or.inr h))
      · exact Or.inr h

/-- C15, as the claim states it, fails.  With a date-only layout in a zone whose clocks
are set back at 01:00 UTC of day 20, and a clock reading at 22:30 UTC of day 22, the
buckets that start at 22:30 UTC of day 19 and of day 20 get the same label.  For the
first `CountByStatus` returns 478 pending orders and for the second 502; the answer is
200, `orders_by_time` has 6 entries for the 7 buckets, the entry under the shared label
shows 502 pending orders, and no entry shows the 478 of the other bucket.  It is the
same for `earnings_by_time`. -/
theorem bucket_rows_may_be_lost :
    (timeFramesFor 12 "w" 1981800000000000).map
      (fun fr => (fr.length, decide ((1722600000000000, 1809000000000000) ∈ fr),
        decide ((1809000000000000, 1895400000000000) ∈ fr)))
      = some (7, true, true) ∧
    datedOrders.CountByStatus () "s" 1722600000000000 1809000000000000
      = Except.ok [{ Key := "pending", Value := 478 }] ∧
    datedOrders.CountByStatus () "s" 1809000000000000 1895400000000000
      = Except.ok [{ Key := "pending", Value := 502 }] ∧
    (autumnLayout 1731600000000000).Format 1722600000000000
      = (autumnLayout 1731600000000000).Format 1809000000000000 ∧
    (orderStats datedOrders () (mkContext "s" true [] [("timeline", "w")])
        (autumnLayout 1731600000000000) id 12 1981800000000000).map
      (fun resp => (resp.Status, resp.Data.map (fun data =>
        data.orders_by_time.map
          (fun x => ((autumnLayout 1731600000000000).Parse x.1 / (Hour * 24), x.2)))))
      = some (200, some
          [(16, [("pending", 382), ("confirmed", 0), ("shipping", 0), ("delivered", 0),
                 ("cancelled", 0)]),
           (17, [("pending", 406), ("confirmed", 0), ("shipping", 0), ("delivered", 0),
                 ("cancelled", 0)]),
           (18, [("pending", 430), ("confirmed", 0), ("shipping", 0), ("delivered", 0),
                 ("cancelled", 0)]),
           (19, [("pending", 454), ("confirmed", 0), ("shipping", 0), ("delivered", 0),
                 ("cancelled", 0)]),
           (20, [("pending", 502), ("confirmed", 0), ("shipping", 0), ("delivered", 0),
                 ("cancelled", 0)]),
           (21, [("pending", 526), ("confirmed", 0), ("shipping", 0), ("delivered", 0),
                 ("cancelled", 0)])]) ∧
    (orderStats datedOrders () (mkContext "s" true [] [("timeline", "w")])
        (autumnLayout 1731600000000000) id 12 1981800000000000).map
      (fun resp => resp.Data.map (fun data =>
        data.earnings_by_time.map
          (fun x => ((autumnLayout 1731600000000000).Parse x.1 / (Hour * 24),
            x.2.map Prod.snd))))
      = some (some
          [(16, [0, 382, 0, 0]), (17, [0, 406, 0, 0]), (18, [0, 430, 0, 0]),
           (19, [0, 454, 0, 0]), (20, [0, 502, 0, 0]), (21, [0, 526, 0, 0])]) := by
  refine ⟨by decide, rfl, rfl, by decide, rfl, by decide⟩

/-- C15, amended.  For every clock reading and every order in which the time frames are
visited, `orderStats` answers once the loop has had its 12 iterations, with data when the
queries succeed.  In an answer with data, every entry of `orders_by_time` is the label
of a time frame with exactly the five keys pending, confirmed, shipping, delivered,
cancelled, and every entry of `earnings_by_time` the label of a time frame with exactly
the four keys pending, completed, failed, reverted; the value of a key is the value of
the (last) row of that status that `CountByStatus`, respectively `EarningsByStatus`,
returned for that frame, 0 when it returned no such row, whatever other rows it
returned.  The earnings `pending` is read from the rows of `EarningsByStatus` alone.
Each map has one entry for a label, and an entry under the label of every frame; for a
frame whose label no other frame has, that entry holds the rows of the frame itself. -/
theorem status_maps_per_bucket {σ : Type} (ou : OrderRepository σ) (db : σ)
    (ctx : Context) (layout : DateLayout)
    (rangeOrder : List (Time × Time) → List (Time × Time)) (fuel : Nat) (clock : Time)
    (hrange : ∀ m, (rangeOrder m).Perm m)
    (hfuel : 12 ≤ fuel) :
    ∃ frames resp,
      timeFramesFor fuel (ctx.QueryParam "timeline") clock = some frames ∧
      (ctx.QueryParam "timeline" = "w" → frames.length = 7) ∧
      (ctx.QueryParam "timeline" = "m" → frames.length = 5) ∧
      (ctx.QueryParam "timeline" = "y" → frames.length = 12) ∧
      orderStats ou db ctx layout rangeOrder fuel clock = some resp ∧
      ((∃ summary, ou.StoreSummary db ctx.StoreID = Except.ok summary) →
        (∀ e ∈ frames,
          (∃ s, ou.StoreSummaryByTime db ctx.StoreID e.1 e.2 = Except.ok s) ∧
          (∃ c, ou.CountByStatus db ctx.StoreID e.1 e.2 = Except.ok c) ∧
          (∃ x, ou.EarningsByStatus db ctx.StoreID e.1 e.2 = Except.ok x)) →
        resp.Status = StatusOK ∧ ∃ data, resp.Data = some data) ∧
      ∀ data, resp.Data = some data →
        (∀ x ∈ data.orders_by_time, ∃ e ∈ frames, ∃ cStat,
          ou.CountByStatus db ctx.StoreID e.1 e.2 = Except.ok cStat ∧
          x = (layout.Format e.1,
                [("pending", statusValue OrderPending cStat),
                 ("confirmed", statusValue OrderConfirmed cStat),
                 ("shipping", statusValue OrderShipping cStat),
                 ("delivered", statusValue OrderDelivered cStat),
                 ("cancelled", statusValue OrderCancelled cStat)])) ∧
        (∀ x ∈ data.earnings_by_time, ∃ e ∈ frames, ∃ eStat,
          ou.EarningsByStatus db ctx.StoreID e.1 e.2 = Except.ok eStat ∧
          x = (layout.Format e.1,
                [("pending", statusValue PaymentPending eStat),
                 ("completed", statusValue PaymentCompleted eStat),
                 ("failed", statusValue PaymentFailed eStat),
                 ("reverted", statusValue PaymentReverted eStat)])) ∧
        (data.orders_by_time.map Prod.fst).Nodup ∧
        (data.earnings_by_time.map Prod.fst).Nodup ∧
        (∀ e ∈ frames, ∃ cStat eStat,
          ou.CountByStatus db ctx.StoreID e.1 e.2 = Except.ok cStat ∧
          ou.EarningsByStatus db ctx.StoreID e.1 e.2 = Except.ok eStat ∧
          (∃ x ∈ data.orders_by_time, x.1 = layout.Format e.1) ∧
          (∃ y ∈ data.earnings_by_time, y.1 = layout.Format e.1) ∧
          ((∀ e1 ∈ frames, layout.Format e1.1 = layout.Format e.1 → e1 = e) →
            (layout.Format e.1,
              [("pending", statusValue OrderPending cStat),
               ("confirmed", statusValue OrderConfirmed cStat),
               ("shipping", statusValue OrderShipping cStat),
               ("delivered", statusValue OrderDelivered cStat),
               ("cancelled", statusValue OrderCancelled cStat)]) ∈ data.orders_by_time ∧
            (layout.Format e.1,
              [("pending", statusValue PaymentPending eStat),
               ("completed", statusValue PaymentCompleted eStat),
               ("failed", statusValue PaymentFailed eStat),
               ("reverted", statusValue PaymentReverted eStat)])
              ∈ data.earnings_by_time)) := by
  obtain ⟨frames, hfr⟩ := timeFramesFor_some fuel hfuel (ctx.QueryParam "timeline") clock
  obtain ⟨resp, hresp⟩ := orderStats_some ou db ctx layout rangeOrder fuel clock frames hfr
  have hlen := timeFramesFor_eq fuel clock
  refine ⟨frames, resp, hfr, ?_, ?_, ?_, hresp, ?_, ?_⟩
  · intro htl
    rw [htl, hlen.1, if_pos (by omega)] at hfr
    cases hfr
    exact expectedFrames_length _ _ _
  · intro htl
    rw [htl, hlen.2.1, if_pos (by omega)] at hfr
    cases hfr
    exact expectedFrames_length _ _ _
  · intro htl
    rw [htl, hlen.2.2, if_pos hfuel] at hfr
    cases hfr
    exact expectedFrames_length _ _ _
  · intro hsum hall
    obtain ⟨resp1, data, hresp1, hstatus, hdata⟩ :=
      orderStats_data ou db ctx layout rangeOrder hrange fuel clock _ hfr hsum hall
    rw [hresp] at hresp1
    cases hresp1
    exact ⟨hstatus, data, hdata⟩
  intro data hdata
  obtain ⟨acc, hacc, horders, hearnings⟩ :=
    orderStats_maps ou db ctx layout rangeOrder fuel clock frames resp data hfr hresp hdata
  obtain ⟨hok, hpo, hpe⟩ := statsLoop_maps ou db ctx layout _ _ _ hacc
  simp only [List.nil_append] at hpo hpe
  have hso := foldl_mapPut_spec acc.ordersStats [] List.nodup_nil
  have hse := foldl_mapPut_spec acc.earningsStats [] List.nodup_nil
  have hko := foldl_mapPut_keys acc.ordersStats []
  have hke := foldl_mapPut_keys acc.earningsStats []
  rw [← horders] at hso hko
  rw [← hearnings] at hse hke
  -- every entry of the two maps comes from a frame visited
  have hfrom_o : ∀ x ∈ data.orders_by_time, ∃ e ∈ rangeOrder frames,
      x = (layout.Format e.1, orderCounts (countRows ou db ctx e)) := by
    intro x hx
    rcases hso.2.1 x hx with h | h
    · exact absurd h (List.not_mem_nil _)
    · obtain ⟨e, he, rfl⟩ := List.mem_map.1 (hpo.mem_iff.1 h)
      exact ⟨e, he, rfl⟩
  have hfrom_e : ∀ x ∈ data.earnings_by_time, ∃ e ∈ rangeOrder frames,
      x = (layout.Format e.1, earningCounts (earningRows ou db ctx e)) := by
    intro x hx
    rcases hse.2.1 x hx with h | h
    · exact absurd h (List.not_mem_nil _)
    · obtain ⟨e, he, rfl⟩ := List.mem_map.1 (hpe.mem_iff.1 h)
      exact ⟨e, he, rfl⟩
  refine ⟨?_, ?_, hso.1, hse.1, ?_⟩
  · intro x hx
    obtain ⟨e, he, rfl⟩ := hfrom_o x hx
    exact ⟨e, (hrange frames).mem_iff.1 he, _, (hok e he).1, by rw [orderCounts_eq]⟩
  · intro x hx
    obtain ⟨e, he, rfl⟩ := hfrom_e x hx
    exact ⟨e, (hrange frames).mem_iff.1 he, _, (hok e he).2, by rw [earningCounts_eq]⟩
  · intro e he
    have he' : e ∈ rangeOrder frames := (hrange frames).mem_iff.2 he
    -- the label of the frame is a key of both maps
    have hxo : ∃ x ∈ data.orders_by_time, x.1 = layout.Format e.1 := by
      have hin : layout.Format e.1 ∈ acc.ordersStats.map Prod.fst :=
        List.mem_map.2 ⟨_, hpo.mem_iff.2 (List.mem_map.2 ⟨e, he', rfl⟩), rfl⟩
      obtain ⟨x, hx, hx1⟩ := List.mem_map.1 (hko _ (Or.inr hin))
      exact ⟨x, hx, hx1⟩
    have hxe : ∃ y ∈ data.earnings_by_time, y.1 = layout.Format e.1 := by
      have hin : layout.Format e.1 ∈ acc.earningsStats.map Prod.fst :=
        List.mem_map.2 ⟨_, hpe.mem_iff.2 (List.mem_map.2 ⟨e, he', rfl⟩), rfl⟩
      obtain ⟨y, hy, hy1⟩ := List.mem_map.1 (hke _ (Or.inr hin))
      exact ⟨y, hy, hy1⟩
    refine ⟨_, _, (hok e he').1, (hok e he').2, hxo, hxe, ?_⟩
    intro huniq
    obtain ⟨x, hx, hx1⟩ := hxo
    obtain ⟨y, hy, hy1⟩ := hxe
    obtain ⟨e1, he1, rfl⟩ := hfrom_o x hx
    obtain ⟨e2, he2, rfl⟩ := hfrom_e y hy
    have h1 : e1 = e := huniq e1 ((hrange frames).mem_iff.1 he1) hx1
    have h2 : e2 = e := huniq e2 ((hrange frames).mem_iff.1 he2) hy1
    subst h1
    subst h2
    rw [← orderCounts_eq, ← earningCounts_eq]
    exact ⟨hx, hy⟩

/-- Witness for C15: a week of statistics in which every bucket has one pending order
and one completed payment, with the time frames visited in a rotated order; each of the
7 buckets has its entry, the bucket of the last day, whose label no other bucket has,
has its own, and the earnings of a bucket show 0 as pending. -/
theorem status_maps_per_bucket_witness :
    ∃ resp data,
      orderStats sampleOrders () (mkContext "s" true [] [("timeline", "w")])
        tallyLayout (fun m => m.rotate 3) 12 864000000000005 = some resp ∧
      resp.Status = 200 ∧
      resp.Data = some data ∧
      (∀ x ∈ data.orders_by_time,
        x.2 = [("pending", 1), ("confirmed", 0), ("shipping", 0), ("delivered", 0),
               ("cancelled", 0)]) ∧
      (∀ x ∈ data.earnings_by_time,
        x.2 = [("pending", 0), ("completed", 100), ("failed", 0), ("reverted", 0)]) ∧
      ("+|||||||||", [("pending", 1), ("confirmed", 0), ("shipping", 0), ("delivered", 0),
                      ("cancelled", 0)]) ∈ data.orders_by_time ∧
      ("+|||||||||", [("pending", 0), ("completed", 100), ("failed", 0), ("reverted", 0)])
        ∈ data.earnings_by_time ∧
      (orderStats sampleOrders () (mkContext "s" true [] [("timeline", "w")])
          tallyLayout (fun m => m.rotate 3) 12 864000000000005).map
        (fun resp => resp.Data.map (fun data => data.orders_by_time.map Prod.fst))
        = some (some ["+|||", "+||||", "+|||||", "+||||||", "+|||||||", "+||||||||",
            "+|||||||||"]) := by
  obtain ⟨frames, resp, hfr, _, _, _, hresp, hdata, hall⟩ :=
    status_maps_per_bucket sampleOrders () (mkContext "s" true [] [("timeline", "w")])
      tallyLayout (fun m => m.rotate 3) 12 864000000000005
      (fun m => List.rotate_perm m 3) (by decide)
  obtain ⟨hstatus, data, hd⟩ := hdata ⟨_, rfl⟩
    (fun _ _ => ⟨⟨_, rfl⟩, ⟨_, rfl⟩, ⟨_, rfl⟩⟩)
  have hframes : frames = expectedFrames (Hour * -24) 864000000000005 7 := by
    have h7 : timeFramesFor 12 "w" 864000000000005
        = some (expectedFrames (Hour * -24) 864000000000005 7) := by decide
    have hq : (mkContext "s" true [] [("timeline", "w")]).QueryParam "timeline" = "w" := rfl
    rw [hq, h7] at hfr
    exact (Option.some.inj hfr).symm
  subst hframes
  obtain ⟨cStat, eStat, hc, he, _, _, hown⟩ :=
    (hall data hd).2.2.2.2 (777600000000005, 864000000000005) (by decide)
  simp only [sampleOrders, Except.ok.injEq] at hc he
  subst hc
  subst he
  have hmine := hown (by decide)
  refine ⟨resp, data, hresp, hstatus, hd, ?_, ?_, ?_, ?_, by decide⟩
  · intro x hx
    obtain ⟨e, _, cStat, hc, rfl⟩ := (hall data hd).1 x hx
    simp only [sampleOrders, Except.ok.injEq] at hc
    subst hc
    dsimp only
    decide
  · intro x hx
    obtain ⟨e, _, eStat, hc, rfl⟩ := (hall data hd).2.1 x hx
    simp only [sampleOrders, Except.ok.injEq] at hc
    subst hc
    dsimp only
    decide
  · exact hmine.1
  · exact hmine.2

end StatusMapTheorems

section ImageListTheorems

theorem string_ne_empty_iff (s : String) : s ≠ "" ↔ s.data ≠ [] := by
  constructor
  · intro h hd
    exact h (String.ext hd)
  · intro h hs
    exact h (by rw [hs])

theorem append_ne_empty (a b : String) (ha : a ≠ "") : a ++ b ≠ "" := by
  rw [string_ne_empty_iff] at ha ⊢
  simp [String.data_append, ha]

theorem keptImages_cons (i : String) (rest : List String) :
    keptImages (i :: rest)
      = if TrimSpace i = "" then keptImages rest else TrimSpace i :: keptImages rest := by
  simp only [keptImages, List.map_cons, List.filter_cons]
  by_cases h : TrimSpace i = "" <;> simp [h]

/-- The loop over `additional_images`, once `images` is not empty: every further
non-blank entry is appended after a comma. -/
theorem foldl_images_nonempty (xs : List String) :
    ∀ acc : String, acc ≠ "" →
      xs.foldl
        (fun images i =>
          if TrimSpace i = "" then images
          else (if images ≠ "" then images ++ "," else images) ++ TrimSpace i) acc
      = String.intercalate.go acc "," (keptImages xs) := by
  induction xs with
  | nil => intro acc _; rfl
  | cons i rest ih =>
    intro acc hacc
    rw [List.foldl_cons, keptImages_cons]
    by_cases h : TrimSpace i = ""
    · rw [if_pos h, if_pos h]
      exact ih acc hacc
    · rw [if_neg h, if_neg h, if_pos hacc]
      rw [ih _ (append_ne_empty _ _ (append_ne_empty _ _ hacc))]
      rfl

/-- The string `joinImages` builds: the trimmed non-blank entries, in their order,
joined by single commas. -/
theorem joinImages_eq (xs : List String) :
    joinImages xs = String.intercalate "," (keptImages xs) := by
  unfold joinImages
  induction xs with
  | nil => rfl
  | cons i rest ih =>
    rw [List.foldl_cons, keptImages_cons]
    by_cases h : TrimSpace i = ""
    · rw [if_pos h, if_pos h]
      exact ih
    · rw [if_neg h, if_neg h]
      have he : ¬ (("" : String) ≠ "") := fun h => h rfl
      rw [if_neg he]
      have hcat : ("" : String) ++ TrimSpace i = TrimSpace i := String.ext (by simp)
      rw [hcat, foldl_images_nonempty rest _ h]
      rfl

theorem intercalate_go_data (l : List String) :
    ∀ acc : String, (String.intercalate.go acc "," l).data
      = acc.data ++ l.flatMap (fun a => ',' :: a.data) := by
  induction l with
  | nil => intro acc; simp [String.intercalate.go]
  | cons a rest ih =>
    intro acc
    rw [String.intercalate.go, ih]
    simp [String.data_append, List.flatMap_cons]

theorem splitCommaChars_ne_nil (s : List Char) : splitCommaChars s ≠ [] := by
  cases s with
  | nil => simp [splitCommaChars]
  | cons c cs =>
    simp only [splitCommaChars]
    split_ifs
    · simp
    · split <;> simp

theorem splitCommaChars_append (w : List Char) (hw : ',' ∉ w) (s p : List Char)
    (ps : List (List Char)) (hs : splitCommaChars s = p :: ps) :
    splitCommaChars (w ++ s) = (w ++ p) :: ps := by
  induction w with
  | nil => simpa using hs
  | cons c cs ih =>
    have hc : c ≠ ',' := fun h => hw (h ▸ List.mem_cons_self _ _)
    have hcs : ',' ∉ cs := fun h => hw (List.mem_cons_of_mem _ h)
    have hcons : (c :: cs) ++ s = c :: (cs ++ s) := rfl
    rw [hcons, splitCommaChars, if_neg hc, ih hcs]
    rfl

theorem splitCommaChars_pieces (l : List (List Char)) (hl : ∀ a ∈ l, ',' ∉ a) :
    splitCommaChars (l.flatMap (fun a => ',' :: a)) = [] :: l := by
  induction l with
  | nil => rfl
  | cons a rest ih =>
    have h1 := ih (fun b hb => hl b (List.mem_cons_of_mem _ hb))
    have h2 := splitCommaChars_append a (hl a (List.mem_cons_self _ _)) _ _ _ h1
    have hcons : (a :: rest).flatMap (fun a => ',' :: a)
        = ',' :: (a ++ rest.flatMap (fun a => ',' :: a)) := by
      simp [List.flatMap_cons]
    rw [hcons, splitCommaChars, if_pos rfl, h2, List.append_nil]

theorem TrimSpace_subset (i : String) (c : Char) (hc : c ∈ (TrimSpace i).data) :
    c ∈ i.data := by
  simp only [TrimSpace, List.mem_reverse] at hc
  exact (List.dropWhile_sublist _).subset
    (List.mem_reverse.1 ((List.dropWhile_sublist _).subset hc))

theorem mem_keptImages (xs : List String) (t : String) :
    t ∈ keptImages xs ↔ t ≠ "" ∧ ∃ i ∈ xs, TrimSpace i = t := by
  simp only [keptImages, List.mem_filter, List.mem_map, decide_eq_true_eq]
  constructor
  · rintro ⟨⟨i, hi, rfl⟩, h⟩; exact ⟨h, i, hi, rfl⟩
  · rintro ⟨h, i, hi, rfl⟩; exact ⟨⟨i, hi, rfl⟩, h⟩

/-- The characters of the joined string for a first kept entry `t` and the further
kept entries `rest`. -/
theorem intercalate_cons_data (t : String) (rest : List String) :
    (String.intercalate "," (t :: rest)).data
      = t.data ++ (rest.map String.data).flatMap (fun a => ',' :: a) := by
  show (String.intercalate.go t "," rest).data = _
  rw [intercalate_go_data]
  congr 1
  induction rest with
  | nil => rfl
  | cons a r ih => simp [List.flatMap_cons, ih]

/-- C17, as the claim states it, fails: the single entry `,a.png` is stored as
`,a.png`, which begins with a comma; and for a single blank entry, which contains no
comma, the stored string is empty and `strings.Split` returns one empty piece for it,
not the empty list of kept entries. -/
theorem stored_images_may_begin_with_comma :
    joinImages [",a.png"] = ",a.png" ∧
    (joinImages [",a.png"]).data.head? = some ',' ∧
    joinImages ["  "] = "" ∧
    keptImages ["  "] = [] ∧
    splitComma (joinImages ["  "]) = [""] := by
  decide

/-- C17, amended.  The stored `AdditionalImages` is the trimmed entries that are not
blank after trimming, in their order, joined by single commas; it is empty exactly when
every entry is blank; when no entry contains a comma it neither begins nor ends with a
comma and, unless it is empty, splitting it on commas gives exactly those trimmed
entries.  `createProduct` and `updateProduct` store the same string. -/
theorem additional_images_joined (xs : List String) :
    joinImages xs = String.intercalate "," (keptImages xs) ∧
    (joinImages xs = "" ↔ ∀ i ∈ xs, TrimSpace i = "") ∧
    ((∀ i ∈ xs, ',' ∉ i.data) →
      (joinImages xs).data.head? ≠ some ',' ∧
      (joinImages xs).data.getLast? ≠ some ',' ∧
      (joinImages xs ≠ "" → splitComma (joinImages xs) = keptImages xs)) ∧
    (∀ (ctx : Context) (req : ReqProduct) (uuid : String) (createdAt updatedAt now : Time)
        (p : Product), req.AdditionalImages = xs →
      (newProduct ctx req uuid createdAt updatedAt).AdditionalImages = joinImages xs ∧
      (updatedProduct ctx req p now).AdditionalImages = joinImages xs) := by
  have hblank : keptImages xs = [] ↔ ∀ i ∈ xs, TrimSpace i = "" := by
    constructor
    · intro h i hi
      by_contra hne
      have : TrimSpace i ∈ keptImages xs := (mem_keptImages xs _).2 ⟨hne, i, hi, rfl⟩
      rw [h] at this
      exact absurd this (List.not_mem_nil _)
    · intro h
      apply List.eq_nil_iff_forall_not_mem.2
      intro t ht
      obtain ⟨hne, i, hi, rfl⟩ := (mem_keptImages xs t).1 ht
      exact hne (h i hi)
  refine ⟨joinImages_eq xs, ?_, ?_, ?_⟩
  · rw [joinImages_eq, ← hblank]
    cases hk : keptImages xs with
    | nil => simp [String.intercalate]
    | cons t rest =>
      have ht : t ≠ "" := ((mem_keptImages xs t).1 (hk ▸ List.mem_cons_self _ _)).1
      simp only [reduceCtorEq, iff_false]
      rw [← ne_eq, string_ne_empty_iff, intercalate_cons_data]
      simp [(string_ne_empty_iff t).1 ht]
  · intro hcomma
    have hkept : ∀ t ∈ keptImages xs, t.data ≠ [] ∧ ',' ∉ t.data := by
      intro t ht
      obtain ⟨hne, i, hi, rfl⟩ := (mem_keptImages xs t).1 ht
      exact ⟨(string_ne_empty_iff _).1 hne,
        fun hc => hcomma i hi (TrimSpace_subset i _ hc)⟩
    rw [joinImages_eq]
    cases hk : keptImages xs with
    | nil =>
      refine ⟨by simp [String.intercalate], by simp [String.intercalate], ?_⟩
      intro h; exact absurd rfl h
    | cons t rest =>
      rw [hk] at hkept
      have ht := hkept t (List.mem_cons_self _ _)
      have hrest : ∀ a ∈ rest.map String.data, a ≠ [] ∧ ',' ∉ a := by
        intro a ha
        obtain ⟨s, hs, rfl⟩ := List.mem_map.1 ha
        exact hkept s (List.mem_cons_of_mem _ hs)
      rw [intercalate_cons_data]
      refine ⟨?_, ?_, ?_⟩
      · cases htd : t.data with
        | nil => exact absurd htd ht.1
        | cons c cs =>
          have hc : c ≠ ',' := fun h => ht.2 (by rw [htd, h]; exact List.mem_cons_self _ _)
          simpa using hc
      · rcases List.eq_nil_or_concat (rest.map String.data) with hnil | ⟨l, a, hl⟩
        · rw [hnil]
          simp only [List.flatMap_nil, List.append_nil]
          intro hlast
          exact ht.2 (List.mem_of_getLast?_eq_some hlast)
        · rw [List.concat_eq_append] at hl
          rw [hl]
          have ha := hrest a (by rw [hl]; simp)
          have hsplit : t.data ++ (l ++ [a]).flatMap (fun a => ',' :: a)
              = (t.data ++ l.flatMap (fun a => ',' :: a) ++ [',']) ++ a := by
            simp [List.flatMap_append]
          rw [hsplit, List.getLast?_append_of_ne_nil _ ha.1]
          intro hlast
          exact ha.2 (List.mem_of_getLast?_eq_some hlast)
      · intro _
        have h1 := splitCommaChars_pieces (rest.map String.data) (fun a ha => (hrest a ha).2)
        have h2 := splitCommaChars_append t.data ht.2 _ _ _ h1
        rw [splitComma, intercalate_cons_data, h2, List.append_nil, List.map_cons,
          List.map_map]
        congr 1
        exact List.map_id'' (fun s => rfl) rest
  · intro ctx req uuid createdAt updatedAt now p hreq
    subst hreq
    have hnorm : (normalizeCategoryID { req with StoreID := ctx.StoreID }).AdditionalImages
        = req.AdditionalImages := by
      simp only [normalizeCategoryID]
      cases req.CategoryID with
      | none => rfl
      | some c => by_cases hc : c = "" <;> simp [hc]
    exact ⟨by simp only [newProduct, hnorm], by simp only [updatedProduct, hnorm]⟩

/-- Witness for C17 amended: three entries, one of them blank. -/
theorem additional_images_joined_witness :
    joinImages [" a.png ", "  ", "b.png"] = "a.png,b.png" ∧
    splitComma (joinImages [" a.png ", "  ", "b.png"]) = ["a.png", "b.png"] ∧
    (joinImages [" a.png ", "  ", "b.png"]).data.head? ≠ some ',' :=
  have h := additional_images_joined [" a.png ", "  ", "b.png"]
  ⟨h.1.trans (by decide),
   ((h.2.2.1 (by decide)).2.2 (by decide)).trans (by decide),
   (h.2.2.1 (by decide)).1⟩

end ImageListTheorems

section UserTheorems

open UserRepositoryImpl

theorem foldl_earlierRow_spec {α : Type} (key : α → String) (l : List α) :
    ∀ best : Option α,
      (l.foldl (earlierRow key) best = none ↔ best = none ∧ l = []) ∧
      (∀ x, l.foldl (earlierRow key) best = some x → best = some x ∨ x ∈ l) := by
  induction l with
  | nil => intro best; simp
  | cons r rest ih =>
    intro best
    rw [List.foldl_cons]
    have hstep : earlierRow key best r = some r ∨
        ∃ b, best = some b ∧ earlierRow key best r = some b := by
      cases best with
      | none => exact Or.inl rfl
      | some b =>
        by_cases hlt : key r < key b
        · left; show (if key r < key b then some r else some b) = some r; rw [if_pos hlt]
        · right
          refine ⟨b, rfl, ?_⟩
          show (if key r < key b then some r else some b) = some b
          rw [if_neg hlt]
    rcases hstep with hs | ⟨b, hb, hs⟩
    · rw [hs]
      obtain ⟨h1, h2⟩ := ih (some r)
      constructor
      · constructor
        · intro h; exact absurd (h1.1 h).1 (by simp)
        · intro h; exact absurd h.2 (by simp)
      · intro x hx
        rcases h2 x hx with h | h
        · right; simp only [Option.some.injEq] at h; subst h; exact List.mem_cons_self _ _
        · right; exact List.mem_cons_of_mem _ h
    · rw [hs]
      obtain ⟨h1, h2⟩ := ih (some b)
      constructor
      · constructor
        · intro h; exact absurd (h1.1 h).1 (by simp)
        · intro h; exact absurd h.2 (by simp)
      · intro x hx
        rcases h2 x hx with h | h
        · left; rw [hb]; exact h
        · right; exact List.mem_cons_of_mem _ h

/-- No row is returned exactly when no row satisfies the condition. -/
theorem firstRow_eq_none_iff {α : Type} (key : α → String) (rows : List α)
    (cond : α → Bool) :
    firstRow key rows cond = none ↔ ∀ r ∈ rows, cond r = false := by
  unfold firstRow
  rw [(foldl_earlierRow_spec key (rows.filter cond) none).1]
  simp [List.filter_eq_nil_iff]

/-- A row that is returned is a row of the table that satisfies the condition. -/
theorem firstRow_some {α : Type} (key : α → String) (rows : List α) (cond : α → Bool)
    (x : α) (h : firstRow key rows cond = some x) : x ∈ rows ∧ cond x = true := by
  unfold firstRow at h
  rcases (foldl_earlierRow_spec key (rows.filter cond) none).2 x h with h | h
  · exact absurd h (by simp)
  · exact List.mem_filter.1 h

/-- When one row satisfies the condition, it is the row returned. -/
theorem firstRow_of_single {α : Type} (key : α → String) (rows : List α) (cond : α → Bool)
    (x : α) (h : rows.filter cond = [x]) : firstRow key rows cond = some x := by
  unfold firstRow
  rw [h]
  rfl

/-- The two ways a call of `RefreshToken` ends: with an error and the committed
database untouched, or, when the old session is found, the id of the new session is
free and the database answers every statement, with the new session and a committed
database in which the new session is added and the old one deleted. -/
theorem RefreshToken_cases (db : Database) (faults : RefreshFaults) (token : String)
    (uuid accessToken refreshToken : String) (createdAt now : Time) :
    (∃ err,
      (RefreshToken db faults token uuid accessToken refreshToken createdAt now).result
        = Except.error err ∧
      (RefreshToken db faults token uuid accessToken refreshToken createdAt now).db = db ∧
      (faults = noFaults →
        (firstRow Session.ID db.sessions (fun r => decide (r.RefreshToken = token)) = none ∧
          err = DbError.recordNotFound) ∨
        (db.sessions.any (fun r => r.ID = uuid) = true))) ∨
    (∃ os,
      firstRow Session.ID db.sessions (fun r => decide (r.RefreshToken = token)) = some os ∧
      faults = noFaults ∧
      db.sessions.any (fun r => r.ID = uuid) = false ∧
      (RefreshToken db faults token uuid accessToken refreshToken createdAt now).result
        = Except.ok
            { ID := uuid, UserID := os.UserID, AccessToken := accessToken,
              RefreshToken := refreshToken, CreatedAt := createdAt,
              ExpireOn := (now + Hour * 48) / 1000000000 } ∧
      (RefreshToken db faults token uuid accessToken refreshToken createdAt now).db
        = { db with sessions :=
              (List.filter (fun r => !decide (r.RefreshToken = token ∧ r.ID = os.ID))
                (db.sessions ++
                  [{ ID := uuid, UserID := os.UserID, AccessToken := accessToken,
                     RefreshToken := refreshToken, CreatedAt := createdAt,
                     ExpireOn := (now + Hour * 48) / 1000000000 }])) }) := by
  obtain ⟨fl, fi, fd, fc⟩ := faults
  cases fl with
  | some e =>
    left
    exact ⟨e, by simp [RefreshToken, queryFirst], by simp [RefreshToken, queryFirst],
      by simp [noFaults]⟩
  | none =>
    cases hf : firstRow Session.ID db.sessions (fun r => decide (r.RefreshToken = token)) with
    | none =>
      left
      exact ⟨DbError.recordNotFound, by simp [RefreshToken, queryFirst, hf],
        by simp [RefreshToken, queryFirst, hf], fun _ => Or.inl ⟨rfl, rfl⟩⟩
    | some os =>
      cases fi with
      | some e =>
        left
        exact ⟨e, by simp [RefreshToken, queryFirst, hf, insertSession],
          by simp [RefreshToken, queryFirst, hf, insertSession], by simp [noFaults]⟩
      | none =>
        by_cases hany : db.sessions.any (fun r => r.ID = uuid) = true
        · left
          exact ⟨DbError.duplicateKey "sessions_pkey",
            by simp [RefreshToken, queryFirst, hf, insertSession, hany],
            by simp [RefreshToken, queryFirst, hf, insertSession, hany],
            fun _ => Or.inr hany⟩
        · cases fd with
          | some e =>
            left
            exact ⟨e,
              by simp [RefreshToken, queryFirst, hf, insertSession, hany, deleteSessions],
              by simp [RefreshToken, queryFirst, hf, insertSession, hany, deleteSessions],
              by simp [noFaults]⟩
          | none =>
            cases fc with
            | some e =>
              left
              exact ⟨e,
                by simp [RefreshToken, queryFirst, hf, insertSession, hany, deleteSessions],
                by simp [RefreshToken, queryFirst, hf, insertSession, hany, deleteSessions],
                by simp [noFaults]⟩
            | none =>
              right
              refine ⟨os, rfl, rfl, by simpa using hany, ?_, ?_⟩
              · simp [RefreshToken, queryFirst, hf, insertSession, hany, deleteSessions]
              · simp [RefreshToken, queryFirst, hf, insertSession, hany, deleteSessions]

/-- The lookup of `RefreshToken` for a token no session holds. -/
theorem refresh_lookup_not_found (db : Database) (faults : RefreshFaults) (token : String)
    (uuid accessToken refreshToken : String) (createdAt now : Time)
    (hfirst : firstRow Session.ID db.sessions (fun r => decide (r.RefreshToken = token))
      = none)
    (hl : faults.lookup = none) :
    (RefreshToken db faults token uuid accessToken refreshToken createdAt now).result
      = Except.error DbError.recordNotFound := by
  unfold RefreshToken
  simp only [queryFirst, hl, hfirst]

/-- C13.  When `RefreshToken` returns an error, at whichever statement (the lookup of the
old session, the insert of the new one, the delete of the old one, or the commit), the
committed database is what it was before the call: the same sessions, so the old session
is still there and no new one is visible.  A failure of the database at any of the four
statements makes the call return an error. -/
theorem refresh_is_atomic (db : Database) (faults : RefreshFaults) (token : String)
    (uuid accessToken refreshToken : String) (createdAt now : Time) :
    (∀ err, (RefreshToken db faults token uuid accessToken refreshToken createdAt now).result
        = Except.error err →
      (RefreshToken db faults token uuid accessToken refreshToken createdAt now).db = db ∧
      ∀ x, x ∈ (RefreshToken db faults token uuid accessToken refreshToken createdAt
          now).db.sessions ↔ x ∈ db.sessions) ∧
    (faults ≠ noFaults →
      ∃ err, (RefreshToken db faults token uuid accessToken refreshToken createdAt now).result
        = Except.error err) ∧
    ((∀ x ∈ db.sessions, x.RefreshToken ≠ token) → faults.lookup = none →
      (RefreshToken db faults token uuid accessToken refreshToken createdAt now).result
        = Except.error DbError.recordNotFound) := by
  have hcases := RefreshToken_cases db faults token uuid accessToken refreshToken createdAt now
  refine ⟨?_, ?_, ?_⟩
  · intro err h
    rcases hcases with ⟨e, _, hdb, _⟩ | ⟨os, _, _, _, hok, _⟩
    · exact ⟨hdb, by rw [hdb]; exact fun x => Iff.rfl⟩
    · rw [hok] at h
      exact absurd h (by simp)
  · intro hf
    rcases hcases with ⟨e, he, _, _⟩ | ⟨os, _, hno, _⟩
    · exact ⟨e, he⟩
    · exact absurd hno hf
  · intro hnone hl
    have hfirst : firstRow Session.ID db.sessions (fun r => decide (r.RefreshToken = token))
        = none := by
      rw [firstRow_eq_none_iff]
      intro r hr
      simpa using hnone r hr
    exact refresh_lookup_not_found db faults token uuid accessToken refreshToken createdAt
      now hfirst hl

/-- Witness for C13: the commit fails; the call returns the error, the committed
database is unchanged, and the transaction, which is never published, holds the new
session in place of the old one. -/
theorem refresh_is_atomic_witness :
    (RefreshToken sampleDatabase { noFaults with commit := some (DbError.other "commit failed") }
        "r1" "s3" "a3" "r3" 30 30).result = Except.error (DbError.other "commit failed") ∧
    (RefreshToken sampleDatabase { noFaults with commit := some (DbError.other "commit failed") }
        "r1" "s3" "a3" "r3" 30 30).db = sampleDatabase ∧
    (RefreshToken sampleDatabase { noFaults with commit := some (DbError.other "commit failed") }
        "r1" "s3" "a3" "r3" 30 30).tx.map (fun s => s.ID) = ["s2", "s3"] :=
  ⟨rfl,
   ((refresh_is_atomic sampleDatabase
      { noFaults with commit := some (DbError.other "commit failed") }
      "r1" "s3" "a3" "r3" 30 30).1 (DbError.other "commit failed") rfl).1,
   by decide⟩

/-- The lookup by the refresh token `r1` in the store with two holders finds `s1`, the
holder with the lesser id. -/
theorem twinTokenDatabase_first :
    firstRow Session.ID twinTokenDatabase.sessions (fun r => decide (r.RefreshToken = "r1"))
      = some { ID := "s1", UserID := "u1", AccessToken := "a1", RefreshToken := "r1",
               CreatedAt := 10, ExpireOn := 1000 } := by
  have hlt : ¬ ("s2" < "s1") := by
    rw [String.lt_iff_toList_lt]
    decide
  simp only [firstRow, twinTokenDatabase]
  simp only [List.filter, decide_True, List.foldl, earlierRow, hlt, if_false]

/-- The refresh of `r1` in the store with two holders. -/
theorem twinTokenDatabase_refresh :
    (RefreshToken twinTokenDatabase noFaults "r1" "s3" "a3" "r3" 30 30).result
      = Except.ok { ID := "s3", UserID := "u1", AccessToken := "a3", RefreshToken := "r3",
                    CreatedAt := 30, ExpireOn := (30 + Hour * 48) / 1000000000 } ∧
    (RefreshToken twinTokenDatabase noFaults "r1" "s3" "a3" "r3" 30 30).db
      = { users := sampleDatabase.users,
          sessions :=
            [{ ID := "s2", UserID := "u2", AccessToken := "a2", RefreshToken := "r1",
               CreatedAt := 20, ExpireOn := 2000 },
             { ID := "s3", UserID := "u1", AccessToken := "a3", RefreshToken := "r3",
               CreatedAt := 30, ExpireOn := (30 + Hour * 48) / 1000000000 }] } := by
  unfold RefreshToken
  simp only [queryFirst, noFaults, twinTokenDatabase_first]
  exact ⟨rfl, rfl⟩

/-- C12, as the claim states it, fails.  In a store where two sessions hold `r1`, a
successful `RefreshToken("r1")` deletes only the session the lookup found, `s1`: the
session `s2` still holds `r1`, and a second `RefreshToken("r1")` succeeds.  In a store
where one session holds `r1`, a successful `RefreshToken("r1")` whose generated refresh
token is `r1` again leaves the new session holding `r1`, and a second call succeeds. -/
theorem refresh_may_leave_the_token_in_use :
    (RefreshToken twinTokenDatabase noFaults "r1" "s3" "a3" "r3" 30 30).result
      = Except.ok { ID := "s3", UserID := "u1", AccessToken := "a3", RefreshToken := "r3",
                    CreatedAt := 30, ExpireOn := (30 + Hour * 48) / 1000000000 } ∧
    (RefreshToken twinTokenDatabase noFaults "r1" "s3" "a3" "r3" 30 30).db.sessions.map
        (fun x => (x.ID, x.UserID, x.RefreshToken))
      = [("s2", "u2", "r1"), ("s3", "u1", "r3")] ∧
    (RefreshToken (RefreshToken twinTokenDatabase noFaults "r1" "s3" "a3" "r3" 30 30).db
        noFaults "r1" "s4" "a4" "r4" 40 40).result
      = Except.ok { ID := "s4", UserID := "u2", AccessToken := "a4", RefreshToken := "r4",
                    CreatedAt := 40, ExpireOn := (40 + Hour * 48) / 1000000000 } ∧
    (RefreshToken sampleDatabase noFaults "r1" "s3" "a3" "r1" 30 30).result
      = Except.ok { ID := "s3", UserID := "u1", AccessToken := "a3", RefreshToken := "r1",
                    CreatedAt := 30, ExpireOn := (30 + Hour * 48) / 1000000000 } ∧
    (RefreshToken sampleDatabase noFaults "r1" "s3" "a3" "r1" 30 30).db.sessions.map
        (fun x => (x.ID, x.UserID, x.RefreshToken))
      = [("s2", "u2", "r2"), ("s3", "u1", "r1")] ∧
    (RefreshToken (RefreshToken sampleDatabase noFaults "r1" "s3" "a3" "r1" 30 30).db
        noFaults "r1" "s4" "a4" "r4" 40 40).result
      = Except.ok { ID := "s4", UserID := "u1", AccessToken := "a4", RefreshToken := "r4",
                    CreatedAt := 40, ExpireOn := (40 + Hour * 48) / 1000000000 } := by
  refine ⟨twinTokenDatabase_refresh.1, ?_, ?_, rfl, by decide, rfl⟩
  · rw [twinTokenDatabase_refresh.2]
    decide
  · rw [twinTokenDatabase_refresh.2]
    rfl

/-- C12, amended.  Let the refresh token `t` be held by exactly one session `os` of the
store, and let the refresh token generated for the new session differ from `t`.  A
successful `RefreshToken(t)` returns a session `s` with the generated id and tokens that
belongs to the user of `os`; the committed sessions are those of before without `os`,
followed by `s`, which was not among them; no session holds `t` any more, and a second
`RefreshToken(t)` fails, with record-not-found when the database answers the lookup;
every other session, and every user, is unchanged. -/
theorem refresh_postcondition (db : Database) (faults : RefreshFaults) (t : String)
    (uuid accessToken refreshToken : String) (createdAt now : Time) (os s : Session)
    (hone : db.sessions.filter (fun r => decide (r.RefreshToken = t)) = [os])
    (hfresh : refreshToken ≠ t)
    (hok : (RefreshToken db faults t uuid accessToken refreshToken createdAt now).result
      = Except.ok s) :
    s = { ID := uuid, UserID := os.UserID, AccessToken := accessToken,
          RefreshToken := refreshToken, CreatedAt := createdAt,
          ExpireOn := (now + Hour * 48) / 1000000000 } ∧
    (RefreshToken db faults t uuid accessToken refreshToken createdAt now).db.sessions
      = db.sessions.filter (fun r => decide (r ≠ os)) ++ [s] ∧
    s ∉ db.sessions ∧
    (∀ x ∈ (RefreshToken db faults t uuid accessToken refreshToken createdAt now).db.sessions,
      x.RefreshToken ≠ t) ∧
    (∀ x ∈ db.sessions, x ≠ os →
      x ∈ (RefreshToken db faults t uuid accessToken refreshToken createdAt now).db.sessions) ∧
    (RefreshToken db faults t uuid accessToken refreshToken createdAt now).db.users
      = db.users ∧
    (∀ (faults2 : RefreshFaults) (uuid2 accessToken2 refreshToken2 : String)
        (createdAt2 now2 : Time),
      ∃ err,
        (RefreshToken (RefreshToken db faults t uuid accessToken refreshToken createdAt now).db
          faults2 t uuid2 accessToken2 refreshToken2 createdAt2 now2).result
          = Except.error err ∧
        (faults2.lookup = none → err = DbError.recordNotFound)) := by
  have hos : os ∈ db.sessions ∧ os.RefreshToken = t := by
    have : os ∈ db.sessions.filter (fun r => decide (r.RefreshToken = t)) := by
      rw [hone]; exact List.mem_cons_self _ _
    simpa using List.mem_filter.1 this
  have honly : ∀ x ∈ db.sessions, x.RefreshToken = t → x = os := by
    intro x hx hxt
    have : x ∈ db.sessions.filter (fun r => decide (r.RefreshToken = t)) :=
      List.mem_filter.2 ⟨hx, by simpa using hxt⟩
    rw [hone] at this
    simpa using this
  rcases RefreshToken_cases db faults t uuid accessToken refreshToken createdAt now with
    ⟨e, he, _, _⟩ | ⟨os1, hfirst, _, hany, hres, hdb⟩
  · rw [he] at hok
    exact absurd hok (by simp)
  · have h1 : os1 = os := by
      have := firstRow_of_single Session.ID db.sessions _ os hone
      rw [hfirst] at this
      exact Option.some.inj this
    subst h1
    have hs : s =
        { ID := uuid, UserID := os1.UserID, AccessToken := accessToken,
          RefreshToken := refreshToken, CreatedAt := createdAt,
          ExpireOn := (now + Hour * 48) / 1000000000 } := by
      rw [hres] at hok
      exact (Except.ok.inj hok).symm
    have hsessions :
        (RefreshToken db faults t uuid accessToken refreshToken createdAt now).db.sessions
          = db.sessions.filter (fun r => decide (r ≠ os1)) ++ [s] := by
      rw [hdb, ← hs]
      simp only [List.filter_append]
      congr 1
      · apply List.filter_congr
        intro x hx
        by_cases hxo : x = os1
        · subst hxo; simp [hos.2]
        · have : ¬ (x.RefreshToken = t ∧ x.ID = os1.ID) := fun h => hxo (honly x hx h.1)
          simp [hxo, this]
      · have : ¬ (s.RefreshToken = t ∧ s.ID = os1.ID) := by
          rw [hs]; exact fun h => hfresh h.1
        simp [List.filter_cons, this]
    have hnew : s ∉ db.sessions := by
      intro hmem
      have : db.sessions.any (fun r => r.ID = uuid) = true := by
        rw [List.any_eq_true]
        exact ⟨s, hmem, by rw [hs]; simp⟩
      rw [hany] at this
      exact absurd this (by simp)
    have hnone : ∀ x ∈ (RefreshToken db faults t uuid accessToken refreshToken createdAt
        now).db.sessions, x.RefreshToken ≠ t := by
      intro x hx
      rw [hsessions] at hx
      rcases List.mem_append.1 hx with hx | hx
      · have hx' := List.mem_filter.1 hx
        intro hxt
        exact (by simpa using hx'.2 : x ≠ os1) (honly x hx'.1 hxt)
      · have : x = s := by simpa using hx
        rw [this, hs]
        exact hfresh
    refine ⟨hs, hsessions, hnew, hnone, ?_, by rw [hdb], ?_⟩
    · intro x hx hxo
      rw [hsessions]
      exact List.mem_append_left _ (List.mem_filter.2 ⟨hx, by simpa using hxo⟩)
    · intro faults2 uuid2 accessToken2 refreshToken2 createdAt2 now2
      have hfirst2 : firstRow Session.ID
          (RefreshToken db faults t uuid accessToken refreshToken createdAt now).db.sessions
          (fun r => decide (r.RefreshToken = t)) = none := by
        rw [firstRow_eq_none_iff]
        intro r hr
        simpa using hnone r hr
      rcases RefreshToken_cases
          (RefreshToken db faults t uuid accessToken refreshToken createdAt now).db
          faults2 t uuid2 accessToken2 refreshToken2 createdAt2 now2 with
        ⟨e, he, _, _⟩ | ⟨os2, hf2, _, _, _, _⟩
      · refine ⟨e, he, ?_⟩
        intro hl
        have := (refresh_lookup_not_found _ faults2 t uuid2 accessToken2 refreshToken2
          createdAt2 now2 hfirst2 hl)
        rw [he] at this
        exact Except.error.inj this
      · rw [hfirst2] at hf2
        exact absurd hf2 (by simp)

/-- Witness for C12: the session `s1` of user `u1` is refreshed with its token `r1`. -/
theorem refresh_postcondition_witness :
    ∃ s, (RefreshToken sampleDatabase noFaults "r1" "s3" "a3" "r3" 30 30).result
        = Except.ok s ∧
      s.UserID = "u1" ∧
      (RefreshToken sampleDatabase noFaults "r1" "s3" "a3" "r3" 30 30).db.sessions.map
          (fun x => (x.ID, x.RefreshToken)) = [("s2", "r2"), ("s3", "r3")] ∧
      (RefreshToken (RefreshToken sampleDatabase noFaults "r1" "s3" "a3" "r3" 30 30).db
          noFaults "r1" "s4" "a4" "r4" 40 40).result = Except.error DbError.recordNotFound :=
  ⟨{ ID := "s3", UserID := "u1", AccessToken := "a3", RefreshToken := "r3", CreatedAt := 30,
     ExpireOn := (30 + Hour * 48) / 1000000000 },
   rfl,
   rfl,
   by decide,
   by
    obtain ⟨err, he, hl⟩ := (refresh_postcondition sampleDatabase noFaults "r1" "s3" "a3" "r3"
      30 30 { ID := "s1", UserID := "u1", AccessToken := "a1", RefreshToken := "r1",
              CreatedAt := 10, ExpireOn := 1000 }
      { ID := "s3", UserID := "u1", AccessToken := "a3", RefreshToken := "r3", CreatedAt := 30,
        ExpireOn := (30 + Hour * 48) / 1000000000 }
      (by decide) (by decide) rfl).2.2.2.2.2.2 noFaults "s4" "a4" "r4" 40 40
    rw [he, hl rfl]⟩

/-- The session `Login` builds for the user `u`. -/
theorem Login_found (CheckPassword : String → String → Bool) (db : Database)
    (insertFault : Option DbError) (email password : String)
    (uuid accessToken refreshToken : String) (createdAt now : Time) (u : User)
    (hfirst : firstRow User.ID db.users
      (fun u => decide (u.Email = email ∧ u.Status = UserStatus.active)) = some u) :
    Login CheckPassword db none insertFault email password uuid accessToken refreshToken
        createdAt now
      = if CheckPassword u.Password password = false then
          (Except.error DbError.recordNotFound, db)
        else
          match insertFault with
          | some err => (Except.error err, db)
          | none =>
            if db.sessions.any (fun r => r.ID = uuid) = true then
              (Except.error (DbError.duplicateKey "sessions_pkey"), db)
            else
              (Except.ok
                { ID := uuid, UserID := u.ID, AccessToken := accessToken,
                  RefreshToken := refreshToken, CreatedAt := createdAt,
                  ExpireOn := (now + Hour * 48) / 1000000000 },
               { db with sessions := db.sessions ++
                  [{ ID := uuid, UserID := u.ID, AccessToken := accessToken,
                     RefreshToken := refreshToken, CreatedAt := createdAt,
                     ExpireOn := (now + Hour * 48) / 1000000000 }] }) := by
  simp only [Login, queryFirst, hfirst]
  cases hpw : CheckPassword u.Password password with
  | false => simp
  | true =>
    cases insertFault with
    | some e => simp [insertSession]
    | none =>
      by_cases hany : db.sessions.any (fun r => r.ID = uuid) = true
      · simp [insertSession, hany]
      · simp [insertSession, hany]

/-- The answer of `Login` when the lookup returns no user. -/
theorem Login_not_found (CheckPassword : String → String → Bool) (db : Database)
    (lookupFault insertFault : Option DbError) (email password : String)
    (uuid accessToken refreshToken : String) (createdAt now : Time)
    (h : lookupFault ≠ none ∨ firstRow User.ID db.users
      (fun u => decide (u.Email = email ∧ u.Status = UserStatus.active)) = none) :
    Login CheckPassword db lookupFault insertFault email password uuid accessToken
        refreshToken createdAt now
      = (Except.error (lookupFault.getD DbError.recordNotFound), db) := by
  cases lookupFault with
  | some e => simp [Login, queryFirst]
  | none =>
    rcases h with h | h
    · exact absurd rfl h
    · simp only [Login, queryFirst, h, Option.getD_none]

/-- C19.  `Login` with a database that answers its statements and a generated id that
no session has: a session is created exactly when the lookup finds an active user with
that email and the password check on that user succeeds.  In general: when the password
check fails the error is record-not-found, the same as for an email that no active user
has; whenever `Login` returns an error (also when the database fails at the lookup or
the insert) the database is left as it was, so no session is created; and on success
exactly one session is added, which belongs to the user found, an active user with that
email whose password check succeeded. -/
theorem login_uniform (CheckPassword : String → String → Bool) (db : Database)
    (lookupFault insertFault : Option DbError) (email password : String)
    (uuid accessToken refreshToken : String) (createdAt now : Time) :
    (lookupFault = none → insertFault = none →
      db.sessions.any (fun r => r.ID = uuid) = false →
      ((∃ s, (Login CheckPassword db lookupFault insertFault email password uuid accessToken
          refreshToken createdAt now).1 = Except.ok s) ↔
        ∃ u, u ∈ db.users ∧ u.Email = email ∧ u.Status = UserStatus.active ∧
          firstRow User.ID db.users
            (fun u => decide (u.Email = email ∧ u.Status = UserStatus.active)) = some u ∧
          CheckPassword u.Password password = true)) ∧
    (∀ u, lookupFault = none →
      firstRow User.ID db.users
        (fun u => decide (u.Email = email ∧ u.Status = UserStatus.active)) = some u →
      CheckPassword u.Password password = false →
      (Login CheckPassword db lookupFault insertFault email password uuid accessToken
        refreshToken createdAt now).1 = Except.error DbError.recordNotFound) ∧
    (lookupFault = none →
      (∀ u ∈ db.users, ¬ (u.Email = email ∧ u.Status = UserStatus.active)) →
      (Login CheckPassword db lookupFault insertFault email password uuid accessToken
        refreshToken createdAt now).1 = Except.error DbError.recordNotFound) ∧
    (∀ err, (Login CheckPassword db lookupFault insertFault email password uuid accessToken
        refreshToken createdAt now).1 = Except.error err →
      (Login CheckPassword db lookupFault insertFault email password uuid accessToken
        refreshToken createdAt now).2 = db) ∧
    (∀ s, (Login CheckPassword db lookupFault insertFault email password uuid accessToken
        refreshToken createdAt now).1 = Except.ok s →
      ∃ u, u ∈ db.users ∧ u.Email = email ∧ u.Status = UserStatus.active ∧
        CheckPassword u.Password password = true ∧ s.UserID = u.ID ∧ s.ID = uuid ∧
        (Login CheckPassword db lookupFault insertFault email password uuid accessToken
          refreshToken createdAt now).2.sessions = db.sessions ++ [s] ∧
        (Login CheckPassword db lookupFault insertFault email password uuid accessToken
          refreshToken createdAt now).2.users = db.users) := by
  have hmem : ∀ u, firstRow User.ID db.users
      (fun u => decide (u.Email = email ∧ u.Status = UserStatus.active)) = some u →
      u ∈ db.users ∧ u.Email = email ∧ u.Status = UserStatus.active := by
    intro u hu
    have := firstRow_some _ _ _ u hu
    simpa using this
  -- the two ways the lookup ends
  have hlook : (lookupFault ≠ none ∨ firstRow User.ID db.users
        (fun u => decide (u.Email = email ∧ u.Status = UserStatus.active)) = none) ∨
      (lookupFault = none ∧ ∃ u, firstRow User.ID db.users
        (fun u => decide (u.Email = email ∧ u.Status = UserStatus.active)) = some u) := by
    cases lookupFault with
    | some e => exact Or.inl (Or.inl (by simp))
    | none =>
      cases hf : firstRow User.ID db.users
          (fun u => decide (u.Email = email ∧ u.Status = UserStatus.active)) with
      | none => exact Or.inl (Or.inr rfl)
      | some u => exact Or.inr ⟨rfl, u, rfl⟩
  refine ⟨?_, ?_, ?_, ?_, ?_⟩
  · intro hl hi hany
    subst hl
    subst hi
    constructor
    · rintro ⟨s, hs⟩
      rcases hlook with h | ⟨_, u, hu⟩
      · rw [Login_not_found _ _ _ _ _ _ _ _ _ _ _ h] at hs
        exact absurd hs (by simp)
      · rw [Login_found _ _ _ _ _ _ _ _ _ _ u hu] at hs
        cases hpw : CheckPassword u.Password password with
        | false => simp [hpw] at hs
        | true => exact ⟨u, (hmem u hu).1, (hmem u hu).2.1, (hmem u hu).2.2, hu, hpw⟩
    · rintro ⟨u, _, _, _, hu, hpw⟩
      rw [Login_found _ _ _ _ _ _ _ _ _ _ u hu]
      simp [hpw, hany]
  · intro u hl hu hpw
    subst hl
    rw [Login_found _ _ _ _ _ _ _ _ _ _ u hu]
    simp [hpw]
  · intro hl hnone
    have hf : firstRow User.ID db.users
        (fun u => decide (u.Email = email ∧ u.Status = UserStatus.active)) = none := by
      rw [firstRow_eq_none_iff]
      intro r hr
      simpa using hnone r hr
    rw [Login_not_found _ _ _ _ _ _ _ _ _ _ _ (Or.inr hf), hl]
    rfl
  · intro err herr
    rcases hlook with h | ⟨hl, u, hu⟩
    · rw [Login_not_found _ _ _ _ _ _ _ _ _ _ _ h]
    · subst hl
      rw [Login_found _ _ _ _ _ _ _ _ _ _ u hu] at herr ⊢
      cases hpw : CheckPassword u.Password password with
      | false => simp
      | true =>
        cases insertFault with
        | some e => simp
        | none =>
          by_cases hany : db.sessions.any (fun r => r.ID = uuid) = true
          · simp [hany]
          · simp [hpw, hany] at herr
  · intro s hs
    rcases hlook with h | ⟨hl, u, hu⟩
    · rw [Login_not_found _ _ _ _ _ _ _ _ _ _ _ h] at hs
      exact absurd hs (by simp)
    · subst hl
      rw [Login_found _ _ _ _ _ _ _ _ _ _ u hu] at hs ⊢
      cases hpw : CheckPassword u.Password password with
      | false => simp [hpw] at hs
      | true =>
        cases insertFault with
        | some e => simp [hpw] at hs
        | none =>
          by_cases hany : db.sessions.any (fun r => r.ID = uuid) = true
          · simp [hpw, hany] at hs
          · simp only [hpw, hany] at hs ⊢
            simp only [Bool.true_eq_false, Bool.false_eq_true, if_false,
              Except.ok.injEq] at hs ⊢
            subst hs
            refine ⟨u, (hmem u hu).1, (hmem u hu).2.1, (hmem u hu).2.2, hpw, ?_⟩
            simp

/-- Witness for C19: Alice logs in with her password and gets a session; with a wrong
password, and for the blocked user Bob with his password, the error is record-not-found
and the sessions are untouched. -/
theorem login_uniform_witness :
    (∃ s, (Login samePassword sampleDatabase none none "alice@example.com" "alice-secret"
        "s3" "a3" "r3" 30 30).1 = Except.ok s) ∧
    (Login samePassword sampleDatabase none none "alice@example.com" "wrong"
        "s3" "a3" "r3" 30 30) = (Except.error DbError.recordNotFound, sampleDatabase) ∧
    (Login samePassword sampleDatabase none none "bob@example.com" "bob-secret"
        "s3" "a3" "r3" 30 30) = (Except.error DbError.recordNotFound, sampleDatabase) ∧
    (Login samePassword sampleDatabase none none "alice@example.com" "alice-secret"
        "s3" "a3" "r3" 30 30).2.sessions.map (fun s => (s.ID, s.UserID))
      = [("s1", "u1"), ("s2", "u2"), ("s3", "u1")] :=
  ⟨((login_uniform samePassword sampleDatabase none none "alice@example.com" "alice-secret"
      "s3" "a3" "r3" 30 30).1 rfl rfl (by decide)).2
      ⟨{ ID := "u1", Name := "Alice", Status := UserStatus.active, Phone := none,
         ProfilePicture := none, Password := "alice-secret", PermissionID := "g1",
         Email := "alice@example.com", CreatedAt := 1, UpdatedAt := 1 },
       by decide, rfl, rfl, by decide, by decide⟩,
   rfl, rfl, by decide⟩

/-- With distinct primary keys, the rows whose id is that of a stored user are that
user alone. -/
theorem filter_id_of_nodup (users : List User) (u0 : User)
    (hpk : (users.map (fun u => u.ID)).Nodup) (hu0 : u0 ∈ users) :
    users.filter (fun u => decide (u.ID = u0.ID)) = [u0] := by
  induction users with
  | nil => simp at hu0
  | cons a l ih =>
    rw [List.map_cons, List.nodup_cons] at hpk
    rcases List.mem_cons.1 hu0 with h | h
    · subst h
      have hrest : l.filter (fun u => decide (u.ID = u0.ID)) = [] := by
        rw [List.filter_eq_nil_iff]
        intro r hr hid
        exact hpk.1 (List.mem_map.2 ⟨r, hr, by simpa using hid⟩)
      rw [List.filter_cons_of_pos (by simp), hrest]
    · have hne : a.ID ≠ u0.ID := by
        intro he
        exact hpk.1 (List.mem_map.2 ⟨u0, h, he.symm⟩)
      rw [List.filter_cons_of_neg (by simpa using hne)]
      exact ih hpk.2 h

/-- The three ways `Update` ends: the lookup fails, the save fails, or the row found is
written. -/
theorem Update_cases (db : Database) (lookupFault saveFault : Option DbError)
    (userID : String) (ud : User) (now : Time) :
    ((∃ err, Update db lookupFault saveFault userID ud now = (Except.error err, db)) ∧
      (lookupFault ≠ none ∨ saveFault ≠ none ∨
        firstRow User.ID db.users (fun u => decide (u.ID = userID)) = none) ∧
      (lookupFault = none →
        firstRow User.ID db.users (fun u => decide (u.ID = userID)) = none →
        Update db lookupFault saveFault userID ud now
          = (Except.error DbError.recordNotFound, db))) ∨
    (∃ u0, lookupFault = none ∧ saveFault = none ∧
      firstRow User.ID db.users (fun u => decide (u.ID = userID)) = some u0 ∧
      Update db lookupFault saveFault userID ud now =
        (Except.ok { u0 with Name := ud.Name, ProfilePicture := ud.ProfilePicture,
                             Phone := ud.Phone, UpdatedAt := now },
         { db with users := db.users.map (fun r =>
             if r.ID = u0.ID ∧ r.ID = userID then
               { u0 with Name := ud.Name, ProfilePicture := ud.ProfilePicture,
                         Phone := ud.Phone, UpdatedAt := now }
             else r) })) := by
  cases lookupFault with
  | some e =>
    left
    exact ⟨⟨e, by simp [Update, queryFirst]⟩, Or.inl (by simp), by simp⟩
  | none =>
    cases hf : firstRow User.ID db.users (fun u => decide (u.ID = userID)) with
    | none =>
      left
      exact ⟨⟨DbError.recordNotFound, by simp [Update, queryFirst, hf]⟩,
        Or.inr (Or.inr rfl), by simp [Update, queryFirst, hf]⟩
    | some u0 =>
      cases saveFault with
      | some e =>
        left
        exact ⟨⟨e, by simp [Update, queryFirst, hf, saveUser]⟩, Or.inr (Or.inl (by simp)),
          by simp⟩
      | none =>
        right
        exact ⟨u0, rfl, rfl, rfl, by simp [Update, queryFirst, hf, saveUser]⟩

/-- C18, as the claim states it, fails: the update of Alice's name, picture and phone
also changes a fourth field of her stored record, `UpdatedAt`, from 1 to the time 50 of
the write. -/
theorem update_also_stamps_the_time :
    (Update sampleDatabase none none "u1" renamePayload 50).1
      = Except.ok { ID := "u1", Name := "Alice B", Status := UserStatus.active,
                    Phone := some "777", ProfilePicture := none, Password := "alice-secret",
                    PermissionID := "g1", Email := "alice@example.com", CreatedAt := 1,
                    UpdatedAt := 50 } ∧
    sampleDatabase.users.map (fun u => (u.ID, u.UpdatedAt)) = [("u1", 1), ("u2", 2)] ∧
    (Update sampleDatabase none none "u1" renamePayload 50).2.users.map
        (fun u => (u.ID, u.UpdatedAt)) = [("u1", 50), ("u2", 2)] ∧
    (Update sampleDatabase none none "u1" renamePayload 50).2.users
      ≠ sampleDatabase.users.map (fun u =>
          if u.ID = "u1" then
            { u with Name := renamePayload.Name, ProfilePicture := renamePayload.ProfilePicture,
                     Phone := renamePayload.Phone }
          else u) :=
  ⟨rfl, by decide, by decide, by decide⟩

/-- C18, amended.  `Update` on a users table with distinct primary keys.  For a stored
user `u0` with id `userID`: when the database answers both statements the call succeeds;
on success the record returned is `u0` with `Name`, `ProfilePicture` and `Phone` taken
from the payload and `UpdatedAt` stamped with the time of the write, so `ID`, `Email`,
`Password`, `Status`, `PermissionID` and `CreatedAt` are those of `u0`; the table is the
old one with that one row replaced by the record, every other user and every session is
unchanged.  For an id that no user has the call returns an error (record-not-found when
the database answers), and whenever it returns an error the database is unchanged. -/
theorem update_frame (db : Database) (lookupFault saveFault : Option DbError)
    (userID : String) (ud : User) (now : Time)
    (hpk : (db.users.map (fun u => u.ID)).Nodup) :
    (∀ u0 ∈ db.users, u0.ID = userID →
      (lookupFault = none → saveFault = none →
        ∃ u, (Update db lookupFault saveFault userID ud now).1 = Except.ok u) ∧
      (∀ u, (Update db lookupFault saveFault userID ud now).1 = Except.ok u →
        u = { u0 with Name := ud.Name, ProfilePicture := ud.ProfilePicture,
                      Phone := ud.Phone, UpdatedAt := now } ∧
        (u.Name = ud.Name ∧ u.ProfilePicture = ud.ProfilePicture ∧ u.Phone = ud.Phone) ∧
        (u.ID = u0.ID ∧ u.Email = u0.Email ∧ u.Password = u0.Password ∧
          u.Status = u0.Status ∧ u.PermissionID = u0.PermissionID ∧
          u.CreatedAt = u0.CreatedAt) ∧
        (Update db lookupFault saveFault userID ud now).2.users
          = db.users.map (fun r => if r = u0 then u else r) ∧
        (∀ r ∈ db.users, r ≠ u0 →
          r ∈ (Update db lookupFault saveFault userID ud now).2.users) ∧
        (∀ r ∈ (Update db lookupFault saveFault userID ud now).2.users,
          r = u ∨ (r ∈ db.users ∧ r ≠ u0)) ∧
        u ∈ (Update db lookupFault saveFault userID ud now).2.users ∧
        (Update db lookupFault saveFault userID ud now).2.sessions = db.sessions)) ∧
    ((∀ u ∈ db.users, u.ID ≠ userID) →
      (∃ err, Update db lookupFault saveFault userID ud now = (Except.error err, db)) ∧
      (lookupFault = none →
        Update db lookupFault saveFault userID ud now
          = (Except.error DbError.recordNotFound, db))) ∧
    (∀ err, (Update db lookupFault saveFault userID ud now).1 = Except.error err →
      (Update db lookupFault saveFault userID ud now).2 = db) := by
  have hfound : ∀ u0 ∈ db.users, u0.ID = userID →
      firstRow User.ID db.users (fun u => decide (u.ID = userID)) = some u0 := by
    intro u0 hu0 hid
    subst hid
    exact firstRow_of_single _ _ _ _ (filter_id_of_nodup db.users u0 hpk hu0)
  have hsame : ∀ u0 ∈ db.users, u0.ID = userID → ∀ r ∈ db.users,
      ((r.ID = u0.ID ∧ r.ID = userID) ↔ r = u0) := by
    intro u0 hu0 hid r hr
    constructor
    · rintro ⟨h1, _⟩
      have hr1 : r ∈ db.users.filter (fun u => decide (u.ID = u0.ID)) :=
        List.mem_filter.2 ⟨hr, by simpa using h1⟩
      rw [filter_id_of_nodup db.users u0 hpk hu0] at hr1
      simpa using hr1
    · rintro rfl
      exact ⟨rfl, hid⟩
  refine ⟨?_, ?_, ?_⟩
  · intro u0 hu0 hid
    have hf := hfound u0 hu0 hid
    rcases Update_cases db lookupFault saveFault userID ud now with
      ⟨⟨err, he⟩, hwhy, _⟩ | ⟨v, hl, hs, hv, hupd⟩
    · refine ⟨?_, ?_⟩
      · intro hl hs
        rcases hwhy with h | h | h
        · exact absurd hl h
        · exact absurd hs h
        · rw [hf] at h
          exact absurd h (by simp)
      · intro u hu
        rw [he] at hu
        exact absurd hu (by simp)
    · rw [hf] at hv
      have hv0 : u0 = v := Option.some.inj hv
      subst hv0
      have hmap : db.users.map (fun r =>
            if r.ID = u0.ID ∧ r.ID = userID then
              { u0 with Name := ud.Name, ProfilePicture := ud.ProfilePicture,
                        Phone := ud.Phone, UpdatedAt := now }
            else r)
          = db.users.map (fun r => if r = u0 then
              { u0 with Name := ud.Name, ProfilePicture := ud.ProfilePicture,
                        Phone := ud.Phone, UpdatedAt := now }
            else r) := by
        apply List.map_congr_left
        intro r hr
        by_cases h : r = u0
        · rw [if_pos ((hsame u0 hu0 hid r hr).2 h), if_pos h]
        · rw [if_neg (fun hc => h ((hsame u0 hu0 hid r hr).1 hc)), if_neg h]
      rw [hupd]
      refine ⟨fun _ _ => ⟨_, rfl⟩, ?_⟩
      intro u hu
      have hu1 : { u0 with Name := ud.Name, ProfilePicture := ud.ProfilePicture,
                           Phone := ud.Phone, UpdatedAt := now } = u :=
        Except.ok.inj hu
      subst hu1
      refine ⟨rfl, ⟨rfl, rfl, rfl⟩, ⟨rfl, rfl, rfl, rfl, rfl, rfl⟩, hmap, ?_, ?_, ?_, rfl⟩
      · intro r hr hne
        show r ∈ List.map _ db.users
        rw [hmap]
        exact List.mem_map.2 ⟨r, hr, by rw [if_neg hne]⟩
      · intro r hr
        have hr1 : r ∈ List.map _ db.users := hr
        rw [hmap] at hr1
        rcases List.mem_map.1 hr1 with ⟨a, ha, hra⟩
        by_cases h : a = u0
        · rw [if_pos h] at hra
          exact Or.inl hra.symm
        · rw [if_neg h] at hra
          subst hra
          exact Or.inr ⟨ha, h⟩
      · show _ ∈ List.map _ db.users
        rw [hmap]
        exact List.mem_map.2 ⟨u0, hu0, by rw [if_pos rfl]⟩
  · intro hnone
    have hf : firstRow User.ID db.users (fun u => decide (u.ID = userID)) = none := by
      rw [firstRow_eq_none_iff]
      intro r hr
      simpa using hnone r hr
    rcases Update_cases db lookupFault saveFault userID ud now with
      ⟨he, _, hnf⟩ | ⟨v, _, _, hv, _⟩
    · exact ⟨he, fun hl => hnf hl hf⟩
    · rw [hf] at hv
      exact absurd hv (by simp)
  · intro err herr
    rcases Update_cases db lookupFault saveFault userID ud now with
      ⟨⟨e, he⟩, _, _⟩ | ⟨v, _, _, _, hupd⟩
    · rw [he]
    · rw [hupd] at herr
      exact absurd herr (by simp)

/-- Witness for C18: Alice changes her name and phone; her row is rewritten, Bob's row
and the sessions stay, and an update for an id that no user has is refused. -/
theorem update_frame_witness :
    (sampleDatabase.users.map (fun u => u.ID)).Nodup ∧
    (∃ u, (Update sampleDatabase none none "u1"
        { ID := "", Name := "Alice B", Status := UserStatus.active, Phone := some "777",
          ProfilePicture := none, Password := "", PermissionID := "", Email := "",
          CreatedAt := 0, UpdatedAt := 0 } 50).1 = Except.ok u) ∧
    (Update sampleDatabase none none "u1"
        { ID := "", Name := "Alice B", Status := UserStatus.active, Phone := some "777",
          ProfilePicture := none, Password := "", PermissionID := "", Email := "",
          CreatedAt := 0, UpdatedAt := 0 } 50).2.users.map
        (fun u => (u.ID, u.Name, u.Phone, u.Email, u.Password, u.UpdatedAt))
      = [("u1", "Alice B", some "777", "alice@example.com", "alice-secret", 50),
         ("u2", "Bob", some "555", "bob@example.com", "bob-secret", 2)] ∧
    Update sampleDatabase none none "u9"
        { ID := "", Name := "Alice B", Status := UserStatus.active, Phone := some "777",
          ProfilePicture := none, Password := "", PermissionID := "", Email := "",
          CreatedAt := 0, UpdatedAt := 0 } 50
      = (Except.error DbError.recordNotFound, sampleDatabase) :=
  ⟨by decide,
   ((update_frame sampleDatabase none none "u1"
      { ID := "", Name := "Alice B", Status := UserStatus.active, Phone := some "777",
        ProfilePicture := none, Password := "", PermissionID := "", Email := "",
        CreatedAt := 0, UpdatedAt := 0 } 50 (by decide)).1
      { ID := "u1", Name := "Alice", Status := UserStatus.active, Phone := none,
        ProfilePicture := none, Password := "alice-secret", PermissionID := "g1",
        Email := "alice@example.com", CreatedAt := 1, UpdatedAt := 1 }
      (by decide) rfl).1 rfl rfl,
   by decide, rfl⟩

end UserTheorems

end Shopicano
